import Mathlib

/-!
Verification of the tic-tac-toe game-logic core (`game_logic.py`).

The board is a 3×3 grid of Python strings: an open cell holds its 1-based
position label `"1"`..`"9"`, an occupied cell holds `"X"` or `"O"`.
We embed the board as a function `Fin 3 → Fin 3 → String`, Python list
indexing (including negative indices and `IndexError`) as partial functions
into `Option`, mutation as explicit state passing, `random.choice` as an
oracle-supplied index draw, and `float('-inf')`/`float('inf')` sentinels as
an extended-integer type `EInt`.
-/

set_option maxRecDepth 10000

/-- A 3×3 tic-tac-toe board: `cells r c` is the string stored at row `r`,
column `c` (`"X"`, `"O"`, or a position label `"1"`..`"9"`). -/
structure Board where
  cells : Fin 3 → Fin 3 → String

instance : DecidableEq Board := fun a b =>
  match a, b with
  | ⟨f⟩, ⟨g⟩ =>
    if h : ∀ r c, f r c = g r c then
      isTrue (by cases a; cases b; simp only [Board.mk.injEq]; funext r c; exact h r c)
    else
      isFalse (by
        intro hc
        apply h
        intro r c
        have : f = g := congrArg Board.cells hc
        rw [this])

/-- The position label `str(row*3 + col + 1)` stored in an open cell. -/
def posLabel (r c : Fin 3) : String := toString (r.val * 3 + c.val + 1)

/-- The freshly initialized board of `Board.__init__` / `Board.reset`:
every cell holds its position label. -/
def initialBoard : Board := ⟨fun r c => posLabel r c⟩

/-- `Board.get_cell`. -/
def Board.get_cell (b : Board) (r c : Fin 3) : String := b.cells r c

/-- Functional update of one cell (the embedding of `self.cells[row][col] = v`). -/
def Board.setCell (b : Board) (r c : Fin 3) (v : String) : Board :=
  ⟨fun r' c' => if r' = r ∧ c' = c then v else b.cells r' c'⟩

/-- Python list indexing on a length-3 list: indices `0..2` and `-3..-1`
resolve, everything else raises `IndexError` (modelled as `none`). -/
def pyIdx3 (i : Int) : Option (Fin 3) :=
  if h : 0 ≤ i ∧ i < 3 then some ⟨i.toNat, by omega⟩
  else if h' : -3 ≤ i ∧ i < 0 then some ⟨(i + 3).toNat, by omega⟩
  else none

/-- `Board.place_move(row, col, player)`.  Python indexes `self.cells[row][col]`
directly, so an index outside `-3..2` raises `IndexError` (modelled as `none`);
otherwise, if the cell holds `"X"` or `"O"` the call returns `False` without
mutating, else it writes `player` and returns `True`.  The result pairs the
returned boolean with the board after the call. -/
def Board.place_move (b : Board) (row col : Int) (player : String) : Option (Bool × Board) :=
  match pyIdx3 row with
  | none => none
  | some r =>
    match pyIdx3 col with
    | none => none
    | some c =>
      if b.cells r c = "X" ∨ b.cells r c = "O" then some (false, b)
      else some (true, b.setCell r c player)

/-- `Board.is_valid_move(row, col)`: in range and not occupied. -/
def Board.is_valid_move (b : Board) (row col : Int) : Bool :=
  if h : 0 ≤ row ∧ row ≤ 2 ∧ 0 ≤ col ∧ col ≤ 2 then
    let r : Fin 3 := ⟨row.toNat, by omega⟩
    let c : Fin 3 := ⟨col.toNat, by omega⟩
    ¬(b.cells r c = "X" ∨ b.cells r c = "O")
  else false

/-- The nine (row, col) pairs in row-major order, as iterated by
`for row in range(3): for col in range(3)`. -/
def allMoves : List (Fin 3 × Fin 3) :=
  [(0, 0), (0, 1), (0, 2), (1, 0), (1, 1), (1, 2), (2, 0), (2, 1), (2, 2)]

/-- Is the cell at `rc` occupied by a mark? (`cell in ["X", "O"]`). -/
def Board.occupied (b : Board) (rc : Fin 3 × Fin 3) : Bool :=
  b.cells rc.1 rc.2 = "X" ∨ b.cells rc.1 rc.2 = "O"

/-- `Board.get_open_spots`: unoccupied cells in row-major order. -/
def Board.get_open_spots (b : Board) : List (Fin 3 × Fin 3) :=
  allMoves.filter (fun rc => !b.occupied rc)

/-- The 8 lines in the order `check_winner` examines them:
three rows, three columns, main diagonal, anti-diagonal. -/
def linesList : List ((Fin 3 × Fin 3) × (Fin 3 × Fin 3) × (Fin 3 × Fin 3)) :=
  [((0, 0), (0, 1), (0, 2)),
   ((1, 0), (1, 1), (1, 2)),
   ((2, 0), (2, 1), (2, 2)),
   ((0, 0), (1, 0), (2, 0)),
   ((0, 1), (1, 1), (2, 1)),
   ((0, 2), (1, 2), (2, 2)),
   ((0, 0), (1, 1), (2, 2)),
   ((0, 2), (1, 1), (2, 0))]

/-- The value a single line contributes to `check_winner`: the common cell
value if all three cells are equal, else `none`. -/
def Board.lineWinner (b : Board) (l : (Fin 3 × Fin 3) × (Fin 3 × Fin 3) × (Fin 3 × Fin 3)) :
    Option String :=
  if b.cells l.1.1 l.1.2 = b.cells l.2.1.1 l.2.1.2 ∧
     b.cells l.2.1.1 l.2.1.2 = b.cells l.2.2.1 l.2.2.2 then
    some (b.cells l.1.1 l.1.2)
  else none

/-- `Board.check_winner`: scan rows, then columns, then the two diagonals,
returning the first line whose three cells are equal. -/
def Board.check_winner (b : Board) : Option String :=
  linesList.findSome? (fun l => b.lineWinner l)

/-- `Board.is_full`: every cell holds `"X"` or `"O"`. -/
def Board.is_full (b : Board) : Bool :=
  allMoves.all (fun rc => b.occupied rc)

/-- `Board.is_game_over`: a winner exists or the board is full. -/
def Board.is_game_over (b : Board) : Bool :=
  !(b.check_winner == none) || b.is_full

theorem initial_no_winner : initialBoard.check_winner = none := by decide

/-! ## Claim C1: `place_move` on occupied / open / out-of-range cells -/

/-- Claim C1, counterexample: calling `place_move` with the out-of-range
coordinate pair (3, 0) raises `IndexError` (modelled as `none`) instead of
returning a boolean failure, on the freshly initialized board. -/
theorem place_move_out_of_range_raises :
    initialBoard.place_move 3 0 "X" = none := by decide

/-- Claim C1 (amended): for in-range coordinates (0 ≤ row, col ≤ 2),
`place_move` on a cell occupied by either mark returns `False` and leaves the
board unchanged, and on any other cell writes the mark and returns `True`;
out-of-range coordinates are not handled (see the counterexample). -/
theorem place_move_in_range_spec (b : Board) (row col : Int) (mark : String)
    (hr : 0 ≤ row ∧ row ≤ 2) (hc : 0 ≤ col ∧ col ≤ 2) :
    ∃ r c : Fin 3, (r.val : Int) = row ∧ (c.val : Int) = col ∧
      ((b.cells r c = "X" ∨ b.cells r c = "O") →
        b.place_move row col mark = some (false, b)) ∧
      (¬(b.cells r c = "X" ∨ b.cells r c = "O") →
        b.place_move row col mark = some (true, b.setCell r c mark)) := by
  refine ⟨⟨row.toNat, by omega⟩, ⟨col.toNat, by omega⟩, ?_, ?_, ?_, ?_⟩
  · simp only [Fin.val_mk]
    omega
  · simp only [Fin.val_mk]
    omega
  · intro hocc
    have hrow : pyIdx3 row = some ⟨row.toNat, by omega⟩ := by
      unfold pyIdx3
      rw [dif_pos (by omega)]
    have hcol : pyIdx3 col = some ⟨col.toNat, by omega⟩ := by
      unfold pyIdx3
      rw [dif_pos (by omega)]
    unfold Board.place_move
    rw [hrow, hcol]
    simp [hocc]
  · intro hopen
    have hrow : pyIdx3 row = some ⟨row.toNat, by omega⟩ := by
      unfold pyIdx3
      rw [dif_pos (by omega)]
    have hcol : pyIdx3 col = some ⟨col.toNat, by omega⟩ := by
      unfold pyIdx3
      rw [dif_pos (by omega)]
    unfold Board.place_move
    rw [hrow, hcol]
    simp [hopen]

/-- Claim C1 witness: instantiating the amended statement at the fresh board
and coordinates (0, 1): the cell is open, so the mark is written and the call
succeeds. -/
theorem place_move_in_range_spec_witness :
    initialBoard.place_move 0 1 "X" = some (true, initialBoard.setCell 0 1 "X") := by
  obtain ⟨r, c, hr, hc, _, hopen⟩ :=
    place_move_in_range_spec initialBoard 0 1 "X" (by omega) (by omega)
  have hr' : r = (0 : Fin 3) := by
    apply Fin.ext
    omega
  have hc' : c = (1 : Fin 3) := by
    apply Fin.ext
    omega
  rw [hr', hc'] at hopen
  exact hopen (by decide)

/-! ## Statistics store (`GameStats`) -/

/-- One difficulty bucket `{"wins": _, "losses": _, "ties": _}`. -/
structure StatBucket where
  wins : Nat
  losses : Nat
  ties : Nat
deriving DecidableEq

/-- The two-player record `{"wins_x": _, "wins_o": _, "ties": _}`. -/
structure TwoPlayerStats where
  wins_x : Nat
  wins_o : Nat
  ties : Nat
deriving DecidableEq

/-- The full statistics value held in `self.data` (an insertion-ordered dict
of difficulty buckets plus the two-player record). -/
structure StatsData where
  single_player : List (String × StatBucket)
  two_player : TwoPlayerStats
deriving DecidableEq

/-- The empty structure `_load` returns when the file is absent. -/
def emptyStats : StatsData := ⟨[], ⟨0, 0, 0⟩⟩

/-- Contents of the statistics file: either a serialized `StatsData` or
bytes that `json.load` cannot parse (an unreadable/corrupt file). -/
inductive StatsFile where
  | valid (d : StatsData) : StatsFile
  | corrupt : StatsFile
deriving DecidableEq

/-- `GameStats._load`, over an explicit filesystem state (`none` = the stats
file does not exist).  The source checks `os.path.exists` and otherwise calls
`json.load` with no exception handler, so a present-but-unparseable file
raises (modelled as `Except.error`). -/
def GameStats._load (fs : Option StatsFile) : Except String StatsData :=
  match fs with
  | none => Except.ok emptyStats
  | some (StatsFile.valid d) => Except.ok d
  | some StatsFile.corrupt => Except.error "json.decoder.JSONDecodeError"

/-- `GameStats.save`: serialize the full data to the file. -/
def GameStats.save (d : StatsData) : StatsFile := StatsFile.valid d

/-- Apply one game result to a bucket
(`"X"` → wins, `"O"` → losses, anything else → ties). -/
def bumpBucket (winner : Option String) (bk : StatBucket) : StatBucket :=
  if winner = some "X" then { bk with wins := bk.wins + 1 }
  else if winner = some "O" then { bk with losses := bk.losses + 1 }
  else { bk with ties := bk.ties + 1 }

/-- `if difficulty not in sp: sp[difficulty] = {...}` followed by the
increment, on an insertion-ordered association list. -/
def bumpDifficulty (l : List (String × StatBucket)) (k : String) (winner : Option String) :
    List (String × StatBucket) :=
  match l with
  | [] => [(k, bumpBucket winner ⟨0, 0, 0⟩)]
  | (k', b) :: rest =>
    if k' = k then (k', bumpBucket winner b) :: rest
    else (k', b) :: bumpDifficulty rest k winner

/-- `GameStats.record_game`: mutate the matching counter bucket and
immediately `save`.  Returns the new in-memory data together with the file
written by `save`. -/
def GameStats.record_game (d : StatsData) (game_mode : String) (difficulty : String)
    (winner : Option String) : StatsData × StatsFile :=
  let d' :=
    if game_mode = "1" then
      { d with single_player := bumpDifficulty d.single_player difficulty winner }
    else
      { d with two_player :=
          if winner = some "X" then { d.two_player with wins_x := d.two_player.wins_x + 1 }
          else if winner = some "O" then { d.two_player with wins_o := d.two_player.wins_o + 1 }
          else { d.two_player with ties := d.two_player.ties + 1 } }
  (d', GameStats.save d')

/-- `GameStats.get_total_games`: sum of all single-player buckets plus the
two-player counters. -/
def GameStats.get_total_games (d : StatsData) : Nat :=
  (d.single_player.map (fun kb => kb.2.wins + kb.2.losses + kb.2.ties)).sum +
    (d.two_player.wins_x + d.two_player.wins_o + d.two_player.ties)

/-! ## Claim C8: loading an absent or unreadable statistics file -/

/-- Claim C8, counterexample: a statistics file that exists but cannot be
parsed makes `_load` raise (`json.load` has no exception handler), rather
than initialize the empty state as the claim asserts for unreadable files. -/
theorem load_corrupt_file_raises :
    GameStats._load (some StatsFile.corrupt) =
      Except.error "json.decoder.JSONDecodeError" := rfl

/-- Claim C8 (amended): if the statistics file is absent, `_load` returns the
empty state (empty single-player mapping, zeroed two-player counters) without
raising; a present-but-unreadable file instead propagates the parse error. -/
theorem load_absent_file_empty :
    GameStats._load none = Except.ok emptyStats := rfl

/-! ## Claim C9: recording one win, one loss and one tie for "easy" -/

/-- The statistics state after recording, from the empty store, a win,
a loss, and a tie in single-player mode at difficulty "easy". -/
def statsAfterThree : StatsData × StatsFile :=
  let s1 := GameStats.record_game emptyStats "1" "easy" (some "X")
  let s2 := GameStats.record_game s1.1 "1" "easy" (some "O")
  GameStats.record_game s2.1 "1" "easy" none

/-- Claim C9: after one win, one loss and one tie for "easy", the bucket is
`{wins: 1, losses: 1, ties: 1}`, `get_total_games` returns 3, and loading the
file persisted by the final `save` reproduces exactly the same data. -/
theorem stats_easy_one_each :
    statsAfterThree.1.single_player.lookup "easy" = some ⟨1, 1, 1⟩ ∧
    GameStats.get_total_games statsAfterThree.1 = 3 ∧
    GameStats._load (some statsAfterThree.2) = Except.ok statsAfterThree.1 :=
  ⟨rfl, rfl, rfl⟩

/-! ## Tournament (best-of-N series) -/

/-- Modelled from the spec: the `Tournament` class is imported by
`tictactoe.py` and exercised by `test_tictactoe.py`, but its definition is
not among the provided sources.  Per spec §3/§4.3: an odd series length N,
a stored wins-needed threshold, per-mark win counters plus a tie counter, a
round counter, and an ordered result log. -/
structure Tournament where
  best_of : Nat
  wins_needed : Nat
  wins_x : Nat
  wins_o : Nat
  ties : Nat
  round_number : Nat
  results : List (Option String)
deriving DecidableEq

/-- Modelled from the spec: construction succeeds only for N in {3, 5, 7}
(invalid lengths are a fatal configuration error, modelled as `none`), and
sets `wins_needed = (N+1)/2` with all counters zero. -/
def Tournament.init (n : Nat) : Option Tournament :=
  if n = 3 ∨ n = 5 ∨ n = 7 then some ⟨n, (n + 1) / 2, 0, 0, 0, 0, []⟩ else none

/-- Modelled from the spec: `recordRound` increments the round counter,
increments the winning mark's counter (or the tie counter), and appends the
outcome to the results log. -/
def Tournament.record_round (t : Tournament) (outcome : Option String) : Tournament :=
  { best_of := t.best_of
    wins_needed := t.wins_needed
    wins_x := if outcome = some "X" then t.wins_x + 1 else t.wins_x
    wins_o := if outcome = some "O" then t.wins_o + 1 else t.wins_o
    ties := if outcome = some "X" ∨ outcome = some "O" then t.ties else t.ties + 1
    round_number := t.round_number + 1
    results := t.results ++ [outcome] }

/-- Modelled from the spec: the series is over exactly when one mark's win
count reaches `wins_needed` or the round counter reaches N. -/
def Tournament.is_over (t : Tournament) : Bool :=
  t.wins_needed ≤ t.wins_x ∨ t.wins_needed ≤ t.wins_o ∨ t.best_of ≤ t.round_number

/-- Tournament states reachable by constructing with a valid length and
recording any sequence of rounds. -/
inductive TReach : Tournament → Prop where
  | init (n : Nat) (t : Tournament) (h : Tournament.init n = some t) : TReach t
  | step (t : Tournament) (outcome : Option String) (h : TReach t) :
      TReach (t.record_round outcome)

/-- Claim C7: every reachable tournament state maintains
`wins_needed = (best_of + 1) / 2`, and `is_over` holds iff either mark's win
count has reached `wins_needed` or the round counter has reached the series
length N. -/
theorem tournament_invariant (t : Tournament) (h : TReach t) :
    t.wins_needed = (t.best_of + 1) / 2 ∧
    (t.is_over = true ↔
      t.wins_needed ≤ t.wins_x ∨ t.wins_needed ≤ t.wins_o ∨ t.best_of ≤ t.round_number) := by
  constructor
  · induction h with
    | init n t h =>
      unfold Tournament.init at h
      split at h
      · cases h
        rfl
      · cases h
    | step t outcome h ih => exact ih
  · unfold Tournament.is_over
    simp [decide_eq_true_eq]

/-- Claim C7 witness: a best-of-3 tournament that records two X wins
satisfies the invariant; in particular it is over, having reached the
2-win threshold. -/
theorem tournament_invariant_witness :
    (((⟨3, 2, 0, 0, 0, 0, []⟩ : Tournament).record_round (some "X")).record_round
        (some "X")).is_over = true := by
  have h0 : TReach (⟨3, 2, 0, 0, 0, 0, []⟩ : Tournament) :=
    TReach.init 3 _ (by decide)
  have h1 := TReach.step _ (some "X") h0
  have h2 := TReach.step _ (some "X") h1
  have := tournament_invariant _ h2
  rw [this.2]
  decide

/-! ## The AI opponent (`class AI`)

The AI's difficulty, mark and opponent mark are passed explicitly.  Python's
in-place board mutation is embedded as explicit state passing: every helper
returns the board as it stands when the call exits.  `random.choice(seq)` is
modelled as `pyChoice seq k` for an oracle-supplied draw `k : Nat` (uniform
over indices when `k` is uniform); `random.random() < 0.5` is modelled as an
oracle-supplied `Bool`.  Python's `float('-inf')` / `float('inf')` sentinels
are the `negInf` / `posInf` constructors of `EInt`. -/

/-- `-inf`, an integer score, or `+inf`. -/
inductive EInt where
  | negInf : EInt
  | val (z : Int) : EInt
  | posInf : EInt
deriving DecidableEq

/-- Python `max` on scores that may be `-inf`. -/
def EInt.max : EInt → EInt → EInt
  | .negInf, b => b
  | a, .negInf => a
  | .posInf, _ => .posInf
  | _, .posInf => .posInf
  | .val a, .val b => .val (Max.max a b)

/-- Python `min` on scores that may be `+inf`. -/
def EInt.min : EInt → EInt → EInt
  | .posInf, b => b
  | a, .posInf => a
  | .negInf, _ => .negInf
  | _, .negInf => .negInf
  | .val a, .val b => .val (Min.min a b)

/-- Strict `<` on extended scores (`score > best_score`). -/
def EInt.blt : EInt → EInt → Bool
  | _, .negInf => false
  | .negInf, _ => true
  | .posInf, _ => false
  | _, .posInf => true
  | .val a, .val b => a < b

/-- `random.choice(l)` given the oracle draw `k`: uniform over the indices of
`l` when `k` is uniform; `none` models the `IndexError` on an empty list. -/
def pyChoice (l : List α) (k : Nat) : Option α := l.get? (k % l.length)

/-- The list of DIFFICULTIES accepted by the `AI` constructor. -/
def DIFFICULTIES : List String := ["easy", "medium", "hard", "impossible"]

/-- The result of one move computation: the chosen (row, col), the
`last_explanation` set by the call, and the board as the call returns it.
`none` models an uncaught Python exception. -/
def MoveResult := Option ((Fin 3 × Fin 3) × String × Board)

/-- The loop of `AI._find_winning_move`: try each open spot, place `pl`,
test for a win, restore the saved original value, and return the first
winning spot. -/
def AI.findWinLoop (pl : String) :
    List (Fin 3 × Fin 3) → Board → Option (Fin 3 × Fin 3) × Board
  | [], b => (none, b)
  | rc :: rest, b =>
    let original := b.cells rc.1 rc.2
    let b1 := b.setCell rc.1 rc.2 pl
    if b1.check_winner = some pl then (some rc, b1.setCell rc.1 rc.2 original)
    else AI.findWinLoop pl rest (b1.setCell rc.1 rc.2 original)

/-- `AI._find_winning_move(board, player)`: the first open spot that
completes a line for `player`, or `none`; paired with the board on exit. -/
def AI._find_winning_move (b : Board) (pl : String) :
    Option (Fin 3 × Fin 3) × Board :=
  AI.findWinLoop pl b.get_open_spots b

/-- `AI._move_easy`: a random open spot. -/
def AI._move_easy (b : Board) (k : Nat) : MoveResult :=
  (pyChoice b.get_open_spots k).map (fun m => (m, "Picking a random spot", b))

/-- The corner list of `AI._move_hard`, in source order. -/
def cornersList : List (Fin 3 × Fin 3) := [(0, 0), (0, 2), (2, 0), (2, 2)]

/-- `AI._move_hard`: win, block, center, random open corner, random open
spot — in that order. -/
def AI._move_hard (mark opp : String) (b : Board) (k : Nat) : MoveResult :=
  match AI._find_winning_move b mark with
  | (some w, b1) => some (w, "Going for the win!", b1)
  | (none, b1) =>
    match AI._find_winning_move b1 opp with
    | (some w, b2) => some (w, "Blocking your winning move", b2)
    | (none, b2) =>
      if b2.is_valid_move 1 1 then some ((1, 1), "Taking the center", b2)
      else
        let open_corners :=
          cornersList.filter (fun rc => b2.is_valid_move (rc.1.val : Int) (rc.2.val : Int))
        match open_corners with
        | [] => (pyChoice b2.get_open_spots k).map (fun m => (m, "Taking an open spot", b2))
        | c :: cs => (pyChoice (c :: cs) k).map (fun m => (m, "Taking a corner", b2))

/-- `AI._move_medium`: with probability 0.5 (the oracle `coin`) the hard
move, otherwise the easy move. -/
def AI._move_medium (mark opp : String) (b : Board) (coin : Bool) (k : Nat) : MoveResult :=
  if coin then AI._move_hard mark opp b k else AI._move_easy b k

/-- The maximizing loop of `AI._minimax`: for each listed spot, place the
AI's mark, recurse, undo by writing the spot's position label, and fold the
scores with `max` starting from `-inf`. -/
def AI.mmLoopMax (mm : Board → Bool → Nat → EInt × Board) (mark : String) (d : Nat) :
    List (Fin 3 × Fin 3) → Board → EInt → EInt × Board
  | [], b, best => (best, b)
  | rc :: rest, b, best =>
    let b1 := b.setCell rc.1 rc.2 mark
    let sb := mm b1 false (d + 1)
    let b3 := sb.2.setCell rc.1 rc.2 (posLabel rc.1 rc.2)
    AI.mmLoopMax mm mark d rest b3 (EInt.max best sb.1)

/-- The minimizing loop of `AI._minimax` (opponent's mark, `min`, `+inf`). -/
def AI.mmLoopMin (mm : Board → Bool → Nat → EInt × Board) (opp : String) (d : Nat) :
    List (Fin 3 × Fin 3) → Board → EInt → EInt × Board
  | [], b, best => (best, b)
  | rc :: rest, b, best =>
    let b1 := b.setCell rc.1 rc.2 opp
    let sb := mm b1 true (d + 1)
    let b3 := sb.2.setCell rc.1 rc.2 (posLabel rc.1 rc.2)
    AI.mmLoopMin mm opp d rest b3 (EInt.min best sb.1)

/-- `AI._minimax(board, is_maximizing, depth)`: terminal scores
`10 - depth` (own win), `depth - 10` (opponent win), `0` (full board), else
the max/min over the open spots.  The `fuel` argument only bounds the
recursion depth; every call in this development passes fuel 9 ≥ the number
of open cells, where the fuel never runs out. -/
def AI._minimax (mark opp : String) : Nat → Board → Bool → Nat → EInt × Board
  | 0, b, _, _ => (EInt.val 0, b)
  | fuel + 1, b, isMax, d =>
    let w := b.check_winner
    if w = some mark then (EInt.val (10 - (d : Int)), b)
    else if w = some opp then (EInt.val ((d : Int) - 10), b)
    else if b.is_full then (EInt.val 0, b)
    else if isMax then
      AI.mmLoopMax (AI._minimax mark opp fuel) mark d b.get_open_spots b EInt.negInf
    else
      AI.mmLoopMin (AI._minimax mark opp fuel) opp d b.get_open_spots b EInt.posInf

/-- The candidate loop of `AI._move_impossible`: try each open spot, score it
with `_minimax(..., is_maximizing=False, depth=0)`, undo, and keep the first
spot whose score strictly exceeds the best so far (which starts at `-inf`). -/
def AI.moveLoop (mm : Board → Bool → Nat → EInt × Board) (mark : String) :
    List (Fin 3 × Fin 3) → Board → EInt → Option (Fin 3 × Fin 3) →
      Option (Fin 3 × Fin 3) × Board
  | [], b, _, bm => (bm, b)
  | rc :: rest, b, best, bm =>
    let b1 := b.setCell rc.1 rc.2 mark
    let sb := mm b1 false 0
    let b3 := sb.2.setCell rc.1 rc.2 (posLabel rc.1 rc.2)
    if EInt.blt best sb.1 then AI.moveLoop mm mark rest b3 sb.1 (some rc)
    else AI.moveLoop mm mark rest b3 best bm

/-- `AI._explain_impossible_move(board, move)`: classify the chosen move
(win / block / center / corner / fallback), probing the board and undoing
each probe with the position label. -/
def AI._explain_impossible_move (mark opp : String) (b : Board) (mv : Fin 3 × Fin 3) :
    String × Board :=
  let b1 := b.setCell mv.1 mv.2 mark
  if b1.check_winner = some mark then
    ("Going for the win!", b1.setCell mv.1 mv.2 (posLabel mv.1 mv.2))
  else
    let b2 := b1.setCell mv.1 mv.2 (posLabel mv.1 mv.2)
    let b3 := b2.setCell mv.1 mv.2 opp
    if b3.check_winner = some opp then
      ("Blocking your winning move", b3.setCell mv.1 mv.2 (posLabel mv.1 mv.2))
    else
      let b4 := b3.setCell mv.1 mv.2 (posLabel mv.1 mv.2)
      if mv = ((1 : Fin 3), (1 : Fin 3)) then ("Taking the center", b4)
      else if mv ∈ cornersList then ("Taking a strategic corner", b4)
      else ("Playing the optimal move", b4)

/-- `AI._move_impossible`: pick the open spot with the strictly highest
minimax score (first in row-major order), then tag it via
`_explain_impossible_move`.  If the board has no open spot, `best_move`
stays `None` and the explanation step raises (`none`). -/
def AI._move_impossible (mark opp : String) (b : Board) : MoveResult :=
  match AI.moveLoop (AI._minimax mark opp 9) mark b.get_open_spots b EInt.negInf none with
  | (none, _) => none
  | (some mv, b') =>
    let eb := AI._explain_impossible_move mark opp b' mv
    some (mv, eb.1, eb.2)

/-- `AI.get_move`: dispatch on the difficulty tier. -/
def AI.get_move (difficulty mark opp : String) (b : Board) (coin : Bool) (k : Nat) :
    MoveResult :=
  if difficulty = "easy" then AI._move_easy b k
  else if difficulty = "medium" then AI._move_medium mark opp b coin k
  else if difficulty = "hard" then AI._move_hard mark opp b k
  else AI._move_impossible mark opp b

/-! ## Canonical boards and basic cell lemmas

A board object of the Python program always holds `"X"`, `"O"`, or the
cell's own position label: it starts that way and every write the program
performs (`place_move` with a mark, search mutation with a mark, search undo
with `str(row*3+col+1)`) preserves it. -/

/-- Every cell is a mark or its own position label. -/
def Canonical (b : Board) : Prop :=
  ∀ r c, b.cells r c = "X" ∨ b.cells r c = "O" ∨ b.cells r c = posLabel r c

instance (b : Board) : Decidable (Canonical b) := by
  unfold Canonical
  infer_instance

theorem setCell_cells (b : Board) (r c : Fin 3) (v : String) (r' c' : Fin 3) :
    (b.setCell r c v).cells r' c' = if r' = r ∧ c' = c then v else b.cells r' c' := rfl

theorem setCell_same (b : Board) (r c : Fin 3) (v : String) :
    (b.setCell r c v).cells r c = v := by
  simp [Board.setCell]

theorem setCell_cancel (b : Board) (r c : Fin 3) (v : String) :
    (b.setCell r c v).setCell r c (b.cells r c) = b := by
  cases b with
  | mk f =>
    unfold Board.setCell
    congr 1
    funext r' c'
    by_cases h : r' = r ∧ c' = c
    · simp [h.1, h.2]
    · simp [h]

theorem setCell_absorb (b : Board) (r c : Fin 3) (v w : String) :
    (b.setCell r c v).setCell r c w = b.setCell r c w := by
  unfold Board.setCell
  congr 1
  funext r' c'
  by_cases h : r' = r ∧ c' = c
  · simp [h.1, h.2]
  · simp [h]

theorem canonical_initial : Canonical initialBoard := by decide

/-- An open cell of a canonical board holds its own position label. -/
theorem canonical_open_label (b : Board) (hb : Canonical b) (r c : Fin 3)
    (h : ¬(b.cells r c = "X" ∨ b.cells r c = "O")) : b.cells r c = posLabel r c := by
  rcases hb r c with h1 | h1 | h1
  · exact absurd (Or.inl h1) h
  · exact absurd (Or.inr h1) h
  · exact h1

/-- Writing a mark preserves canonicity. -/
theorem canonical_setCell_mark (b : Board) (hb : Canonical b) (r c : Fin 3)
    (v : String) (hv : v = "X" ∨ v = "O") : Canonical (b.setCell r c v) := by
  intro r' c'
  rw [setCell_cells]
  by_cases h : r' = r ∧ c' = c
  · rw [if_pos h]
    rcases hv with hv | hv
    · exact Or.inl hv
    · exact Or.inr (Or.inl hv)
  · rw [if_neg h]
    exact hb r' c'

/-- Writing a cell's own position label preserves canonicity. -/
theorem canonical_setCell_label (b : Board) (hb : Canonical b) (r c : Fin 3) :
    Canonical (b.setCell r c (posLabel r c)) := by
  intro r' c'
  rw [setCell_cells]
  by_cases h : r' = r ∧ c' = c
  · rw [if_pos h, h.1, h.2]
    exact Or.inr (Or.inr rfl)
  · rw [if_neg h]
    exact hb r' c'

/-- Restoring an open canonical cell by its position label recovers the
original board. -/
theorem setCell_restore_label (b : Board) (hb : Canonical b) (r c : Fin 3)
    (h : ¬(b.cells r c = "X" ∨ b.cells r c = "O")) (v : String) :
    (b.setCell r c v).setCell r c (posLabel r c) = b := by
  have := canonical_open_label b hb r c h
  calc (b.setCell r c v).setCell r c (posLabel r c)
      = (b.setCell r c v).setCell r c (b.cells r c) := by rw [this]
    _ = b := setCell_cancel b r c v

/-- Membership in `get_open_spots` means exactly: unoccupied. -/
theorem mem_open_spots (b : Board) (rc : Fin 3 × Fin 3) :
    rc ∈ b.get_open_spots ↔ ¬(b.cells rc.1 rc.2 = "X" ∨ b.cells rc.1 rc.2 = "O") := by
  unfold Board.get_open_spots
  rw [List.mem_filter]
  constructor
  · intro ⟨_, h⟩
    simpa [Board.occupied] using h
  · intro h
    refine ⟨?_, by simpa [Board.occupied] using h⟩
    have : ∀ x : Fin 3 × Fin 3, x ∈ allMoves := by decide
    exact this rc

/-- An open spot is a valid move. -/
theorem open_spot_valid (b : Board) (rc : Fin 3 × Fin 3) (h : rc ∈ b.get_open_spots) :
    b.is_valid_move (rc.1.val : Int) (rc.2.val : Int) = true := by
  rw [mem_open_spots] at h
  unfold Board.is_valid_move
  have h1 : (0 : Int) ≤ (rc.1.val : Int) ∧ (rc.1.val : Int) ≤ 2 ∧
      (0 : Int) ≤ (rc.2.val : Int) ∧ (rc.2.val : Int) ≤ 2 := by
    have := rc.1.isLt
    have := rc.2.isLt
    omega
  rw [dif_pos h1]
  have hr : (⟨((rc.1.val : Int)).toNat, by omega⟩ : Fin 3) = rc.1 := by
    apply Fin.ext
    simp
  have hc : (⟨((rc.2.val : Int)).toNat, by omega⟩ : Fin 3) = rc.2 := by
    apply Fin.ext
    simp
  simp only [hr, hc]
  simpa using h

/-- The loop of `_find_winning_move` restores the board exactly and returns
the first open spot whose occupation wins for `pl`. -/
theorem findWinLoop_eq (pl : String) (spots : List (Fin 3 × Fin 3)) (b : Board) :
    AI.findWinLoop pl spots b =
      (spots.find? (fun rc => (b.setCell rc.1 rc.2 pl).check_winner == some pl), b) := by
  induction spots generalizing b with
  | nil => rfl
  | cons rc rest ih =>
    show AI.findWinLoop pl (rc :: rest) b = _
    unfold AI.findWinLoop
    simp only [setCell_cancel]
    by_cases h : (b.setCell rc.1 rc.2 pl).check_winner = some pl
    · rw [if_pos h, List.find?_cons]
      simp [h]
    · rw [if_neg h, List.find?_cons]
      have : ((b.setCell rc.1 rc.2 pl).check_winner == some pl) = false := by
        simpa using h
      rw [this]
      exact ih b

/-- `_find_winning_move` computed in closed form. -/
theorem find_winning_move_eq (b : Board) (pl : String) :
    AI._find_winning_move b pl =
      (b.get_open_spots.find? (fun rc => (b.setCell rc.1 rc.2 pl).check_winner == some pl), b) :=
  findWinLoop_eq pl b.get_open_spots b

/-! ## Claim C6: the priority-heuristic ("hard") tier -/

/-- The first open cell (row-major) whose occupation by `pl` completes a
line for `pl` — the specification of `_find_winning_move`. -/
def firstWinningSpot (b : Board) (pl : String) : Option (Fin 3 × Fin 3) :=
  b.get_open_spots.find? (fun rc => (b.setCell rc.1 rc.2 pl).check_winner == some pl)

/-- The open corners of `b`, in source order. -/
def openCorners (b : Board) : List (Fin 3 × Fin 3) :=
  cornersList.filter (fun rc => b.is_valid_move (rc.1.val : Int) (rc.2.val : Int))

/-- Helper: full case analysis of `_move_hard` in terms of
`firstWinningSpot`, the center test, and the open corners. -/
theorem move_hard_cases (mark opp : String) (b : Board) (k : Nat)
    (hs : b.get_open_spots ≠ []) :
    (∀ w, firstWinningSpot b mark = some w →
      AI._move_hard mark opp b k = some (w, "Going for the win!", b)) ∧
    (firstWinningSpot b mark = none →
      ∀ w, firstWinningSpot b opp = some w →
        AI._move_hard mark opp b k = some (w, "Blocking your winning move", b)) ∧
    (firstWinningSpot b mark = none → firstWinningSpot b opp = none →
      b.is_valid_move 1 1 = true →
        AI._move_hard mark opp b k = some ((1, 1), "Taking the center", b)) ∧
    (firstWinningSpot b mark = none → firstWinningSpot b opp = none →
      b.is_valid_move 1 1 = false → openCorners b ≠ [] →
        AI._move_hard mark opp b k =
          (pyChoice (openCorners b) k).map (fun m => (m, "Taking a corner", b))) ∧
    (firstWinningSpot b mark = none → firstWinningSpot b opp = none →
      b.is_valid_move 1 1 = false → openCorners b = [] →
        AI._move_hard mark opp b k =
          (pyChoice b.get_open_spots k).map (fun m => (m, "Taking an open spot", b))) := by
  refine ⟨?_, ?_, ?_, ?_, ?_⟩
  · intro w hw
    unfold AI._move_hard
    rw [find_winning_move_eq]
    show (match (firstWinningSpot b mark, b) with
      | (some w, b1) => some (w, "Going for the win!", b1)
      | (none, b1) => _) = _
    rw [hw]
  · intro hnone w hw
    unfold AI._move_hard
    rw [find_winning_move_eq]
    show (match (firstWinningSpot b mark, b) with
      | (some w, b1) => some (w, "Going for the win!", b1)
      | (none, b1) => _) = _
    rw [hnone]
    show (match AI._find_winning_move b opp with
      | (some w, b2) => some (w, "Blocking your winning move", b2)
      | (none, b2) => _) = _
    rw [find_winning_move_eq]
    show (match (firstWinningSpot b opp, b) with
      | (some w, b2) => some (w, "Blocking your winning move", b2)
      | (none, b2) => _) = _
    rw [hw]
  · intro h1 h2 hc
    unfold AI._move_hard
    rw [find_winning_move_eq]
    show (match (firstWinningSpot b mark, b) with
      | (some w, b1) => some (w, "Going for the win!", b1)
      | (none, b1) => _) = _
    rw [h1]
    show (match AI._find_winning_move b opp with
      | (some w, b2) => some (w, "Blocking your winning move", b2)
      | (none, b2) => _) = _
    rw [find_winning_move_eq]
    show (match (firstWinningSpot b opp, b) with
      | (some w, b2) => some (w, "Blocking your winning move", b2)
      | (none, b2) => _) = _
    rw [h2]
    show (if b.is_valid_move 1 1 = true then _ else _) = _
    rw [hc]
    rfl
  · intro h1 h2 hc hcor
    unfold AI._move_hard
    rw [find_winning_move_eq]
    show (match (firstWinningSpot b mark, b) with
      | (some w, b1) => some (w, "Going for the win!", b1)
      | (none, b1) => _) = _
    rw [h1]
    show (match AI._find_winning_move b opp with
      | (some w, b2) => some (w, "Blocking your winning move", b2)
      | (none, b2) => _) = _
    rw [find_winning_move_eq]
    show (match (firstWinningSpot b opp, b) with
      | (some w, b2) => some (w, "Blocking your winning move", b2)
      | (none, b2) => _) = _
    rw [h2]
    show (if b.is_valid_move 1 1 = true then _ else _) = _
    rw [hc]
    show (match openCorners b with
      | [] => _
      | c :: cs => (pyChoice (c :: cs) k).map (fun m => (m, "Taking a corner", b))) = _
    match hoc : openCorners b with
    | [] => exact absurd hoc hcor
    | c :: cs => rfl
  · intro h1 h2 hc hcor
    unfold AI._move_hard
    rw [find_winning_move_eq]
    show (match (firstWinningSpot b mark, b) with
      | (some w, b1) => some (w, "Going for the win!", b1)
      | (none, b1) => _) = _
    rw [h1]
    show (match AI._find_winning_move b opp with
      | (some w, b2) => some (w, "Blocking your winning move", b2)
      | (none, b2) => _) = _
    rw [find_winning_move_eq]
    show (match (firstWinningSpot b opp, b) with
      | (some w, b2) => some (w, "Blocking your winning move", b2)
      | (none, b2) => _) = _
    rw [h2]
    show (if b.is_valid_move 1 1 = true then _ else _) = _
    rw [hc]
    show (match openCorners b with
      | [] => (pyChoice b.get_open_spots k).map (fun m => (m, "Taking an open spot", b))
      | c :: cs => _) = _
    rw [hcor]

/-- Claim C6: for every board with at least one open cell, the hard tier
returns the first applicable of, in strict order: the first open cell
(row-major) winning immediately for its own mark; else the first open cell
that would win for the opposing mark (the block); else the center (1,1) if
open; else a uniformly random open corner; else a uniformly random open
cell (randomness modelled by `pyChoice` at the oracle draw). -/
theorem move_hard_priority (mark opp : String) (b : Board) (k : Nat)
    (hs : b.get_open_spots ≠ []) :
    (∀ w, firstWinningSpot b mark = some w →
      AI._move_hard mark opp b k = some (w, "Going for the win!", b)) ∧
    (firstWinningSpot b mark = none →
      ∀ w, firstWinningSpot b opp = some w →
        AI._move_hard mark opp b k = some (w, "Blocking your winning move", b)) ∧
    (firstWinningSpot b mark = none → firstWinningSpot b opp = none →
      b.is_valid_move 1 1 = true →
        AI._move_hard mark opp b k = some ((1, 1), "Taking the center", b)) ∧
    (firstWinningSpot b mark = none → firstWinningSpot b opp = none →
      b.is_valid_move 1 1 = false → openCorners b ≠ [] →
        AI._move_hard mark opp b k =
          (pyChoice (openCorners b) k).map (fun m => (m, "Taking a corner", b))) ∧
    (firstWinningSpot b mark = none → firstWinningSpot b opp = none →
      b.is_valid_move 1 1 = false → openCorners b = [] →
        AI._move_hard mark opp b k =
          (pyChoice b.get_open_spots k).map (fun m => (m, "Taking an open spot", b))) :=
  move_hard_cases mark opp b k hs

/-- Claim C6 witness: on the fresh board there is no winning or blocking
cell and the center is open, so the hard tier takes the center (for any
oracle draw, here 0). -/
theorem move_hard_priority_witness :
    AI._move_hard "X" "O" initialBoard 0 = some ((1, 1), "Taking the center", initialBoard) := by
  have h := move_hard_priority "X" "O" initialBoard 0 (by decide)
  exact h.2.2.1 (by decide) (by decide) (by decide)

/-! ## Claim C10: every tier returns a valid open move -/

theorem EInt.max_negInf (x : EInt) : EInt.max EInt.negInf x = x := by
  cases x <;> rfl

theorem EInt.max_val (a b : Int) :
    EInt.max (EInt.val a) (EInt.val b) = EInt.val (Max.max a b) := rfl

theorem EInt.min_posInf (x : EInt) : EInt.min EInt.posInf x = x := by
  cases x <;> rfl

theorem EInt.min_val (a b : Int) :
    EInt.min (EInt.val a) (EInt.val b) = EInt.val (Min.min a b) := rfl

theorem open_spots_ne_nil (b : Board) (h : b.is_full = false) :
    b.get_open_spots ≠ [] := by
  unfold Board.is_full at h
  rw [List.all_eq_false] at h
  obtain ⟨rc, hmem, hocc⟩ := h
  intro hnil
  have : rc ∈ b.get_open_spots := by
    unfold Board.get_open_spots
    rw [List.mem_filter]
    exact ⟨hmem, by simpa using hocc⟩
  rw [hnil] at this
  exact (List.not_mem_nil rc) this

theorem pyChoice_some (l : List α) (k : Nat) (h : l ≠ []) :
    ∃ x, pyChoice l k = some x ∧ x ∈ l := by
  have hlen : 0 < l.length := List.length_pos.mpr h
  have hk : k % l.length < l.length := Nat.mod_lt _ hlen
  unfold pyChoice
  rw [List.get?_eq_get hk]
  exact ⟨l.get ⟨k % l.length, hk⟩, rfl, List.get_mem l _ _⟩

theorem mmLoopMax_isVal (mm : Board → Bool → Nat → EInt × Board) (mark : String) (d : Nat)
    (hmm : ∀ b mz d', ∃ z, (mm b mz d').1 = EInt.val z) :
    ∀ spots (b : Board) (acc : EInt),
      ((∃ a, acc = EInt.val a) ∨ (acc = EInt.negInf ∧ spots ≠ [])) →
      ∃ z, (AI.mmLoopMax mm mark d spots b acc).1 = EInt.val z := by
  intro spots
  induction spots with
  | nil =>
    intro b acc hacc
    rcases hacc with ⟨a, rfl⟩ | ⟨_, hne⟩
    · exact ⟨a, rfl⟩
    · exact absurd rfl hne
  | cons rc rest ih =>
    intro b acc hacc
    show ∃ z, (AI.mmLoopMax mm mark d (rc :: rest) b acc).1 = EInt.val z
    unfold AI.mmLoopMax
    obtain ⟨z, hz⟩ := hmm (b.setCell rc.1 rc.2 mark) false (d + 1)
    rcases hacc with ⟨a, rfl⟩ | ⟨rfl, _⟩
    · apply ih
      left
      rw [hz, EInt.max_val]
      exact ⟨Max.max a z, rfl⟩
    · apply ih
      left
      rw [hz, EInt.max_negInf]
      exact ⟨z, rfl⟩

theorem mmLoopMin_isVal (mm : Board → Bool → Nat → EInt × Board) (opp : String) (d : Nat)
    (hmm : ∀ b mz d', ∃ z, (mm b mz d').1 = EInt.val z) :
    ∀ spots (b : Board) (acc : EInt),
      ((∃ a, acc = EInt.val a) ∨ (acc = EInt.posInf ∧ spots ≠ [])) →
      ∃ z, (AI.mmLoopMin mm opp d spots b acc).1 = EInt.val z := by
  intro spots
  induction spots with
  | nil =>
    intro b acc hacc
    rcases hacc with ⟨a, rfl⟩ | ⟨_, hne⟩
    · exact ⟨a, rfl⟩
    · exact absurd rfl hne
  | cons rc rest ih =>
    intro b acc hacc
    show ∃ z, (AI.mmLoopMin mm opp d (rc :: rest) b acc).1 = EInt.val z
    unfold AI.mmLoopMin
    obtain ⟨z, hz⟩ := hmm (b.setCell rc.1 rc.2 opp) true (d + 1)
    rcases hacc with ⟨a, rfl⟩ | ⟨rfl, _⟩
    · apply ih
      left
      rw [hz, EInt.min_val]
      exact ⟨Min.min a z, rfl⟩
    · apply ih
      left
      rw [hz, EInt.min_posInf]
      exact ⟨z, rfl⟩

/-- `_minimax` always produces a finite integer score (never an infinity). -/
theorem minimax_isVal (mark opp : String) :
    ∀ fuel (b : Board) (mz : Bool) (d : Nat),
      ∃ z, (AI._minimax mark opp fuel b mz d).1 = EInt.val z := by
  intro fuel
  induction fuel with
  | zero => exact fun b mz d => ⟨0, rfl⟩
  | succ n ih =>
    intro b mz d
    unfold AI._minimax
    by_cases h1 : b.check_winner = some mark
    · simp only [h1, if_pos]
      exact ⟨10 - (d : Int), by simp⟩
    · by_cases h2 : b.check_winner = some opp
      · by_cases he : opp = mark
        · exact absurd (he ▸ h2) h1
        · exact ⟨(d : Int) - 10, by simp [h1, h2, he]⟩
      · by_cases h3 : b.is_full = true
        · exact ⟨0, by simp [h1, h2, h3]⟩
        · have hne := open_spots_ne_nil b (by simpa using h3)
          by_cases hmz : mz = true
          · subst hmz
            simp only [h1, h2, h3, if_neg, if_false, if_true, Bool.false_eq_true]
            have := mmLoopMax_isVal (AI._minimax mark opp n) mark d ih
              b.get_open_spots b EInt.negInf (Or.inr ⟨rfl, hne⟩)
            simpa [h1, h2, h3] using this
          · have hmz' : mz = false := by
              cases mz
              · rfl
              · exact absurd rfl hmz
            subst hmz'
            have := mmLoopMin_isVal (AI._minimax mark opp n) opp d ih
              b.get_open_spots b EInt.posInf (Or.inr ⟨rfl, hne⟩)
            simpa [h1, h2, h3] using this

theorem moveLoop_keeps_some (mm : Board → Bool → Nat → EInt × Board) (mark : String) :
    ∀ spots (b : Board) (best : EInt) (mv0 : Fin 3 × Fin 3),
      ∃ mv, (AI.moveLoop mm mark spots b best (some mv0)).1 = some mv ∧
        (mv = mv0 ∨ mv ∈ spots) := by
  intro spots
  induction spots with
  | nil => exact fun b best mv0 => ⟨mv0, rfl, Or.inl rfl⟩
  | cons rc rest ih =>
    intro b best mv0
    show ∃ mv, (AI.moveLoop mm mark (rc :: rest) b best (some mv0)).1 = some mv ∧ _
    unfold AI.moveLoop
    by_cases h : EInt.blt best (mm (b.setCell rc.1 rc.2 mark) false 0).1 = true
    · rw [if_pos h]
      obtain ⟨mv, hmv, hcase⟩ := ih _ _ rc
      refine ⟨mv, hmv, ?_⟩
      rcases hcase with rfl | hmem
      · exact Or.inr (List.mem_cons_self _ _)
      · exact Or.inr (List.mem_cons_of_mem _ hmem)
    · rw [if_neg h]
      obtain ⟨mv, hmv, hcase⟩ := ih _ _ mv0
      refine ⟨mv, hmv, ?_⟩
      rcases hcase with rfl | hmem
      · exact Or.inl rfl
      · exact Or.inr (List.mem_cons_of_mem _ hmem)

theorem blt_negInf_val (z : Int) : EInt.blt EInt.negInf (EInt.val z) = true := rfl

/-- Defining equation of the candidate loop on a cons cell. -/
theorem moveLoop_cons (mm : Board → Bool → Nat → EInt × Board) (mark : String)
    (rc : Fin 3 × Fin 3) (rest : List (Fin 3 × Fin 3)) (b : Board) (best : EInt)
    (bm : Option (Fin 3 × Fin 3)) :
    AI.moveLoop mm mark (rc :: rest) b best bm =
      (if EInt.blt best (mm (b.setCell rc.1 rc.2 mark) false 0).1 = true then
        AI.moveLoop mm mark rest
          ((mm (b.setCell rc.1 rc.2 mark) false 0).2.setCell rc.1 rc.2 (posLabel rc.1 rc.2))
          (mm (b.setCell rc.1 rc.2 mark) false 0).1 (some rc)
      else
        AI.moveLoop mm mark rest
          ((mm (b.setCell rc.1 rc.2 mark) false 0).2.setCell rc.1 rc.2 (posLabel rc.1 rc.2))
          best bm) := rfl

/-- Started on a nonempty spot list with `-inf` / `None`, the candidate loop
of `_move_impossible` settles on some listed spot. -/
theorem moveLoop_start (mm : Board → Bool → Nat → EInt × Board) (mark : String)
    (hmm : ∀ b mz d', ∃ z, (mm b mz d').1 = EInt.val z) :
    ∀ spots (b : Board), spots ≠ [] →
      ∃ mv, (AI.moveLoop mm mark spots b EInt.negInf none).1 = some mv ∧ mv ∈ spots := by
  intro spots
  match spots with
  | [] => exact fun b h => absurd rfl h
  | rc :: rest =>
    intro b _
    obtain ⟨z, hz⟩ := hmm (b.setCell rc.1 rc.2 mark) false 0
    rw [moveLoop_cons, hz, blt_negInf_val, if_pos rfl]
    obtain ⟨mv, hmv, hcase⟩ := moveLoop_keeps_some mm mark rest _ _ rc
    refine ⟨mv, hmv, ?_⟩
    rcases hcase with rfl | hmem
    · exact List.mem_cons_self _ _
    · exact List.mem_cons_of_mem _ hmem

/-- `_move_impossible` returns a spot that was open on the input board. -/
theorem move_impossible_mem (mark opp : String) (b : Board)
    (hs : b.get_open_spots ≠ []) :
    ∃ mv expl b', AI._move_impossible mark opp b = some (mv, expl, b') ∧
      mv ∈ b.get_open_spots := by
  obtain ⟨mv, hmv, hmem⟩ :=
    moveLoop_start (AI._minimax mark opp 9) mark (minimax_isVal mark opp 9)
      b.get_open_spots b hs
  unfold AI._move_impossible
  match hloop : AI.moveLoop (AI._minimax mark opp 9) mark b.get_open_spots b EInt.negInf none with
  | (none, b') =>
    rw [hloop] at hmv
    cases hmv
  | (some mv', b') =>
    rw [hloop] at hmv
    cases hmv
    exact ⟨mv, _, _, rfl, hmem⟩

/-- The hard tier always returns a move that is open on the input board. -/
theorem move_hard_valid (mark opp : String) (b : Board) (k : Nat)
    (hs : b.get_open_spots ≠ []) :
    ∃ mv expl b', AI._move_hard mark opp b k = some (mv, expl, b') ∧
      b.is_valid_move (mv.1.val : Int) (mv.2.val : Int) = true := by
  obtain ⟨hwin, hblock, hcenter, hcorner, hopen⟩ := move_hard_cases mark opp b k hs
  match hw : firstWinningSpot b mark with
  | some w =>
    refine ⟨w, _, _, hwin w hw, ?_⟩
    exact open_spot_valid b w (List.mem_of_find?_eq_some hw)
  | none =>
  match hbl : firstWinningSpot b opp with
  | some w =>
    refine ⟨w, _, _, hblock hw w hbl, ?_⟩
    exact open_spot_valid b w (List.mem_of_find?_eq_some hbl)
  | none =>
  match hc : b.is_valid_move 1 1 with
  | true =>
    refine ⟨(1, 1), _, _, hcenter hw hbl hc, ?_⟩
    simpa using hc
  | false =>
  match hoc : openCorners b with
  | c :: cs =>
    obtain ⟨x, hx, hxmem⟩ := pyChoice_some (c :: cs) k (by simp)
    have heq := hcorner hw hbl hc (by rw [hoc]; simp)
    rw [hoc, hx] at heq
    refine ⟨x, _, _, heq, ?_⟩
    have : x ∈ openCorners b := by
      rw [hoc]
      exact hxmem
    unfold openCorners at this
    exact (List.mem_filter.mp this).2
  | [] =>
    obtain ⟨x, hx, hxmem⟩ := pyChoice_some b.get_open_spots k hs
    have heq := hopen hw hbl hc hoc
    rw [hx] at heq
    exact ⟨x, _, _, heq, open_spot_valid b x hxmem⟩

/-- The easy tier always returns a move that is open on the input board. -/
theorem move_easy_valid (b : Board) (k : Nat) (hs : b.get_open_spots ≠ []) :
    ∃ mv expl b', AI._move_easy b k = some (mv, expl, b') ∧
      b.is_valid_move (mv.1.val : Int) (mv.2.val : Int) = true := by
  obtain ⟨x, hx, hxmem⟩ := pyChoice_some b.get_open_spots k hs
  unfold AI._move_easy
  rw [hx]
  exact ⟨x, _, _, rfl, open_spot_valid b x hxmem⟩

/-- Claim C10: on a board with at least one open cell, `get_move` at each
recognized difficulty, for every outcome of the random draws, returns a pair
that `is_valid_move` accepts, and raises no error. -/
theorem get_move_valid (difficulty mark opp : String) (b : Board) (coin : Bool) (k : Nat)
    (hd : difficulty ∈ DIFFICULTIES) (hs : b.get_open_spots ≠ []) :
    ∃ mv expl b', AI.get_move difficulty mark opp b coin k = some (mv, expl, b') ∧
      b.is_valid_move (mv.1.val : Int) (mv.2.val : Int) = true := by
  have hd' : difficulty = "easy" ∨ difficulty = "medium" ∨ difficulty = "hard" ∨
      difficulty = "impossible" := by
    simpa [DIFFICULTIES] using hd
  unfold AI.get_move
  rcases hd' with rfl | rfl | rfl | rfl
  · simpa using move_easy_valid b k hs
  · simp only [if_neg (by decide : ¬("medium" : String) = "easy"), if_pos rfl]
    unfold AI._move_medium
    cases coin
    · simpa using move_easy_valid b k hs
    · simpa using move_hard_valid mark opp b k hs
  · simp only [if_neg (by decide : ¬("hard" : String) = "easy"),
      if_neg (by decide : ¬("hard" : String) = "medium"), if_pos rfl]
    exact move_hard_valid mark opp b k hs
  · simp only [if_neg (by decide : ¬("impossible" : String) = "easy"),
      if_neg (by decide : ¬("impossible" : String) = "medium"),
      if_neg (by decide : ¬("impossible" : String) = "hard")]
    obtain ⟨mv, expl, b', hmv, hmem⟩ := move_impossible_mem mark opp b hs
    exact ⟨mv, expl, b', hmv, open_spot_valid b mv hmem⟩

/-- A near-full test board with a single open cell (2,2). -/
def c10Board : Board :=
  ⟨fun r c =>
    match r.val, c.val with
    | 0, 0 => "X"
    | 0, 1 => "O"
    | 0, 2 => "X"
    | 1, 0 => "X"
    | 1, 1 => "O"
    | 1, 2 => "O"
    | 2, 0 => "O"
    | 2, 1 => "X"
    | _, _ => "9"⟩

/-- Claim C10 witness: the exhaustive-search tier on the one-open-cell board
returns a valid open move without error. -/
theorem get_move_valid_witness :
    ∃ mv expl b', AI.get_move "impossible" "X" "O" c10Board false 0 = some (mv, expl, b') ∧
      c10Board.is_valid_move (mv.1.val : Int) (mv.2.val : Int) = true :=
  get_move_valid "impossible" "X" "O" c10Board false 0 (by decide) (by decide)

/-! ## Claim C4: the exhaustive-search tier restores the board -/

/-- Defining equation of the maximizing minimax loop on a cons cell. -/
theorem mmLoopMax_cons (mm : Board → Bool → Nat → EInt × Board) (mark : String) (d : Nat)
    (rc : Fin 3 × Fin 3) (rest : List (Fin 3 × Fin 3)) (b : Board) (best : EInt) :
    AI.mmLoopMax mm mark d (rc :: rest) b best =
      AI.mmLoopMax mm mark d rest
        ((mm (b.setCell rc.1 rc.2 mark) false (d + 1)).2.setCell rc.1 rc.2
          (posLabel rc.1 rc.2))
        (EInt.max best (mm (b.setCell rc.1 rc.2 mark) false (d + 1)).1) := rfl

/-- Defining equation of the minimizing minimax loop on a cons cell. -/
theorem mmLoopMin_cons (mm : Board → Bool → Nat → EInt × Board) (opp : String) (d : Nat)
    (rc : Fin 3 × Fin 3) (rest : List (Fin 3 × Fin 3)) (b : Board) (best : EInt) :
    AI.mmLoopMin mm opp d (rc :: rest) b best =
      AI.mmLoopMin mm opp d rest
        ((mm (b.setCell rc.1 rc.2 opp) true (d + 1)).2.setCell rc.1 rc.2
          (posLabel rc.1 rc.2))
        (EInt.min best (mm (b.setCell rc.1 rc.2 opp) true (d + 1)).1) := rfl

theorem mmLoopMax_restores (mm : Board → Bool → Nat → EInt × Board) (mark : String) (d : Nat)
    (hmm : ∀ b mz d', Canonical b → (mm b mz d').2 = b)
    (hmark : mark = "X" ∨ mark = "O") :
    ∀ spots (b : Board) (best : EInt), Canonical b →
      (∀ rc ∈ spots, ¬(b.cells rc.1 rc.2 = "X" ∨ b.cells rc.1 rc.2 = "O")) →
      (AI.mmLoopMax mm mark d spots b best).2 = b := by
  intro spots
  induction spots with
  | nil => exact fun b best _ _ => rfl
  | cons rc rest ih =>
    intro b best hb hopen
    rw [mmLoopMax_cons]
    have hb1 : Canonical (b.setCell rc.1 rc.2 mark) :=
      canonical_setCell_mark b hb rc.1 rc.2 mark hmark
    rw [hmm _ false (d + 1) hb1,
      setCell_restore_label b hb rc.1 rc.2 (hopen rc (List.mem_cons_self _ _)) mark]
    exact ih b _ hb (fun x hx => hopen x (List.mem_cons_of_mem _ hx))

theorem mmLoopMin_restores (mm : Board → Bool → Nat → EInt × Board) (opp : String) (d : Nat)
    (hmm : ∀ b mz d', Canonical b → (mm b mz d').2 = b)
    (hopp : opp = "X" ∨ opp = "O") :
    ∀ spots (b : Board) (best : EInt), Canonical b →
      (∀ rc ∈ spots, ¬(b.cells rc.1 rc.2 = "X" ∨ b.cells rc.1 rc.2 = "O")) →
      (AI.mmLoopMin mm opp d spots b best).2 = b := by
  intro spots
  induction spots with
  | nil => exact fun b best _ _ => rfl
  | cons rc rest ih =>
    intro b best hb hopen
    rw [mmLoopMin_cons]
    have hb1 : Canonical (b.setCell rc.1 rc.2 opp) :=
      canonical_setCell_mark b hb rc.1 rc.2 opp hopp
    rw [hmm _ true (d + 1) hb1,
      setCell_restore_label b hb rc.1 rc.2 (hopen rc (List.mem_cons_self _ _)) opp]
    exact ih b _ hb (fun x hx => hopen x (List.mem_cons_of_mem _ hx))

/-- `_minimax` undoes every exploratory mutation: on a canonical board it
returns the board exactly as given. -/
theorem minimax_restores (mark opp : String)
    (hm : mark = "X" ∨ mark = "O") (ho : opp = "X" ∨ opp = "O") :
    ∀ fuel (b : Board) (mz : Bool) (d : Nat), Canonical b →
      (AI._minimax mark opp fuel b mz d).2 = b := by
  intro fuel
  induction fuel with
  | zero => exact fun b mz d _ => rfl
  | succ n ih =>
    intro b mz d hb
    unfold AI._minimax
    by_cases h1 : b.check_winner = some mark
    · simp [h1]
    · by_cases h2 : b.check_winner = some opp
      · by_cases he : opp = mark
        · exact absurd (he ▸ h2) h1
        · simp [h1, h2, he]
      · by_cases h3 : b.is_full = true
        · simp [h1, h2, h3]
        · have hopen : ∀ rc ∈ b.get_open_spots,
              ¬(b.cells rc.1 rc.2 = "X" ∨ b.cells rc.1 rc.2 = "O") :=
            fun rc hrc => (mem_open_spots b rc).mp hrc
          cases mz
          · simp only [h1, h2, h3, if_neg, if_false, Bool.false_eq_true]
            have := mmLoopMin_restores (AI._minimax mark opp n) opp d
              (fun b' mz' d' hb' => ih b' mz' d' hb') ho
              b.get_open_spots b EInt.posInf hb hopen
            simpa [h1, h2, h3] using this
          · have := mmLoopMax_restores (AI._minimax mark opp n) mark d
              (fun b' mz' d' hb' => ih b' mz' d' hb') hm
              b.get_open_spots b EInt.negInf hb hopen
            simpa [h1, h2, h3] using this

theorem moveLoop_restores (mm : Board → Bool → Nat → EInt × Board) (mark : String)
    (hmm : ∀ b mz d', Canonical b → (mm b mz d').2 = b)
    (hmark : mark = "X" ∨ mark = "O") :
    ∀ spots (b : Board) (best : EInt) (bm : Option (Fin 3 × Fin 3)), Canonical b →
      (∀ rc ∈ spots, ¬(b.cells rc.1 rc.2 = "X" ∨ b.cells rc.1 rc.2 = "O")) →
      (AI.moveLoop mm mark spots b best bm).2 = b := by
  intro spots
  induction spots with
  | nil => exact fun b best bm _ _ => rfl
  | cons rc rest ih =>
    intro b best bm hb hopen
    rw [moveLoop_cons]
    have hb1 : Canonical (b.setCell rc.1 rc.2 mark) :=
      canonical_setCell_mark b hb rc.1 rc.2 mark hmark
    rw [hmm _ false 0 hb1,
      setCell_restore_label b hb rc.1 rc.2 (hopen rc (List.mem_cons_self _ _)) mark]
    by_cases h : EInt.blt best (mm (b.setCell rc.1 rc.2 mark) false 0).1 = true
    · rw [if_pos h]
      exact ih b _ _ hb (fun x hx => hopen x (List.mem_cons_of_mem _ hx))
    · rw [if_neg h]
      exact ih b _ _ hb (fun x hx => hopen x (List.mem_cons_of_mem _ hx))

/-- `_explain_impossible_move` undoes both probes. -/
theorem explain_restores (mark opp : String) (b : Board) (mv : Fin 3 × Fin 3)
    (hb : Canonical b)
    (hopen : ¬(b.cells mv.1 mv.2 = "X" ∨ b.cells mv.1 mv.2 = "O")) :
    (AI._explain_impossible_move mark opp b mv).2 = b := by
  unfold AI._explain_impossible_move
  have hrest1 : (b.setCell mv.1 mv.2 mark).setCell mv.1 mv.2 (posLabel mv.1 mv.2) = b :=
    setCell_restore_label b hb mv.1 mv.2 hopen mark
  by_cases h1 : (b.setCell mv.1 mv.2 mark).check_winner = some mark
  · simp only [h1, if_pos]
    simpa using hrest1
  · simp only [h1, if_neg, if_false]
    rw [hrest1]
    have hrest2 : (b.setCell mv.1 mv.2 opp).setCell mv.1 mv.2 (posLabel mv.1 mv.2) = b :=
      setCell_restore_label b hb mv.1 mv.2 hopen opp
    by_cases h2 : (b.setCell mv.1 mv.2 opp).check_winner = some opp
    · simp only [h2, if_pos]
      simpa using hrest2
    · simp only [h2, if_neg, if_false]
      rw [hrest2]
      split
      · rfl
      · split
        · rfl
        · rfl

/-- `_move_impossible` returns an open spot and the board exactly as it was
given: every exploratory mutation is undone on every exit path. -/
theorem move_impossible_frame (mark opp : String) (b : Board)
    (hm : mark = "X" ∨ mark = "O") (ho : opp = "X" ∨ opp = "O")
    (hb : Canonical b) (hs : b.get_open_spots ≠ []) :
    ∃ mv expl, AI._move_impossible mark opp b = some (mv, expl, b) ∧
      mv ∈ b.get_open_spots := by
  have hopen : ∀ rc ∈ b.get_open_spots,
      ¬(b.cells rc.1 rc.2 = "X" ∨ b.cells rc.1 rc.2 = "O") :=
    fun rc hrc => (mem_open_spots b rc).mp hrc
  obtain ⟨mv, hmv, hmem⟩ :=
    moveLoop_start (AI._minimax mark opp 9) mark (minimax_isVal mark opp 9)
      b.get_open_spots b hs
  have hboard := moveLoop_restores (AI._minimax mark opp 9) mark
    (fun b' mz' d' hb' => minimax_restores mark opp hm ho 9 b' mz' d' hb') hm
    b.get_open_spots b EInt.negInf none hb hopen
  unfold AI._move_impossible
  match hloop : AI.moveLoop (AI._minimax mark opp 9) mark b.get_open_spots b
      EInt.negInf none with
  | (none, b') =>
    rw [hloop] at hmv
    cases hmv
  | (some mv2, b2) =>
    rw [hloop] at hmv hboard
    have hmv2 : mv2 = mv := Option.some.inj hmv
    have hb2 : b2 = b := hboard
    rw [hmv2, hb2]
    have hexp := explain_restores mark opp b mv hb (hopen mv hmem)
    refine ⟨mv, (AI._explain_impossible_move mark opp b mv).1, ?_, hmem⟩
    simp only [hexp]

/-- Claim C4: on a canonical board with at least one open cell,
`AI.get_move` at the "impossible" tier succeeds and returns with every cell
of the board equal to its value before the call (the returned board is the
input board itself). -/
theorem get_move_impossible_frame (mark opp : String) (b : Board) (coin : Bool) (k : Nat)
    (hm : mark = "X" ∨ mark = "O") (ho : opp = "X" ∨ opp = "O")
    (hb : Canonical b) (hs : b.get_open_spots ≠ []) :
    ∃ mv expl, AI.get_move "impossible" mark opp b coin k = some (mv, expl, b) := by
  obtain ⟨mv, expl, hcall, _⟩ := move_impossible_frame mark opp b hm ho hb hs
  refine ⟨mv, expl, ?_⟩
  unfold AI.get_move
  simp only [if_neg (by decide : ¬("impossible" : String) = "easy"),
    if_neg (by decide : ¬("impossible" : String) = "medium"),
    if_neg (by decide : ¬("impossible" : String) = "hard")]
  exact hcall

/-- Claim C4 witness: on the one-open-cell canonical board, the impossible
tier returns the board unchanged. -/
theorem get_move_impossible_frame_witness :
    ∃ mv expl, AI.get_move "impossible" "X" "O" c10Board false 0 = some (mv, expl, c10Board) :=
  get_move_impossible_frame "X" "O" c10Board false 0 (Or.inl rfl) (Or.inr rfl)
    (by decide) (by decide)

/-! ## Claim C5: the exhaustive-search move equals the specified minimax

`specMinimax` below is written from the specification's words (clean
functional recursion; terminal scores `10 - depth`, `depth - 10`, `0`;
max/min over the open cells in row-major order), to be compared against the
mutate-and-undo implementation `AI._minimax`. -/

/-- Minimax as the specification describes it. -/
def specMinimax (mark opp : String) : Nat → Board → Bool → Nat → Int
  | 0, _, _, _ => 0
  | fuel + 1, b, isMax, d =>
    if b.check_winner = some mark then 10 - (d : Int)
    else if b.check_winner = some opp then (d : Int) - 10
    else if b.is_full then 0
    else
      match b.get_open_spots.map (fun rc =>
        specMinimax mark opp fuel
          (b.setCell rc.1 rc.2 (if isMax then mark else opp)) (!isMax) (d + 1)) with
      | [] => 0
      | s :: ss => if isMax then ss.foldl Max.max s else ss.foldl Min.min s

/-- The score the specification assigns to a candidate move: place the own
mark, then evaluate with minimax from the opponent's perspective, depth 0. -/
def specScore (mark opp : String) (b : Board) (rc : Fin 3 × Fin 3) : Int :=
  specMinimax mark opp 9 (b.setCell rc.1 rc.2 mark) false 0

/-- The move the specification prescribes: among the open cells in row-major
order, the first one achieving the strictly highest `specScore`. -/
def specBestMove (mark opp : String) (b : Board) : Option (Fin 3 × Fin 3) :=
  match b.get_open_spots with
  | [] => none
  | rc :: rest =>
    (rc :: rest).find? (fun x =>
      specScore mark opp b x ==
        (rest.map (specScore mark opp b)).foldl Max.max (specScore mark opp b rc))

theorem mmLoopMax_eq_fold (mm : Board → Bool → Nat → EInt × Board) (mark : String)
    (d : Nat) (g : Board → Int)
    (hmm : ∀ b' : Board, Canonical b' → mm b' false (d + 1) = (EInt.val (g b'), b'))
    (hmark : mark = "X" ∨ mark = "O") :
    ∀ spots (b : Board) (acc : EInt), Canonical b →
      (∀ rc ∈ spots, ¬(b.cells rc.1 rc.2 = "X" ∨ b.cells rc.1 rc.2 = "O")) →
      (AI.mmLoopMax mm mark d spots b acc).1 =
        spots.foldl (fun a rc => EInt.max a (EInt.val (g (b.setCell rc.1 rc.2 mark)))) acc := by
  intro spots
  induction spots with
  | nil => exact fun b acc _ _ => rfl
  | cons rc rest ih =>
    intro b acc hb hopen
    rw [mmLoopMax_cons]
    have hb1 : Canonical (b.setCell rc.1 rc.2 mark) :=
      canonical_setCell_mark b hb rc.1 rc.2 mark hmark
    rw [hmm _ hb1]
    simp only
    rw [setCell_restore_label b hb rc.1 rc.2 (hopen rc (List.mem_cons_self _ _)) mark,
      List.foldl_cons]
    exact ih b _ hb (fun x hx => hopen x (List.mem_cons_of_mem _ hx))

theorem mmLoopMin_eq_fold (mm : Board → Bool → Nat → EInt × Board) (opp : String)
    (d : Nat) (g : Board → Int)
    (hmm : ∀ b' : Board, Canonical b' → mm b' true (d + 1) = (EInt.val (g b'), b'))
    (hopp : opp = "X" ∨ opp = "O") :
    ∀ spots (b : Board) (acc : EInt), Canonical b →
      (∀ rc ∈ spots, ¬(b.cells rc.1 rc.2 = "X" ∨ b.cells rc.1 rc.2 = "O")) →
      (AI.mmLoopMin mm opp d spots b acc).1 =
        spots.foldl (fun a rc => EInt.min a (EInt.val (g (b.setCell rc.1 rc.2 opp)))) acc := by
  intro spots
  induction spots with
  | nil => exact fun b acc _ _ => rfl
  | cons rc rest ih =>
    intro b acc hb hopen
    rw [mmLoopMin_cons]
    have hb1 : Canonical (b.setCell rc.1 rc.2 opp) :=
      canonical_setCell_mark b hb rc.1 rc.2 opp hopp
    rw [hmm _ hb1]
    simp only
    rw [setCell_restore_label b hb rc.1 rc.2 (hopen rc (List.mem_cons_self _ _)) opp,
      List.foldl_cons]
    exact ih b _ hb (fun x hx => hopen x (List.mem_cons_of_mem _ hx))

theorem foldl_emax_val (f : α → Int) :
    ∀ (l : List α) (s : Int),
      l.foldl (fun a x => EInt.max a (EInt.val (f x))) (EInt.val s) =
        EInt.val (l.foldl (fun a x => Max.max a (f x)) s) := by
  intro l
  induction l with
  | nil => exact fun s => rfl
  | cons x rest ih =>
    intro s
    rw [List.foldl_cons, List.foldl_cons, EInt.max_val, ih]

theorem foldl_emin_val (f : α → Int) :
    ∀ (l : List α) (s : Int),
      l.foldl (fun a x => EInt.min a (EInt.val (f x))) (EInt.val s) =
        EInt.val (l.foldl (fun a x => Min.min a (f x)) s) := by
  intro l
  induction l with
  | nil => exact fun s => rfl
  | cons x rest ih =>
    intro s
    rw [List.foldl_cons, List.foldl_cons, EInt.min_val, ih]

theorem foldl_emax_negInf (f : α → Int) (x : α) (rest : List α) :
    (x :: rest).foldl (fun a y => EInt.max a (EInt.val (f y))) EInt.negInf =
      EInt.val (rest.foldl (fun a y => Max.max a (f y)) (f x)) := by
  rw [List.foldl_cons, EInt.max_negInf, foldl_emax_val]

theorem foldl_emin_posInf (f : α → Int) (x : α) (rest : List α) :
    (x :: rest).foldl (fun a y => EInt.min a (EInt.val (f y))) EInt.posInf =
      EInt.val (rest.foldl (fun a y => Min.min a (f y)) (f x)) := by
  rw [List.foldl_cons, EInt.min_posInf, foldl_emin_val]


theorem minimax_succ_max (mark opp : String) (n : Nat) (b : Board) (d : Nat)
    (h1 : ¬b.check_winner = some mark) (h2 : ¬b.check_winner = some opp)
    (h3 : ¬b.is_full = true) :
    AI._minimax mark opp (n + 1) b true d =
      AI.mmLoopMax (AI._minimax mark opp n) mark d b.get_open_spots b EInt.negInf := by
  unfold AI._minimax
  simp [h1, h2, h3]

theorem minimax_succ_min (mark opp : String) (n : Nat) (b : Board) (d : Nat)
    (h1 : ¬b.check_winner = some mark) (h2 : ¬b.check_winner = some opp)
    (h3 : ¬b.is_full = true) :
    AI._minimax mark opp (n + 1) b false d =
      AI.mmLoopMin (AI._minimax mark opp n) opp d b.get_open_spots b EInt.posInf := by
  unfold AI._minimax
  simp [h1, h2, h3]

theorem specMinimax_succ_max (mark opp : String) (n : Nat) (b : Board) (d : Nat)
    (rc : Fin 3 × Fin 3) (rest : List (Fin 3 × Fin 3))
    (h1 : ¬b.check_winner = some mark) (h2 : ¬b.check_winner = some opp)
    (h3 : ¬b.is_full = true) (hsp : b.get_open_spots = rc :: rest) :
    specMinimax mark opp (n + 1) b true d =
      (rest.map (fun x =>
          specMinimax mark opp n (b.setCell x.1 x.2 mark) false (d + 1))).foldl Max.max
        (specMinimax mark opp n (b.setCell rc.1 rc.2 mark) false (d + 1)) := by
  show (if b.check_winner = some mark then (10 : Int) - (d : Int)
      else if b.check_winner = some opp then (d : Int) - 10
      else if b.is_full then 0
      else match b.get_open_spots.map (fun rc =>
          specMinimax mark opp n (b.setCell rc.1 rc.2 mark) false (d + 1)) with
        | [] => 0
        | s :: ss => ss.foldl Max.max s) = _
  rw [if_neg h1, if_neg h2, if_neg h3, hsp, List.map_cons]

theorem specMinimax_succ_min (mark opp : String) (n : Nat) (b : Board) (d : Nat)
    (rc : Fin 3 × Fin 3) (rest : List (Fin 3 × Fin 3))
    (h1 : ¬b.check_winner = some mark) (h2 : ¬b.check_winner = some opp)
    (h3 : ¬b.is_full = true) (hsp : b.get_open_spots = rc :: rest) :
    specMinimax mark opp (n + 1) b false d =
      (rest.map (fun x =>
          specMinimax mark opp n (b.setCell x.1 x.2 opp) true (d + 1))).foldl Min.min
        (specMinimax mark opp n (b.setCell rc.1 rc.2 opp) true (d + 1)) := by
  show (if b.check_winner = some mark then (10 : Int) - (d : Int)
      else if b.check_winner = some opp then (d : Int) - 10
      else if b.is_full then 0
      else match b.get_open_spots.map (fun rc =>
          specMinimax mark opp n (b.setCell rc.1 rc.2 opp) true (d + 1)) with
        | [] => 0
        | s :: ss => ss.foldl Min.min s) = _
  rw [if_neg h1, if_neg h2, if_neg h3, hsp, List.map_cons]

/-- On canonical boards the mutate-and-undo `_minimax` computes exactly the
specification's minimax score. -/
theorem minimax_eq_spec (mark opp : String)
    (hm : mark = "X" ∨ mark = "O") (ho : opp = "X" ∨ opp = "O") :
    ∀ fuel (b : Board) (mz : Bool) (d : Nat), Canonical b →
      (AI._minimax mark opp fuel b mz d).1 =
        EInt.val (specMinimax mark opp fuel b mz d) := by
  intro fuel
  induction fuel with
  | zero => exact fun b mz d _ => rfl
  | succ n ih =>
    intro b mz d hb
    by_cases h1 : b.check_winner = some mark
    · unfold AI._minimax specMinimax
      simp [h1]
    · by_cases h2 : b.check_winner = some opp
      · by_cases he : opp = mark
        · exact absurd (he ▸ h2) h1
        · unfold AI._minimax specMinimax
          simp [h1, h2, he]
      · by_cases h3 : b.is_full = true
        · unfold AI._minimax specMinimax
          simp [h1, h2, h3]
        · have hopen : ∀ rc ∈ b.get_open_spots,
              ¬(b.cells rc.1 rc.2 = "X" ∨ b.cells rc.1 rc.2 = "O") :=
            fun rc hrc => (mem_open_spots b rc).mp hrc
          have hne := open_spots_ne_nil b (by simpa using h3)
          match hsp : b.get_open_spots with
          | [] => exact absurd hsp hne
          | rc :: rest =>
            cases mz
            · have hloop := mmLoopMin_eq_fold (AI._minimax mark opp n) opp d
                (fun b' => specMinimax mark opp n b' true (d + 1))
                (fun b' hb' => by
                  have hv := ih b' true (d + 1) hb'
                  have hrestore := minimax_restores mark opp hm ho n b' true (d + 1) hb'
                  have hpair : AI._minimax mark opp n b' true (d + 1) =
                      ((AI._minimax mark opp n b' true (d + 1)).1,
                       (AI._minimax mark opp n b' true (d + 1)).2) := rfl
                  rw [hpair, hv, hrestore])
                ho b.get_open_spots b EInt.posInf hb hopen
              rw [minimax_succ_min mark opp n b d h1 h2 h3, hloop, hsp, foldl_emin_posInf,
                specMinimax_succ_min mark opp n b d rc rest h1 h2 h3 hsp, List.foldl_map]
            · have hloop := mmLoopMax_eq_fold (AI._minimax mark opp n) mark d
                (fun b' => specMinimax mark opp n b' false (d + 1))
                (fun b' hb' => by
                  have hv := ih b' false (d + 1) hb'
                  have hrestore := minimax_restores mark opp hm ho n b' false (d + 1) hb'
                  have hpair : AI._minimax mark opp n b' false (d + 1) =
                      ((AI._minimax mark opp n b' false (d + 1)).1,
                       (AI._minimax mark opp n b' false (d + 1)).2) := rfl
                  rw [hpair, hv, hrestore])
                hm b.get_open_spots b EInt.negInf hb hopen
              rw [minimax_succ_max mark opp n b d h1 h2 h3, hloop, hsp, foldl_emax_negInf,
                specMinimax_succ_max mark opp n b d rc rest h1 h2 h3 hsp, List.foldl_map]

/-- Pure form of the `_move_impossible` candidate scan: keep the first
element whose score strictly exceeds the running best. -/
def scanBest (f : α → Int) : List α → Int → α → α
  | [], _, mv0 => mv0
  | x :: rest, cur, mv0 =>
    if cur < f x then scanBest f rest (f x) x else scanBest f rest cur mv0

theorem scanBest_cons (f : α → Int) (x : α) (rest : List α) (cur : Int) (mv0 : α) :
    scanBest f (x :: rest) cur mv0 =
      if cur < f x then scanBest f rest (f x) x else scanBest f rest cur mv0 := rfl

theorem EInt.blt_val (a b : Int) :
    EInt.blt (EInt.val a) (EInt.val b) = decide (a < b) := rfl

theorem moveLoop_eq_scan (mm : Board → Bool → Nat → EInt × Board) (mark : String)
    (g : Board → Int)
    (hmm : ∀ b' : Board, Canonical b' → mm b' false 0 = (EInt.val (g b'), b'))
    (hmark : mark = "X" ∨ mark = "O") :
    ∀ spots (b : Board) (cur : Int) (mv0 : Fin 3 × Fin 3), Canonical b →
      (∀ rc ∈ spots, ¬(b.cells rc.1 rc.2 = "X" ∨ b.cells rc.1 rc.2 = "O")) →
      AI.moveLoop mm mark spots b (EInt.val cur) (some mv0) =
        (some (scanBest (fun rc => g (b.setCell rc.1 rc.2 mark)) spots cur mv0), b) := by
  intro spots
  induction spots with
  | nil => exact fun b cur mv0 _ _ => rfl
  | cons rc rest ih =>
    intro b cur mv0 hb hopen
    rw [moveLoop_cons]
    have hb1 : Canonical (b.setCell rc.1 rc.2 mark) :=
      canonical_setCell_mark b hb rc.1 rc.2 mark hmark
    rw [hmm _ hb1]
    simp only
    rw [setCell_restore_label b hb rc.1 rc.2 (hopen rc (List.mem_cons_self _ _)) mark]
    show (if EInt.blt (EInt.val cur) (EInt.val (g (b.setCell rc.1 rc.2 mark))) = true
      then _ else _) = _
    rw [EInt.blt_val]
    by_cases hlt : cur < g (b.setCell rc.1 rc.2 mark)
    · rw [if_pos (by simpa using hlt)]
      rw [ih b _ rc hb (fun x hx => hopen x (List.mem_cons_of_mem _ hx))]
      rw [scanBest_cons, if_pos hlt]
    · rw [if_neg (by simpa using hlt)]
      rw [ih b cur mv0 hb (fun x hx => hopen x (List.mem_cons_of_mem _ hx))]
      rw [scanBest_cons, if_neg hlt]

theorem moveLoop_scan_start (mm : Board → Bool → Nat → EInt × Board) (mark : String)
    (g : Board → Int)
    (hmm : ∀ b' : Board, Canonical b' → mm b' false 0 = (EInt.val (g b'), b'))
    (hmark : mark = "X" ∨ mark = "O")
    (rc : Fin 3 × Fin 3) (rest : List (Fin 3 × Fin 3)) (b : Board) (hb : Canonical b)
    (hopen : ∀ x ∈ rc :: rest, ¬(b.cells x.1 x.2 = "X" ∨ b.cells x.1 x.2 = "O")) :
    AI.moveLoop mm mark (rc :: rest) b EInt.negInf none =
      (some (scanBest (fun x => g (b.setCell x.1 x.2 mark)) rest
        (g (b.setCell rc.1 rc.2 mark)) rc), b) := by
  rw [moveLoop_cons]
  have hb1 : Canonical (b.setCell rc.1 rc.2 mark) :=
    canonical_setCell_mark b hb rc.1 rc.2 mark hmark
  rw [hmm _ hb1]
  simp only
  rw [setCell_restore_label b hb rc.1 rc.2 (hopen rc (List.mem_cons_self _ _)) mark]
  rw [if_pos (blt_negInf_val _)]
  exact moveLoop_eq_scan mm mark g hmm hmark rest b _ rc hb
    (fun x hx => hopen x (List.mem_cons_of_mem _ hx))

theorem foldl_max_init_le (f : α → Int) :
    ∀ (l : List α) (a : Int), a ≤ l.foldl (fun x y => Max.max x (f y)) a := by
  intro l
  induction l with
  | nil => exact fun a => le_refl a
  | cons x rest ih =>
    intro a
    rw [List.foldl_cons]
    exact le_trans (le_max_left a (f x)) (ih (Max.max a (f x)))

/-- The running strict-improvement scan lands on the first element achieving
the maximum score. -/
theorem scanBest_eq_find (f : α → Int) :
    ∀ (l : List α) (mv0 : α),
      some (scanBest f l (f mv0) mv0) =
        (mv0 :: l).find? (fun x => f x == l.foldl (fun a y => Max.max a (f y)) (f mv0)) := by
  intro l
  induction l with
  | nil =>
    intro mv0
    rw [List.find?_cons_of_pos _ (by simp)]
    rfl
  | cons x rest ih =>
    intro mv0
    rw [List.foldl_cons]
    by_cases hlt : f mv0 < f x
    · have hmax : Max.max (f mv0) (f x) = f x := max_eq_right (le_of_lt hlt)
      rw [hmax]
      have hM : f mv0 < rest.foldl (fun a y => Max.max a (f y)) (f x) :=
        lt_of_lt_of_le hlt (foldl_max_init_le f rest (f x))
      rw [List.find?_cons_of_neg _ (by simp [Int.ne_of_lt hM])]
      rw [scanBest_cons, if_pos hlt]
      exact ih x
    · have hle : f x ≤ f mv0 := le_of_not_lt hlt
      have hmax : Max.max (f mv0) (f x) = f mv0 := max_eq_left hle
      rw [hmax]
      rw [scanBest_cons, if_neg hlt]
      rw [ih mv0]
      by_cases hb : f mv0 = rest.foldl (fun a y => Max.max a (f y)) (f mv0)
      · rw [List.find?_cons_of_pos _ (by simp only [← hb]; simp),
          List.find?_cons_of_pos _ (by simp only [← hb]; simp)]
      · have hMgt : f mv0 < rest.foldl (fun a y => Max.max a (f y)) (f mv0) :=
          lt_of_le_of_ne (foldl_max_init_le f rest (f mv0)) (fun h => hb h)
        have hxne : f x ≠ rest.foldl (fun a y => Max.max a (f y)) (f mv0) :=
          Int.ne_of_lt (lt_of_le_of_lt hle hMgt)
        rw [List.find?_cons_of_neg _ (by simp [hb]), List.find?_cons_of_neg _ (by simp [hb]),
          List.find?_cons_of_neg _ (by simp [hxne])]

/-- Working form of claim C5: `_move_impossible` returns the board unchanged
and picks exactly the specification's argmax move. -/
theorem move_impossible_spec_aux (mark opp : String) (b : Board)
    (hm : mark = "X" ∨ mark = "O") (ho : opp = "X" ∨ opp = "O")
    (hb : Canonical b) (hs : b.get_open_spots ≠ []) :
    ∃ mv expl, AI._move_impossible mark opp b = some (mv, expl, b) ∧
      specBestMove mark opp b = some mv := by
  have hopen : ∀ rc ∈ b.get_open_spots,
      ¬(b.cells rc.1 rc.2 = "X" ∨ b.cells rc.1 rc.2 = "O") :=
    fun rc hrc => (mem_open_spots b rc).mp hrc
  have hmm : ∀ b' : Board, Canonical b' →
      AI._minimax mark opp 9 b' false 0 =
        (EInt.val (specMinimax mark opp 9 b' false 0), b') := by
    intro b' hb'
    have hv := minimax_eq_spec mark opp hm ho 9 b' false 0 hb'
    have hr := minimax_restores mark opp hm ho 9 b' false 0 hb'
    have hpair : AI._minimax mark opp 9 b' false 0 =
        ((AI._minimax mark opp 9 b' false 0).1, (AI._minimax mark opp 9 b' false 0).2) := rfl
    rw [hpair, hv, hr]
  match hsp : b.get_open_spots with
  | [] => exact absurd hsp hs
  | rc :: rest =>
    have hopen' : ∀ x ∈ rc :: rest, ¬(b.cells x.1 x.2 = "X" ∨ b.cells x.1 x.2 = "O") := by
      rw [← hsp]
      exact hopen
    have hloop := moveLoop_scan_start (AI._minimax mark opp 9) mark
      (fun b' => specMinimax mark opp 9 b' false 0) hmm hm rc rest b hb hopen'
    have hmv : scanBest (fun x => specMinimax mark opp 9 (b.setCell x.1 x.2 mark) false 0) rest
        (specMinimax mark opp 9 (b.setCell rc.1 rc.2 mark) false 0) rc ∈ rc :: rest := by
      have := scanBest_eq_find
        (fun x => specMinimax mark opp 9 (b.setCell x.1 x.2 mark) false 0) rest rc
      exact List.mem_of_find?_eq_some this.symm
    set mv := scanBest (fun x => specMinimax mark opp 9 (b.setCell x.1 x.2 mark) false 0) rest
      (specMinimax mark opp 9 (b.setCell rc.1 rc.2 mark) false 0) rc with hmvdef
    have hspec : specBestMove mark opp b = some mv := by
      have hf := scanBest_eq_find
        (fun x => specMinimax mark opp 9 (b.setCell x.1 x.2 mark) false 0) rest rc
      rw [← hmvdef] at hf
      unfold specBestMove
      rw [hsp]
      show List.find? (fun x =>
          specScore mark opp b x ==
            (rest.map (specScore mark opp b)).foldl Max.max (specScore mark opp b rc))
          (rc :: rest) = some mv
      rw [List.foldl_map]
      unfold specScore
      exact hf.symm
    unfold AI._move_impossible
    rw [hsp, hloop]
    have hexp := explain_restores mark opp b mv hb (hopen mv (hsp ▸ hmv))
    refine ⟨mv, (AI._explain_impossible_move mark opp b mv).1, ?_, hspec⟩
    simp only [hexp]

/-- Claim C5: on a canonical board with an open cell, the move chosen by
`_move_impossible` is exactly the one the specification prescribes: among the
open cells in row-major order, the first achieving the strictly highest
minimax score (terminal scoring `10 - depth` / `depth - 10` / `0`). -/
theorem move_impossible_matches_spec (mark opp : String) (b : Board)
    (hm : mark = "X" ∨ mark = "O") (ho : opp = "X" ∨ opp = "O")
    (hb : Canonical b) (hs : b.get_open_spots ≠ []) :
    ∃ mv expl, AI._move_impossible mark opp b = some (mv, expl, b) ∧
      specBestMove mark opp b = some mv :=
  move_impossible_spec_aux mark opp b hm ho hb hs

/-- A canonical board with three open cells in the bottom row. -/
def c5Board : Board :=
  ⟨fun r c =>
    match r.val, c.val with
    | 0, 0 => "X"
    | 0, 1 => "O"
    | 0, 2 => "X"
    | 1, 0 => "O"
    | 1, 1 => "X"
    | 1, 2 => "O"
    | 2, 0 => "7"
    | 2, 1 => "8"
    | _, _ => "9"⟩

/-- Claim C5 witness: on the three-open-cell board the exhaustive-search
move agrees with the specification's argmax, with the board unchanged. -/
theorem move_impossible_matches_spec_witness :
    ∃ mv expl, AI._move_impossible "X" "O" c5Board = some (mv, expl, c5Board) ∧
      specBestMove "X" "O" c5Board = some mv :=
  move_impossible_matches_spec "X" "O" c5Board (Or.inl rfl) (Or.inr rfl)
    (by decide) (by decide)

/-! ## Claim C2: the exhaustive-search tier never loses

The proof is certificate-based.  A canonical board is mirrored by a base-4
code (`Rep`): digit `3*r+c` is 0 for an open cell, 1 for the AI's mark, 2
for the opponent's mark.  A `Cert` tree records a no-loss strategy for the
AI; the checker `cwalkF` verifies it against a code, branching over every
opponent reply and following the certificate's single move at AI nodes.
Soundness (`cert_sound`) turns a checked certificate into a lower bound
`0 ≤ specMinimax`, which is the invariant that carries through every game
step. -/

/-- Powers of 4 for the nine cell positions. -/
def pw : Nat → Nat
  | 0 => 1
  | 1 => 4
  | 2 => 16
  | 3 => 64
  | 4 => 256
  | 5 => 1024
  | 6 => 4096
  | 7 => 16384
  | 8 => 65536
  | _ => 0

/-- Digit `p` of the base-4 board code. -/
def digit (n p : Nat) : Nat := n / pw p % 4

/-- All three positions of a line hold digit `μ`. -/
def cline (n μ p1 p2 p3 : Nat) : Bool :=
  digit n p1 == μ && digit n p2 == μ && digit n p3 == μ

/-- Some line is fully digit `μ` (1 = the AI's mark, 2 = the opponent's). -/
def cwin (n μ : Nat) : Bool :=
  cline n μ 0 1 2 || cline n μ 3 4 5 || cline n μ 6 7 8 ||
  cline n μ 0 3 6 || cline n μ 1 4 7 || cline n μ 2 5 8 ||
  cline n μ 0 4 8 || cline n μ 2 4 6

/-- Every position is occupied. -/
def cfull (n : Nat) : Bool :=
  (digit n 0 != 0) && (digit n 1 != 0) && (digit n 2 != 0) &&
  (digit n 3 != 0) && (digit n 4 != 0) && (digit n 5 != 0) &&
  (digit n 6 != 0) && (digit n 7 != 0) && (digit n 8 != 0)

/-- Number of open positions of a code. -/
def czeros (n : Nat) : Nat :=
  (if digit n 0 = 0 then 1 else 0) + (if digit n 1 = 0 then 1 else 0) +
  (if digit n 2 = 0 then 1 else 0) + (if digit n 3 = 0 then 1 else 0) +
  (if digit n 4 = 0 then 1 else 0) + (if digit n 5 = 0 then 1 else 0) +
  (if digit n 6 = 0 then 1 else 0) + (if digit n 7 = 0 then 1 else 0) +
  (if digit n 8 = 0 then 1 else 0)

/-- A no-loss strategy certificate: at an AI node `play` one position; at an
opponent node a `rcons`/`rnil` chain lists, in ascending position order, a
sub-certificate for every open reply; `leaf` marks a terminal position. -/
inductive Cert where
  | leaf : Cert
  | play (p : Nat) (next : Cert) : Cert
  | rnil : Cert
  | rcons (p : Nat) (c : Cert) (rest : Cert) : Cert

/-- Walk positions `p, p+1, ...` (with `k` positions left), consuming the
reply chain: every open position must carry a sub-certificate accepted by
`step` on the code after the opponent's move.  (Written with `Nat.rec` so
that one recursion step unfolds definitionally.) -/
def cscan (step : Cert → Nat → Bool) : Nat → Nat → Cert → Nat → Bool :=
  Nat.rec
    (fun _ chain _ =>
      match chain with
      | Cert.rnil => true
      | _ => false)
    (fun _ ih p chain n =>
      if digit n p == 0 then
        match chain with
        | Cert.rcons q c rest =>
          (q == p) && step c (n + 2 * pw p) && ih (p + 1) rest n
        | _ => false
      else ih (p + 1) chain n)

/-- The certificate checker: `maxTurn` is true when the AI is to move. -/
def cwalkF : Nat → Bool → Cert → Nat → Bool :=
  Nat.rec
    (fun _ _ _ => false)
    (fun _ ih maxTurn t n =>
      match t with
      | Cert.leaf => (cwin n 1 || cfull n) && !(cwin n 2)
      | Cert.play p next =>
        maxTurn && !(cwin n 1) && !(cwin n 2) && !(cfull n) && decide (p < 9) &&
          (digit n p == 0) && ih false next (n + pw p)
      | chain =>
        !maxTurn && !(cwin n 1) && !(cwin n 2) && !(cfull n) &&
          cscan (ih true) 9 0 chain n)

/-- Position code of a cell. -/
def posOf (r c : Fin 3) : Nat := 3 * r.val + c.val

/-- The cell string denoted by a board-code digit. -/
def cellOf (mark opp : String) (r c : Fin 3) (d : Nat) : String :=
  if d = 1 then mark else if d = 2 then opp else posLabel r c

/-- The board is mirrored by the base-4 code `n`. -/
def CodeRep (mark opp : String) (b : Board) (n : Nat) : Prop :=
  (∀ r c : Fin 3, b.cells r c = cellOf mark opp r c (digit n (posOf r c))) ∧
  (∀ p, p < 9 → digit n p < 3)

theorem digit_update (n p q μ : Nat) (hp : p < 9) (hq : q < 9) (hμ : μ < 4)
    (h0 : digit n p = 0) :
    digit (n + μ * pw p) q = if q = p then μ else digit n q := by
  unfold digit at h0 ⊢
  interval_cases p <;> interval_cases q <;> simp_all [pw] <;> omega

theorem czeros_update (n p μ : Nat) (hp : p < 9) (hμ : μ = 1 ∨ μ = 2)
    (h0 : digit n p = 0) :
    czeros (n + μ * pw p) + 1 = czeros n := by
  have hd : ∀ q, q < 9 → digit (n + μ * pw p) q = if q = p then μ else digit n q :=
    fun q hq => digit_update n p q μ hp hq (by omega) h0
  unfold czeros
  rw [hd 0 (by omega), hd 1 (by omega), hd 2 (by omega), hd 3 (by omega), hd 4 (by omega),
    hd 5 (by omega), hd 6 (by omega), hd 7 (by omega), hd 8 (by omega)]
  rcases hμ with rfl | rfl <;> interval_cases p <;> simp_all <;> omega

theorem posOf_lt (r c : Fin 3) : posOf r c < 9 := by
  have := r.isLt
  have := c.isLt
  unfold posOf
  omega

theorem posOf_inj : ∀ r c r' c' : Fin 3, posOf r c = posOf r' c' ↔ r = r' ∧ c = c' := by
  decide

theorem posLabel_ne_mark : ∀ r c : Fin 3, posLabel r c ≠ "X" ∧ posLabel r c ≠ "O" := by
  decide

theorem posLabel_inj : ∀ r c r' c' : Fin 3, posLabel r c = posLabel r' c' ↔ r = r' ∧ c = c' := by
  decide

/-- Under `CodeRep`, a cell is occupied exactly when its digit is nonzero. -/
theorem occupied_bridge (mark opp : String) (b : Board) (n : Nat)
    (hpair : mark = "X" ∧ opp = "O" ∨ mark = "O" ∧ opp = "X")
    (hrep : CodeRep mark opp b n) (r c : Fin 3) :
    b.occupied (r, c) = (digit n (posOf r c) != 0) := by
  have hcell := hrep.1 r c
  have hd := hrep.2 (posOf r c) (posOf_lt r c)
  have hlab := posLabel_ne_mark r c
  show decide (b.cells r c = "X" ∨ b.cells r c = "O") = _
  rw [hcell]
  set d := digit n (posOf r c) with hdd
  interval_cases d <;>
    rcases hpair with ⟨rfl, rfl⟩ | ⟨rfl, rfl⟩ <;>
    simp [cellOf, hlab.1, hlab.2]

/-- Under `CodeRep`, open spots are cells with digit 0. -/
theorem open_spot_bridge (mark opp : String) (b : Board) (n : Nat)
    (hpair : mark = "X" ∧ opp = "O" ∨ mark = "O" ∧ opp = "X")
    (hrep : CodeRep mark opp b n) (rc : Fin 3 × Fin 3) :
    rc ∈ b.get_open_spots ↔ digit n (posOf rc.1 rc.2) = 0 := by
  rw [mem_open_spots]
  have := occupied_bridge mark opp b n hpair hrep rc.1 rc.2
  unfold Board.occupied at this
  constructor
  · intro h
    have hocc : decide (b.cells rc.1 rc.2 = "X" ∨ b.cells rc.1 rc.2 = "O") = false := by
      simpa using h
    rw [hocc] at this
    have hb : (digit n (posOf rc.1 rc.2) != 0) = false := this.symm
    simpa using hb
  · intro h
    intro hocc
    have hocc' : decide (b.cells rc.1 rc.2 = "X" ∨ b.cells rc.1 rc.2 = "O") = true := by
      simpa using hocc
    rw [hocc'] at this
    simp [h] at this

/-- Under `CodeRep`, fullness of the board equals `cfull` of the code. -/
theorem full_bridge (mark opp : String) (b : Board) (n : Nat)
    (hpair : mark = "X" ∧ opp = "O" ∨ mark = "O" ∧ opp = "X")
    (hrep : CodeRep mark opp b n) :
    b.is_full = cfull n := by
  have ho : ∀ r c : Fin 3, b.occupied (r, c) = (digit n (posOf r c) != 0) :=
    occupied_bridge mark opp b n hpair hrep
  show allMoves.all (fun rc => b.occupied rc) = cfull n
  unfold allMoves
  simp only [List.all_cons, List.all_nil]
  rw [ho 0 0, ho 0 1, ho 0 2, ho 1 0, ho 1 1, ho 1 2, ho 2 0, ho 2 1, ho 2 2]
  show ((digit n 0 != 0) && ((digit n 1 != 0) && ((digit n 2 != 0) && ((digit n 3 != 0) &&
    ((digit n 4 != 0) && ((digit n 5 != 0) && ((digit n 6 != 0) && ((digit n 7 != 0) &&
    ((digit n 8 != 0) && true))))))))) = cfull n
  unfold cfull
  cases digit n 0 != 0 <;> cases digit n 1 != 0 <;> cases digit n 2 != 0 <;>
    cases digit n 3 != 0 <;> cases digit n 4 != 0 <;> cases digit n 5 != 0 <;>
    cases digit n 6 != 0 <;> cases digit n 7 != 0 <;> cases digit n 8 != 0 <;> rfl

set_option maxHeartbeats 1000000 in
/-- The single-line bridge: a line of three pairwise distinct cells is won in
the board exactly as classified by the code digits. -/
theorem lineWinner_bridge (mark opp : String) (b : Board) (n : Nat)
    (hpair : mark = "X" ∧ opp = "O" ∨ mark = "O" ∧ opp = "X")
    (hrep : CodeRep mark opp b n) (x y z : Fin 3 × Fin 3)
    (hxy : x ≠ y) (hyz : y ≠ z) (hxz : x ≠ z) :
    b.lineWinner (x, y, z) =
      (if cline n 1 (posOf x.1 x.2) (posOf y.1 y.2) (posOf z.1 z.2) = true then some mark
       else if cline n 2 (posOf x.1 x.2) (posOf y.1 y.2) (posOf z.1 z.2) = true then some opp
       else none) := by
  have hxy' : ¬(x.1 = y.1 ∧ x.2 = y.2) := fun h => hxy (Prod.ext h.1 h.2)
  have hyz' : ¬(y.1 = z.1 ∧ y.2 = z.2) := fun h => hyz (Prod.ext h.1 h.2)
  have hxz' : ¬(x.1 = z.1 ∧ x.2 = z.2) := fun h => hxz (Prod.ext h.1 h.2)
  have hdx := hrep.2 (posOf x.1 x.2) (posOf_lt x.1 x.2)
  have hdy := hrep.2 (posOf y.1 y.2) (posOf_lt y.1 y.2)
  have hdz := hrep.2 (posOf z.1 z.2) (posOf_lt z.1 z.2)
  have hlx := posLabel_ne_mark x.1 x.2
  have hly := posLabel_ne_mark y.1 y.2
  have hlz := posLabel_ne_mark z.1 z.2
  have hlxy := posLabel_inj x.1 x.2 y.1 y.2
  have hlyz := posLabel_inj y.1 y.2 z.1 z.2
  show (if b.cells x.1 x.2 = b.cells y.1 y.2 ∧ b.cells y.1 y.2 = b.cells z.1 z.2 then
      some (b.cells x.1 x.2) else none) = _
  rw [hrep.1 x.1 x.2, hrep.1 y.1 y.2, hrep.1 z.1 z.2]
  unfold cline
  set dx := digit n (posOf x.1 x.2) with hdxd
  set dy := digit n (posOf y.1 y.2) with hdyd
  set dz := digit n (posOf z.1 z.2) with hdzd
  clear hrep
  rcases hpair with ⟨rfl, rfl⟩ | ⟨rfl, rfl⟩ <;>
    interval_cases dx <;> interval_cases dy <;> interval_cases dz <;>
    simp [cellOf, hlx.1, hlx.2, hly.1, hly.2, hlz.1, hlz.2, hlx.1.symm, hlx.2.symm,
      hly.1.symm, hly.2.symm, hlz.1.symm, hlz.2.symm, hlxy, hlyz, hxy', hyz', hxz']

/-- The triples of cell positions of the 8 lines, in the scan order of
`check_winner`. -/
def lineTriples : List (Nat × Nat × Nat) :=
  [(0, 1, 2), (3, 4, 5), (6, 7, 8), (0, 3, 6), (1, 4, 7), (2, 5, 8), (0, 4, 8), (2, 4, 6)]

theorem lineTriples_eq_map :
    lineTriples = linesList.map (fun l =>
      (posOf l.1.1 l.1.2, posOf l.2.1.1 l.2.1.2, posOf l.2.2.1 l.2.2.2)) := by
  decide

theorem cwin_eq_any (n μ : Nat) :
    cwin n μ = lineTriples.any (fun t => cline n μ t.1 t.2.1 t.2.2) := by
  show cwin n μ = _
  unfold lineTriples cwin
  simp only [List.any_cons, List.any_nil]
  cases cline n μ 0 1 2 <;> cases cline n μ 3 4 5 <;> cases cline n μ 6 7 8 <;>
    cases cline n μ 0 3 6 <;> cases cline n μ 1 4 7 <;> cases cline n μ 2 5 8 <;>
    cases cline n μ 0 4 8 <;> cases cline n μ 2 4 6 <;> rfl

theorem findSome?_congr (f g : α → Option β) :
    ∀ (l : List α), (∀ x ∈ l, f x = g x) → l.findSome? f = l.findSome? g := by
  intro l
  induction l with
  | nil => exact fun _ => rfl
  | cons a rest ih =>
    intro h
    rw [List.findSome?_cons, List.findSome?_cons, h a (List.mem_cons_self _ _),
      ih (fun x hx => h x (List.mem_cons_of_mem _ hx))]

theorem findSome_ite_none_iff (P Q : α → Bool) (u v : β) :
    ∀ (L : List α),
      (L.findSome? (fun l => if P l = true then some u else if Q l = true then some v
          else none) = none) ↔ (L.any P = false ∧ L.any Q = false) := by
  intro L
  induction L with
  | nil => simp
  | cons a rest ih =>
    rw [List.findSome?_cons, List.any_cons, List.any_cons]
    by_cases hp : P a = true
    · simp [hp]
    · by_cases hq : Q a = true
      · simp [hp, hq]
      · simp only [hp, hq, if_neg, if_false, Bool.false_eq_true]
        simp only [Bool.false_or]
        exact ih

theorem findSome_ite_first (P Q : α → Bool) (u v : β) :
    ∀ (L : List α), L.any P = true → L.any Q = false →
      L.findSome? (fun l => if P l = true then some u else if Q l = true then some v
        else none) = some u := by
  intro L
  induction L with
  | nil => intro h; cases h
  | cons a rest ih =>
    intro hp hq
    rw [List.any_cons] at hp hq
    rw [List.findSome?_cons]
    have hqa : Q a = false := by
      cases h : Q a
      · rfl
      · rw [h] at hq
        simp at hq
    by_cases hpa : P a = true
    · simp [hpa]
    · have hpa' : P a = false := by
        cases h : P a
        · rfl
        · exact absurd h hpa
      rw [hpa'] at hp
      simp only [Bool.false_or] at hp
      have hq' : rest.any Q = false := by
        cases h : rest.any Q
        · rfl
        · rw [h] at hq
          simp at hq
      simp only [hpa', hqa, Bool.false_eq_true, if_neg, if_false]
      exact ih hp hq'

/-! ## Terminal evaluations of the specification minimax -/

theorem specMinimax_winner_mark (mark opp : String) (g : Nat) (b : Board) (t : Bool) (d : Nat)
    (h : b.check_winner = some mark) :
    specMinimax mark opp (g + 1) b t d = 10 - (d : Int) := by
  unfold specMinimax
  simp [h]

theorem specMinimax_winner_opp (mark opp : String) (g : Nat) (b : Board) (t : Bool) (d : Nat)
    (h1 : ¬b.check_winner = some mark) (h2 : b.check_winner = some opp) :
    specMinimax mark opp (g + 1) b t d = (d : Int) - 10 := by
  have hne : ¬(opp = mark) := fun he => h1 (he ▸ h2)
  unfold specMinimax
  simp [h1, h2, hne]

theorem specMinimax_full (mark opp : String) (g : Nat) (b : Board) (t : Bool) (d : Nat)
    (h1 : ¬b.check_winner = some mark) (h2 : ¬b.check_winner = some opp)
    (h3 : b.is_full = true) :
    specMinimax mark opp (g + 1) b t d = 0 := by
  unfold specMinimax
  simp [h1, h2, h3]

/-! ## Counting open spots through a placement -/

/-- Flipping exactly one element of a duplicate-free list from kept to
dropped shrinks the filtered length by one. -/
theorem length_filter_flip (p q : α → Bool) (a : α) (hpa : p a = true) (hqa : q a = false)
    (hagree : ∀ x, x ≠ a → p x = q x) :
    ∀ l : List α, a ∈ l → l.Nodup →
      (l.filter q).length + 1 = (l.filter p).length := by
  intro l
  induction l with
  | nil => intro h; cases h
  | cons x rest ih =>
    intro hmem hnd
    have hxnotin := (List.nodup_cons.mp hnd).1
    have hnd' := (List.nodup_cons.mp hnd).2
    rcases List.mem_cons.mp hmem with heq | hrest
    · subst heq
      have hpq : rest.filter q = rest.filter p :=
        List.filter_congr (fun y hy => (hagree y (fun h => hxnotin (h ▸ hy))).symm)
      rw [List.filter_cons, List.filter_cons, if_pos hpa, if_neg (by simp [hqa]), hpq]
      simp
    · have hxa : x ≠ a := fun h => hxnotin (h ▸ hrest)
      rw [List.filter_cons, List.filter_cons, ← hagree x hxa]
      by_cases hpx : p x = true
      · rw [if_pos hpx, if_pos hpx]
        simp only [List.length_cons]
        have := ih hrest hnd'
        omega
      · rw [if_neg hpx, if_neg hpx]
        exact ih hrest hnd'

theorem allMoves_nodup : allMoves.Nodup := by decide

theorem mem_allMoves : ∀ rc : Fin 3 × Fin 3, rc ∈ allMoves := by decide

/-- Marking an open cell removes exactly one open spot. -/
theorem open_spots_setCell_length (b : Board) (r c : Fin 3) (v : String)
    (hv : v = "X" ∨ v = "O")
    (ho : ¬(b.cells r c = "X" ∨ b.cells r c = "O")) :
    ((b.setCell r c v).get_open_spots).length + 1 = (b.get_open_spots).length := by
  unfold Board.get_open_spots
  apply length_filter_flip (fun rc => !b.occupied rc)
      (fun rc => !(b.setCell r c v).occupied rc) (r, c)
  · simp [Board.occupied, ho]
  · rcases hv with rfl | rfl <;> simp [Board.occupied, setCell_same]
  · intro x hne
    have hcell : (b.setCell r c v).cells x.1 x.2 = b.cells x.1 x.2 := by
      rw [setCell_cells, if_neg (fun h => hne (Prod.ext h.1 h.2))]
    simp [Board.occupied, hcell]
  · exact mem_allMoves (r, c)
  · exact allMoves_nodup

theorem open_spots_length_le (b : Board) : (b.get_open_spots).length ≤ 9 := by
  unfold Board.get_open_spots
  exact List.length_filter_le (fun rc => !b.occupied rc) allMoves

/-! ## Bounds and case analyses for max/min folds over integer scores -/

theorem foldl_max_le_mem (f : α → Int) :
    ∀ (l : List α) (s : Int) (x : α), x ∈ l →
      f x ≤ l.foldl (fun a y => Max.max a (f y)) s := by
  intro l
  induction l with
  | nil => intro s x h; cases h
  | cons y rest ih =>
    intro s x hx
    rw [List.foldl_cons]
    rcases List.mem_cons.mp hx with rfl | hr
    · exact le_trans (le_max_right s (f x)) (foldl_max_init_le f rest _)
    · exact ih _ x hr

theorem foldl_min_le_init (f : α → Int) :
    ∀ (l : List α) (s : Int), l.foldl (fun a y => Min.min a (f y)) s ≤ s := by
  intro l
  induction l with
  | nil => intro s; exact le_refl s
  | cons y rest ih =>
    intro s
    rw [List.foldl_cons]
    exact le_trans (ih (Min.min s (f y))) (min_le_left s (f y))

theorem foldl_min_le_mem (f : α → Int) :
    ∀ (l : List α) (s : Int) (x : α), x ∈ l →
      l.foldl (fun a y => Min.min a (f y)) s ≤ f x := by
  intro l
  induction l with
  | nil => intro s x h; cases h
  | cons y rest ih =>
    intro s x hx
    rw [List.foldl_cons]
    rcases List.mem_cons.mp hx with rfl | hr
    · exact le_trans (foldl_min_le_init f rest _) (min_le_right s (f x))
    · exact ih _ x hr

theorem foldl_min_nonneg (f : α → Int) :
    ∀ (l : List α) (s : Int), 0 ≤ s → (∀ x ∈ l, 0 ≤ f x) →
      0 ≤ l.foldl (fun a y => Min.min a (f y)) s := by
  intro l
  induction l with
  | nil => intro s hs _; exact hs
  | cons y rest ih =>
    intro s hs hl
    rw [List.foldl_cons]
    exact ih _ (le_min hs (hl y (List.mem_cons_self _ _)))
      (fun x hx => hl x (List.mem_cons_of_mem _ hx))

theorem foldl_max_cases (f : α → Int) :
    ∀ (l : List α) (s : Int),
      l.foldl (fun a y => Max.max a (f y)) s = s ∨
        ∃ x ∈ l, l.foldl (fun a y => Max.max a (f y)) s = f x := by
  intro l
  induction l with
  | nil => intro s; exact Or.inl rfl
  | cons y rest ih =>
    intro s
    rw [List.foldl_cons]
    rcases ih (Max.max s (f y)) with h | ⟨x, hx, h⟩
    · by_cases hsy : s ≤ f y
      · exact Or.inr ⟨y, List.mem_cons_self _ _, by rw [h, max_eq_right hsy]⟩
      · exact Or.inl (by rw [h, max_eq_left (le_of_not_le hsy)])
    · exact Or.inr ⟨x, List.mem_cons_of_mem _ hx, h⟩

theorem foldl_max_map_nonneg_iff (f : α → Int) (a : α) (l : List α) :
    0 ≤ (l.map f).foldl Max.max (f a) ↔ ∃ x ∈ a :: l, 0 ≤ f x := by
  rw [List.foldl_map]
  constructor
  · intro h
    rcases foldl_max_cases f l (f a) with he | ⟨x, hx, he⟩
    · exact ⟨a, List.mem_cons_self _ _, he ▸ h⟩
    · exact ⟨x, List.mem_cons_of_mem _ hx, he ▸ h⟩
  · rintro ⟨x, hx, h0⟩
    rcases List.mem_cons.mp hx with rfl | hr
    · exact le_trans h0 (foldl_max_init_le f l (f x))
    · exact le_trans h0 (foldl_max_le_mem f l (f a) x hr)

theorem foldl_min_map_nonneg_iff (f : α → Int) (a : α) (l : List α) :
    0 ≤ (l.map f).foldl Min.min (f a) ↔ ∀ x ∈ a :: l, 0 ≤ f x := by
  rw [List.foldl_map]
  constructor
  · intro h x hx
    rcases List.mem_cons.mp hx with rfl | hr
    · exact le_trans h (foldl_min_le_init f l (f x))
    · exact le_trans h (foldl_min_le_mem f l (f a) x hr)
  · intro h
    exact foldl_min_nonneg f l (f a) (h a (List.mem_cons_self _ _))
      (fun x hx => h x (List.mem_cons_of_mem _ hx))

theorem foldl_max_map_le_mem (f : α → Int) (a : α) (l : List α) (x : α) (hx : x ∈ a :: l) :
    f x ≤ (l.map f).foldl Max.max (f a) := by
  rw [List.foldl_map]
  rcases List.mem_cons.mp hx with rfl | hr
  · exact foldl_max_init_le f l (f x)
  · exact foldl_max_le_mem f l (f a) x hr

/-! ## The sign of the minimax value is fuel- and depth-independent -/

/-- Whether the specification minimax value is nonnegative does not depend on
the fuel or on the starting depth, provided both are compatible with the
number of open cells. -/
theorem specMinimax_sign_shift (mark opp : String)
    (hm : mark = "X" ∨ mark = "O") (ho : opp = "X" ∨ opp = "O") :
    ∀ (k : Nat) (b : Board) (t : Bool) (f1 f2 d1 d2 : Nat),
      (b.get_open_spots).length = k → k < f1 → k < f2 → k + d1 ≤ 9 → k + d2 ≤ 9 →
      (0 ≤ specMinimax mark opp f1 b t d1 ↔ 0 ≤ specMinimax mark opp f2 b t d2) := by
  intro k
  induction k using Nat.strong_induction_on with
  | _ k ih =>
    intro b t f1 f2 d1 d2 hk hf1 hf2 hd1 hd2
    obtain ⟨g1, rfl⟩ : ∃ g, f1 = g + 1 := ⟨f1 - 1, by omega⟩
    obtain ⟨g2, rfl⟩ : ∃ g, f2 = g + 1 := ⟨f2 - 1, by omega⟩
    by_cases hw1 : b.check_winner = some mark
    · rw [specMinimax_winner_mark mark opp g1 b t d1 hw1,
        specMinimax_winner_mark mark opp g2 b t d2 hw1]
      constructor <;> intro _ <;> omega
    · by_cases hw2 : b.check_winner = some opp
      · rw [specMinimax_winner_opp mark opp g1 b t d1 hw1 hw2,
          specMinimax_winner_opp mark opp g2 b t d2 hw1 hw2]
        constructor <;> intro h <;> omega
      · by_cases hfull : b.is_full = true
        · rw [specMinimax_full mark opp g1 b t d1 hw1 hw2 hfull,
            specMinimax_full mark opp g2 b t d2 hw1 hw2 hfull]
        · have hne := open_spots_ne_nil b (by simpa using hfull)
          match hsp : b.get_open_spots with
          | [] => exact absurd hsp hne
          | rc :: rest =>
            rw [hsp] at hk
            have hkpos : 1 ≤ k := by
              simp only [List.length_cons] at hk
              omega
            have hchild : ∀ x ∈ rc :: rest, ∀ v, v = "X" ∨ v = "O" →
                ((b.setCell x.1 x.2 v).get_open_spots).length = k - 1 := by
              intro x hx v hv
              have hxopen : ¬(b.cells x.1 x.2 = "X" ∨ b.cells x.1 x.2 = "O") :=
                (mem_open_spots b x).mp (by rw [hsp]; exact hx)
              have hlen := open_spots_setCell_length b x.1 x.2 v hv hxopen
              rw [hsp] at hlen
              simp only [List.length_cons] at hlen hk
              omega
            cases t
            · rw [specMinimax_succ_min mark opp g1 b d1 rc rest hw1 hw2 hfull hsp,
                specMinimax_succ_min mark opp g2 b d2 rc rest hw1 hw2 hfull hsp]
              refine Iff.trans (foldl_min_map_nonneg_iff
                  (fun x => specMinimax mark opp g1 (b.setCell x.1 x.2 opp) true (d1 + 1))
                  rc rest)
                (Iff.trans ?_ (foldl_min_map_nonneg_iff
                  (fun x => specMinimax mark opp g2 (b.setCell x.1 x.2 opp) true (d2 + 1))
                  rc rest).symm)
              constructor
              · intro h x hx
                exact (ih (k - 1) (by omega) (b.setCell x.1 x.2 opp) true g1 g2 (d1 + 1)
                  (d2 + 1) (hchild x hx opp ho) (by omega) (by omega) (by omega)
                  (by omega)).mp (h x hx)
              · intro h x hx
                exact (ih (k - 1) (by omega) (b.setCell x.1 x.2 opp) true g1 g2 (d1 + 1)
                  (d2 + 1) (hchild x hx opp ho) (by omega) (by omega) (by omega)
                  (by omega)).mpr (h x hx)
            · rw [specMinimax_succ_max mark opp g1 b d1 rc rest hw1 hw2 hfull hsp,
                specMinimax_succ_max mark opp g2 b d2 rc rest hw1 hw2 hfull hsp]
              refine Iff.trans (foldl_max_map_nonneg_iff
                  (fun x => specMinimax mark opp g1 (b.setCell x.1 x.2 mark) false (d1 + 1))
                  rc rest)
                (Iff.trans ?_ (foldl_max_map_nonneg_iff
                  (fun x => specMinimax mark opp g2 (b.setCell x.1 x.2 mark) false (d2 + 1))
                  rc rest).symm)
              constructor
              · rintro ⟨x, hx, h0⟩
                exact ⟨x, hx, (ih (k - 1) (by omega) (b.setCell x.1 x.2 mark) false g1 g2
                  (d1 + 1) (d2 + 1) (hchild x hx mark hm) (by omega) (by omega) (by omega)
                  (by omega)).mp h0⟩
              · rintro ⟨x, hx, h0⟩
                exact ⟨x, hx, (ih (k - 1) (by omega) (b.setCell x.1 x.2 mark) false g1 g2
                  (d1 + 1) (d2 + 1) (hchild x hx mark hm) (by omega) (by omega) (by omega)
                  (by omega)).mpr h0⟩

/-! ## Winner-level bridge between the board and its code -/

theorem cwin_eq_lines_any (n μ : Nat) :
    cwin n μ = linesList.any (fun l =>
      cline n μ (posOf l.1.1 l.1.2) (posOf l.2.1.1 l.2.1.2) (posOf l.2.2.1 l.2.2.2)) := by
  show cwin n μ =
    (cline n μ 0 1 2 || (cline n μ 3 4 5 || (cline n μ 6 7 8 || (cline n μ 0 3 6 ||
      (cline n μ 1 4 7 || (cline n μ 2 5 8 || (cline n μ 0 4 8 || (cline n μ 2 4 6 ||
        false))))))))
  unfold cwin
  cases cline n μ 0 1 2 <;> cases cline n μ 3 4 5 <;> cases cline n μ 6 7 8 <;>
    cases cline n μ 0 3 6 <;> cases cline n μ 1 4 7 <;> cases cline n μ 2 5 8 <;>
    cases cline n μ 0 4 8 <;> cases cline n μ 2 4 6 <;> rfl

theorem linesList_distinct :
    ∀ l ∈ linesList, l.1 ≠ l.2.1 ∧ l.2.1 ≠ l.2.2 ∧ l.1 ≠ l.2.2 := by decide

/-- Under `CodeRep`, `check_winner` scans the lines exactly as the code-level
line classifier does. -/
theorem check_winner_bridge (mark opp : String) (b : Board) (n : Nat)
    (hpair : mark = "X" ∧ opp = "O" ∨ mark = "O" ∧ opp = "X")
    (hrep : CodeRep mark opp b n) :
    b.check_winner = linesList.findSome? (fun l =>
      if cline n 1 (posOf l.1.1 l.1.2) (posOf l.2.1.1 l.2.1.2) (posOf l.2.2.1 l.2.2.2) = true
        then some mark
      else if cline n 2 (posOf l.1.1 l.1.2) (posOf l.2.1.1 l.2.1.2) (posOf l.2.2.1 l.2.2.2)
          = true
        then some opp
      else none) := by
  unfold Board.check_winner
  apply findSome?_congr
  intro l hl
  obtain ⟨h1, h2, h3⟩ := linesList_distinct l hl
  exact lineWinner_bridge mark opp b n hpair hrep l.1 l.2.1 l.2.2 h1 h2 h3

set_option maxHeartbeats 1000000 in
theorem check_winner_none_of_code (mark opp : String) (b : Board) (n : Nat)
    (hpair : mark = "X" ∧ opp = "O" ∨ mark = "O" ∧ opp = "X")
    (hrep : CodeRep mark opp b n) (h1 : cwin n 1 = false) (h2 : cwin n 2 = false) :
    b.check_winner = none := by
  rw [check_winner_bridge mark opp b n hpair hrep]
  exact (findSome_ite_none_iff
      (fun l => cline n 1 (posOf l.1.1 l.1.2) (posOf l.2.1.1 l.2.1.2) (posOf l.2.2.1 l.2.2.2))
      (fun l => cline n 2 (posOf l.1.1 l.1.2) (posOf l.2.1.1 l.2.1.2) (posOf l.2.2.1 l.2.2.2))
      mark opp linesList).mpr
    ⟨by rw [← cwin_eq_lines_any]; exact h1, by rw [← cwin_eq_lines_any]; exact h2⟩

set_option maxHeartbeats 1000000 in
theorem check_winner_mark_of_code (mark opp : String) (b : Board) (n : Nat)
    (hpair : mark = "X" ∧ opp = "O" ∨ mark = "O" ∧ opp = "X")
    (hrep : CodeRep mark opp b n) (h1 : cwin n 1 = true) (h2 : cwin n 2 = false) :
    b.check_winner = some mark := by
  rw [check_winner_bridge mark opp b n hpair hrep]
  exact findSome_ite_first
      (fun l => cline n 1 (posOf l.1.1 l.1.2) (posOf l.2.1.1 l.2.1.2) (posOf l.2.2.1 l.2.2.2))
      (fun l => cline n 2 (posOf l.1.1 l.1.2) (posOf l.2.1.1 l.2.1.2) (posOf l.2.2.1 l.2.2.2))
      mark opp linesList
    (by rw [← cwin_eq_lines_any]; exact h1) (by rw [← cwin_eq_lines_any]; exact h2)

/-! ## Maintaining `CodeRep` across placements -/

theorem rep_initial (mark opp : String) : CodeRep mark opp initialBoard 0 := by
  constructor
  · intro r c
    show posLabel r c = cellOf mark opp r c (digit 0 (posOf r c))
    have h0 : digit 0 (posOf r c) = 0 := by
      unfold digit
      simp [Nat.zero_div]
    rw [h0]
    rfl
  · intro p hp
    unfold digit
    simp [Nat.zero_div]

theorem rep_update_mark (mark opp : String) (b : Board) (n : Nat) (r c : Fin 3)
    (hrep : CodeRep mark opp b n) (h0 : digit n (posOf r c) = 0) :
    CodeRep mark opp (b.setCell r c mark) (n + pw (posOf r c)) := by
  have hupd : ∀ q, q < 9 → digit (n + pw (posOf r c)) q =
      if q = posOf r c then 1 else digit n q := by
    intro q hq
    have h := digit_update n (posOf r c) q 1 (posOf_lt r c) hq (by omega) h0
    rwa [one_mul] at h
  constructor
  · intro r' c'
    rw [setCell_cells]
    by_cases he : r' = r ∧ c' = c
    · rcases he with ⟨rfl, rfl⟩
      rw [if_pos ⟨rfl, rfl⟩, hupd (posOf r' c') (posOf_lt r' c'), if_pos rfl]
      rfl
    · rw [if_neg he, hupd (posOf r' c') (posOf_lt r' c'),
        if_neg (fun h => he ((posOf_inj r' c' r c).mp h))]
      exact hrep.1 r' c'
  · intro p hp
    rw [hupd p hp]
    by_cases hpe : p = posOf r c
    · rw [if_pos hpe]; omega
    · rw [if_neg hpe]; exact hrep.2 p hp

theorem rep_update_opp (mark opp : String) (b : Board) (n : Nat) (r c : Fin 3)
    (hrep : CodeRep mark opp b n) (h0 : digit n (posOf r c) = 0) :
    CodeRep mark opp (b.setCell r c opp) (n + 2 * pw (posOf r c)) := by
  have hupd : ∀ q, q < 9 → digit (n + 2 * pw (posOf r c)) q =
      if q = posOf r c then 2 else digit n q :=
    fun q hq => digit_update n (posOf r c) q 2 (posOf_lt r c) hq (by omega) h0
  constructor
  · intro r' c'
    rw [setCell_cells]
    by_cases he : r' = r ∧ c' = c
    · rcases he with ⟨rfl, rfl⟩
      rw [if_pos ⟨rfl, rfl⟩, hupd (posOf r' c') (posOf_lt r' c'), if_pos rfl]
      rfl
    · rw [if_neg he, hupd (posOf r' c') (posOf_lt r' c'),
        if_neg (fun h => he ((posOf_inj r' c' r c).mp h))]
      exact hrep.1 r' c'
  · intro p hp
    rw [hupd p hp]
    by_cases hpe : p = posOf r c
    · rw [if_pos hpe]; omega
    · rw [if_neg hpe]; exact hrep.2 p hp

theorem czeros_pos (n p : Nat) (hp : p < 9) (h0 : digit n p = 0) : 1 ≤ czeros n := by
  have := czeros_update n p 1 hp (Or.inl rfl) h0
  omega

theorem posOf_decomp (p : Nat) (hp : p < 9) :
    posOf ⟨p / 3, by omega⟩ ⟨p % 3, by omega⟩ = p := by
  show 3 * (p / 3) + p % 3 = p
  omega

/-! ## One-step equations and soundness of the certificate checker -/

theorem cscan_succ (step : Cert → Nat → Bool) (k p : Nat) (chain : Cert) (n : Nat) :
    cscan step (k + 1) p chain n =
      if digit n p == 0 then
        match chain with
        | Cert.rcons q c rest =>
          (q == p) && step c (n + 2 * pw p) && cscan step k (p + 1) rest n
        | _ => false
      else cscan step k (p + 1) chain n := rfl

theorem cwalkF_succ (fuel : Nat) (maxTurn : Bool) (t : Cert) (n : Nat) :
    cwalkF (fuel + 1) maxTurn t n =
      match t with
      | Cert.leaf => (cwin n 1 || cfull n) && !(cwin n 2)
      | Cert.play p next =>
        maxTurn && !(cwin n 1) && !(cwin n 2) && !(cfull n) && decide (p < 9) &&
          (digit n p == 0) && cwalkF fuel false next (n + pw p)
      | chain =>
        !maxTurn && !(cwin n 1) && !(cwin n 2) && !(cfull n) &&
          cscan (cwalkF fuel true) 9 0 chain n := rfl

theorem cscan_sound (step : Cert → Nat → Bool) :
    ∀ (k p : Nat) (chain : Cert) (n : Nat), cscan step k p chain n = true →
      ∀ q, p ≤ q → q < p + k → digit n q = 0 →
        ∃ c, step c (n + 2 * pw q) = true := by
  intro k
  induction k with
  | zero => intro p chain n _ q hpq hqk _; omega
  | succ k ih =>
    intro p chain n h q hpq hqk hq0
    rw [cscan_succ] at h
    by_cases hdp : (digit n p == 0) = true
    · rw [if_pos hdp] at h
      cases chain with
      | rcons q' c rest =>
        simp only [Bool.and_eq_true] at h
        obtain ⟨⟨hq'', hstep⟩, hrest⟩ := h
        by_cases hqp : q = p
        · subst hqp
          exact ⟨c, hstep⟩
        · exact ih (p + 1) rest n hrest q (by omega) (by omega) hq0
      | leaf => exact Bool.noConfusion h
      | rnil => exact Bool.noConfusion h
      | play p' nx => exact Bool.noConfusion h
    · rw [if_neg hdp] at h
      have hqp : q ≠ p := by
        intro hqe
        apply hdp
        rw [← hqe]
        simp [hq0]
      exact ih (p + 1) chain n h q (by omega) (by omega) hq0

/-- Soundness of the certificate checker: an accepted certificate bounds the
specification minimax value from below by 0 (the AI at least draws). -/
theorem cert_sound :
    ∀ (fc : Nat) (tb : Bool) (ct : Cert) (n : Nat), cwalkF fc tb ct n = true →
      ∀ (mark opp : String) (b : Board) (fuel d : Nat),
        (mark = "X" ∧ opp = "O" ∨ mark = "O" ∧ opp = "X") →
        CodeRep mark opp b n → czeros n + d ≤ 9 → czeros n < fuel →
        0 ≤ specMinimax mark opp fuel b tb d := by
  intro fc
  induction fc with
  | zero => intro tb ct n h; exact Bool.noConfusion h
  | succ fc ih =>
    intro tb ct n h mark opp b fuel d hpair hrep hd hfu
    obtain ⟨g, rfl⟩ : ∃ g, fuel = g + 1 := ⟨fuel - 1, by omega⟩
    rw [cwalkF_succ] at h
    have hchain : ∀ ch : Cert,
        (!tb && !(cwin n 1) && !(cwin n 2) && !(cfull n) &&
          cscan (cwalkF fc true) 9 0 ch n) = true →
        0 ≤ specMinimax mark opp (g + 1) b tb d := by
      intro ch hh
      simp only [Bool.and_eq_true, Bool.not_eq_true'] at hh
      obtain ⟨⟨⟨⟨htb, hw1⟩, hw2⟩, hful⟩, hscan⟩ := hh
      subst htb
      have hwn := check_winner_none_of_code mark opp b n hpair hrep hw1 hw2
      have hfb : b.is_full = false := by
        rw [full_bridge mark opp b n hpair hrep]; exact hful
      have hne := open_spots_ne_nil b hfb
      match hsp : b.get_open_spots with
      | [] => exact absurd hsp hne
      | rc :: rest =>
        rw [specMinimax_succ_min mark opp g b d rc rest (by simp [hwn]) (by simp [hwn])
          (by simp [hfb]) hsp]
        refine (foldl_min_map_nonneg_iff
            (fun x => specMinimax mark opp g (b.setCell x.1 x.2 opp) true (d + 1))
            rc rest).mpr ?_
        intro x hx
        have hxmem : x ∈ b.get_open_spots := by rw [hsp]; exact hx
        have hx0 : digit n (posOf x.1 x.2) = 0 :=
          (open_spot_bridge mark opp b n hpair hrep x).mp hxmem
        obtain ⟨cx, hcx⟩ := cscan_sound (cwalkF fc true) 9 0 ch n hscan (posOf x.1 x.2)
          (by omega) (by simpa using posOf_lt x.1 x.2) hx0
        have hrep' := rep_update_opp mark opp b n x.1 x.2 hrep hx0
        have hcz := czeros_update n (posOf x.1 x.2) 2 (posOf_lt x.1 x.2) (Or.inr rfl) hx0
        exact ih true cx (n + 2 * pw (posOf x.1 x.2)) hcx mark opp _ g (d + 1) hpair hrep'
          (by omega) (by omega)
    cases ct with
    | leaf =>
      simp only [Bool.and_eq_true, Bool.or_eq_true, Bool.not_eq_true'] at h
      obtain ⟨h1, h2⟩ := h
      rcases h1 with hw | hf
      · rw [specMinimax_winner_mark mark opp g b tb d
          (check_winner_mark_of_code mark opp b n hpair hrep hw h2)]
        omega
      · by_cases hw1 : cwin n 1 = true
        · rw [specMinimax_winner_mark mark opp g b tb d
            (check_winner_mark_of_code mark opp b n hpair hrep hw1 h2)]
          omega
        · have hwn := check_winner_none_of_code mark opp b n hpair hrep
            (by simpa using hw1) h2
          rw [specMinimax_full mark opp g b tb d (by simp [hwn]) (by simp [hwn])
            (by rw [full_bridge mark opp b n hpair hrep]; exact hf)]
    | play p next =>
      simp only [Bool.and_eq_true, Bool.not_eq_true', decide_eq_true_eq, beq_iff_eq] at h
      obtain ⟨⟨⟨⟨⟨⟨htb, hw1⟩, hw2⟩, hful⟩, hp9⟩, hdp⟩, hnext⟩ := h
      subst htb
      have hwn := check_winner_none_of_code mark opp b n hpair hrep hw1 hw2
      have hfb : b.is_full = false := by
        rw [full_bridge mark opp b n hpair hrep]; exact hful
      have hne := open_spots_ne_nil b hfb
      match hsp : b.get_open_spots with
      | [] => exact absurd hsp hne
      | rc :: rest =>
        rw [specMinimax_succ_max mark opp g b d rc rest (by simp [hwn]) (by simp [hwn])
          (by simp [hfb]) hsp]
        have hr0 : p / 3 < 3 := by omega
        have hc0 : p % 3 < 3 := by omega
        have hpos : posOf ⟨p / 3, hr0⟩ ⟨p % 3, hc0⟩ = p := posOf_decomp p hp9
        have hmem : ((⟨p / 3, hr0⟩ : Fin 3), (⟨p % 3, hc0⟩ : Fin 3)) ∈ b.get_open_spots :=
          (open_spot_bridge mark opp b n hpair hrep _).mpr (by rw [hpos]; exact hdp)
        have hrep' : CodeRep mark opp
            (b.setCell ⟨p / 3, hr0⟩ ⟨p % 3, hc0⟩ mark) (n + pw p) := by
          have h' := rep_update_mark mark opp b n ⟨p / 3, hr0⟩ ⟨p % 3, hc0⟩ hrep
            (by rw [hpos]; exact hdp)
          rwa [hpos] at h'
        have hcz : czeros (n + pw p) + 1 = czeros n := by
          have h' := czeros_update n p 1 hp9 (Or.inl rfl) hdp
          rwa [one_mul] at h'
        have hchild : 0 ≤ specMinimax mark opp g
            (b.setCell ⟨p / 3, hr0⟩ ⟨p % 3, hc0⟩ mark) false (d + 1) :=
          ih false next (n + pw p) hnext mark opp _ g (d + 1) hpair hrep'
            (by omega) (by omega)
        exact (foldl_max_map_nonneg_iff
            (fun x => specMinimax mark opp g (b.setCell x.1 x.2 mark) false (d + 1))
            rc rest).mpr ⟨(⟨p / 3, hr0⟩, ⟨p % 3, hc0⟩), by rw [← hsp]; exact hmem, hchild⟩
    | rnil => exact hchain Cert.rnil h
    | rcons p c rest => exact hchain (Cert.rcons p c rest) h

/-- A no-loss strategy certificate for the AI moving first from the empty
board (generated offline from the game tree and verified by `cwalkF`). -/
def certA : Cert :=
  (Cert.play 0 (Cert.rcons 1 (Cert.play 3 (Cert.rcons 2 (Cert.play 6 Cert.leaf) (Cert.rcons 4
    (Cert.play 6 Cert.leaf) (Cert.rcons 5 (Cert.play 6 Cert.leaf) (Cert.rcons 6 (Cert.play 4
    (Cert.rcons 2 (Cert.play 5 Cert.leaf) (Cert.rcons 5 (Cert.play 8 Cert.leaf) (Cert.rcons 7
    (Cert.play 5 Cert.leaf) (Cert.rcons 8 (Cert.play 5 Cert.leaf) Cert.rnil))))) (Cert.rcons 7
    (Cert.play 6 Cert.leaf) (Cert.rcons 8 (Cert.play 6 Cert.leaf) Cert.rnil))))))) (Cert.rcons 2
    (Cert.play 3 (Cert.rcons 1 (Cert.play 6 Cert.leaf) (Cert.rcons 4 (Cert.play 6 Cert.leaf)
    (Cert.rcons 5 (Cert.play 6 Cert.leaf) (Cert.rcons 6 (Cert.play 4 (Cert.rcons 1 (Cert.play 5
    Cert.leaf) (Cert.rcons 5 (Cert.play 8 Cert.leaf) (Cert.rcons 7 (Cert.play 5 Cert.leaf)
    (Cert.rcons 8 (Cert.play 5 Cert.leaf) Cert.rnil))))) (Cert.rcons 7 (Cert.play 6 Cert.leaf)
    (Cert.rcons 8 (Cert.play 6 Cert.leaf) Cert.rnil))))))) (Cert.rcons 3 (Cert.play 1
    (Cert.rcons 2 (Cert.play 4 (Cert.rcons 5 (Cert.play 7 Cert.leaf) (Cert.rcons 6 (Cert.play 7
    Cert.leaf) (Cert.rcons 7 (Cert.play 8 Cert.leaf) (Cert.rcons 8 (Cert.play 7 Cert.leaf)
    Cert.rnil))))) (Cert.rcons 4 (Cert.play 2 Cert.leaf) (Cert.rcons 5 (Cert.play 2 Cert.leaf)
    (Cert.rcons 6 (Cert.play 2 Cert.leaf) (Cert.rcons 7 (Cert.play 2 Cert.leaf) (Cert.rcons 8
    (Cert.play 2 Cert.leaf) Cert.rnil))))))) (Cert.rcons 4 (Cert.play 1 (Cert.rcons 2 (Cert.play
    6 (Cert.rcons 3 (Cert.play 5 (Cert.rcons 7 (Cert.play 8 Cert.leaf) (Cert.rcons 8 (Cert.play
    7 Cert.leaf) Cert.rnil))) (Cert.rcons 5 (Cert.play 3 Cert.leaf) (Cert.rcons 7 (Cert.play 3
    Cert.leaf) (Cert.rcons 8 (Cert.play 3 Cert.leaf) Cert.rnil))))) (Cert.rcons 3 (Cert.play 2
    Cert.leaf) (Cert.rcons 5 (Cert.play 2 Cert.leaf) (Cert.rcons 6 (Cert.play 2 Cert.leaf)
    (Cert.rcons 7 (Cert.play 2 Cert.leaf) (Cert.rcons 8 (Cert.play 2 Cert.leaf) Cert.rnil)))))))
    (Cert.rcons 5 (Cert.play 2 (Cert.rcons 1 (Cert.play 4 (Cert.rcons 3 (Cert.play 6 Cert.leaf)
    (Cert.rcons 6 (Cert.play 8 Cert.leaf) (Cert.rcons 7 (Cert.play 6 Cert.leaf) (Cert.rcons 8
    (Cert.play 6 Cert.leaf) Cert.rnil))))) (Cert.rcons 3 (Cert.play 1 Cert.leaf) (Cert.rcons 4
    (Cert.play 1 Cert.leaf) (Cert.rcons 6 (Cert.play 1 Cert.leaf) (Cert.rcons 7 (Cert.play 1
    Cert.leaf) (Cert.rcons 8 (Cert.play 1 Cert.leaf) Cert.rnil))))))) (Cert.rcons 6 (Cert.play 1
    (Cert.rcons 2 (Cert.play 4 (Cert.rcons 3 (Cert.play 7 Cert.leaf) (Cert.rcons 5 (Cert.play 7
    Cert.leaf) (Cert.rcons 7 (Cert.play 8 Cert.leaf) (Cert.rcons 8 (Cert.play 7 Cert.leaf)
    Cert.rnil))))) (Cert.rcons 3 (Cert.play 2 Cert.leaf) (Cert.rcons 4 (Cert.play 2 Cert.leaf)
    (Cert.rcons 5 (Cert.play 2 Cert.leaf) (Cert.rcons 7 (Cert.play 2 Cert.leaf) (Cert.rcons 8
    (Cert.play 2 Cert.leaf) Cert.rnil))))))) (Cert.rcons 7 (Cert.play 2 (Cert.rcons 1 (Cert.play
    4 (Cert.rcons 3 (Cert.play 6 Cert.leaf) (Cert.rcons 5 (Cert.play 6 Cert.leaf) (Cert.rcons 6
    (Cert.play 8 Cert.leaf) (Cert.rcons 8 (Cert.play 6 Cert.leaf) Cert.rnil))))) (Cert.rcons 3
    (Cert.play 1 Cert.leaf) (Cert.rcons 4 (Cert.play 1 Cert.leaf) (Cert.rcons 5 (Cert.play 1
    Cert.leaf) (Cert.rcons 6 (Cert.play 1 Cert.leaf) (Cert.rcons 8 (Cert.play 1 Cert.leaf)
    Cert.rnil))))))) (Cert.rcons 8 (Cert.play 2 (Cert.rcons 1 (Cert.play 6 (Cert.rcons 3
    (Cert.play 4 Cert.leaf) (Cert.rcons 4 (Cert.play 3 Cert.leaf) (Cert.rcons 5 (Cert.play 3
    Cert.leaf) (Cert.rcons 7 (Cert.play 3 Cert.leaf) Cert.rnil))))) (Cert.rcons 3 (Cert.play 1
    Cert.leaf) (Cert.rcons 4 (Cert.play 1 Cert.leaf) (Cert.rcons 5 (Cert.play 1 Cert.leaf)
    (Cert.rcons 6 (Cert.play 1 Cert.leaf) (Cert.rcons 7 (Cert.play 1 Cert.leaf) Cert.rnil)))))))
    Cert.rnil)))))))))

/-- A no-loss strategy certificate for the AI moving second from the empty
board. -/
def certB : Cert :=
  (Cert.rcons 0 (Cert.play 4 (Cert.rcons 1 (Cert.play 2 (Cert.rcons 3 (Cert.play 6 Cert.leaf)
    (Cert.rcons 5 (Cert.play 6 Cert.leaf) (Cert.rcons 6 (Cert.play 3 (Cert.rcons 5 (Cert.play 7
    (Cert.rcons 8 Cert.leaf Cert.rnil)) (Cert.rcons 7 (Cert.play 5 Cert.leaf) (Cert.rcons 8
    (Cert.play 5 Cert.leaf) Cert.rnil)))) (Cert.rcons 7 (Cert.play 6 Cert.leaf) (Cert.rcons 8
    (Cert.play 6 Cert.leaf) Cert.rnil)))))) (Cert.rcons 2 (Cert.play 1 (Cert.rcons 3 (Cert.play
    7 Cert.leaf) (Cert.rcons 5 (Cert.play 7 Cert.leaf) (Cert.rcons 6 (Cert.play 7 Cert.leaf)
    (Cert.rcons 7 (Cert.play 3 (Cert.rcons 5 (Cert.play 8 (Cert.rcons 6 Cert.leaf Cert.rnil))
    (Cert.rcons 6 (Cert.play 5 Cert.leaf) (Cert.rcons 8 (Cert.play 5 Cert.leaf) Cert.rnil))))
    (Cert.rcons 8 (Cert.play 7 Cert.leaf) Cert.rnil)))))) (Cert.rcons 3 (Cert.play 6 (Cert.rcons
    1 (Cert.play 2 Cert.leaf) (Cert.rcons 2 (Cert.play 1 (Cert.rcons 5 (Cert.play 7 Cert.leaf)
    (Cert.rcons 7 (Cert.play 5 (Cert.rcons 8 Cert.leaf Cert.rnil)) (Cert.rcons 8 (Cert.play 7
    Cert.leaf) Cert.rnil)))) (Cert.rcons 5 (Cert.play 2 Cert.leaf) (Cert.rcons 7 (Cert.play 2
    Cert.leaf) (Cert.rcons 8 (Cert.play 2 Cert.leaf) Cert.rnil)))))) (Cert.rcons 5 (Cert.play 1
    (Cert.rcons 2 (Cert.play 7 Cert.leaf) (Cert.rcons 3 (Cert.play 7 Cert.leaf) (Cert.rcons 6
    (Cert.play 7 Cert.leaf) (Cert.rcons 7 (Cert.play 6 (Cert.rcons 2 (Cert.play 8 (Cert.rcons 3
    Cert.leaf Cert.rnil)) (Cert.rcons 3 (Cert.play 2 Cert.leaf) (Cert.rcons 8 (Cert.play 2
    Cert.leaf) Cert.rnil)))) (Cert.rcons 8 (Cert.play 7 Cert.leaf) Cert.rnil)))))) (Cert.rcons 6
    (Cert.play 3 (Cert.rcons 1 (Cert.play 5 Cert.leaf) (Cert.rcons 2 (Cert.play 5 Cert.leaf)
    (Cert.rcons 5 (Cert.play 1 (Cert.rcons 2 (Cert.play 7 Cert.leaf) (Cert.rcons 7 (Cert.play 8
    (Cert.rcons 2 Cert.leaf Cert.rnil)) (Cert.rcons 8 (Cert.play 7 Cert.leaf) Cert.rnil))))
    (Cert.rcons 7 (Cert.play 5 Cert.leaf) (Cert.rcons 8 (Cert.play 5 Cert.leaf) Cert.rnil))))))
    (Cert.rcons 7 (Cert.play 3 (Cert.rcons 1 (Cert.play 5 Cert.leaf) (Cert.rcons 2 (Cert.play 5
    Cert.leaf) (Cert.rcons 5 (Cert.play 2 (Cert.rcons 1 (Cert.play 6 Cert.leaf) (Cert.rcons 6
    (Cert.play 8 (Cert.rcons 1 Cert.leaf Cert.rnil)) (Cert.rcons 8 (Cert.play 6 Cert.leaf)
    Cert.rnil)))) (Cert.rcons 6 (Cert.play 5 Cert.leaf) (Cert.rcons 8 (Cert.play 5 Cert.leaf)
    Cert.rnil)))))) (Cert.rcons 8 (Cert.play 1 (Cert.rcons 2 (Cert.play 7 Cert.leaf) (Cert.rcons
    3 (Cert.play 7 Cert.leaf) (Cert.rcons 5 (Cert.play 7 Cert.leaf) (Cert.rcons 6 (Cert.play 7
    Cert.leaf) (Cert.rcons 7 (Cert.play 6 (Cert.rcons 2 (Cert.play 5 (Cert.rcons 3 Cert.leaf
    Cert.rnil)) (Cert.rcons 3 (Cert.play 2 Cert.leaf) (Cert.rcons 5 (Cert.play 2 Cert.leaf)
    Cert.rnil)))) Cert.rnil)))))) Cert.rnil)))))))) (Cert.rcons 1 (Cert.play 4 (Cert.rcons 0
    (Cert.play 2 (Cert.rcons 3 (Cert.play 6 Cert.leaf) (Cert.rcons 5 (Cert.play 6 Cert.leaf)
    (Cert.rcons 6 (Cert.play 3 (Cert.rcons 5 (Cert.play 7 (Cert.rcons 8 Cert.leaf Cert.rnil))
    (Cert.rcons 7 (Cert.play 5 Cert.leaf) (Cert.rcons 8 (Cert.play 5 Cert.leaf) Cert.rnil))))
    (Cert.rcons 7 (Cert.play 6 Cert.leaf) (Cert.rcons 8 (Cert.play 6 Cert.leaf) Cert.rnil))))))
    (Cert.rcons 2 (Cert.play 0 (Cert.rcons 3 (Cert.play 8 Cert.leaf) (Cert.rcons 5 (Cert.play 8
    Cert.leaf) (Cert.rcons 6 (Cert.play 8 Cert.leaf) (Cert.rcons 7 (Cert.play 8 Cert.leaf)
    (Cert.rcons 8 (Cert.play 5 (Cert.rcons 3 (Cert.play 6 (Cert.rcons 7 Cert.leaf Cert.rnil))
    (Cert.rcons 6 (Cert.play 3 Cert.leaf) (Cert.rcons 7 (Cert.play 3 Cert.leaf) Cert.rnil))))
    Cert.rnil)))))) (Cert.rcons 3 (Cert.play 0 (Cert.rcons 2 (Cert.play 8 Cert.leaf) (Cert.rcons
    5 (Cert.play 8 Cert.leaf) (Cert.rcons 6 (Cert.play 8 Cert.leaf) (Cert.rcons 7 (Cert.play 8
    Cert.leaf) (Cert.rcons 8 (Cert.play 2 (Cert.rcons 5 (Cert.play 6 Cert.leaf) (Cert.rcons 6
    (Cert.play 7 (Cert.rcons 5 Cert.leaf Cert.rnil)) (Cert.rcons 7 (Cert.play 6 Cert.leaf)
    Cert.rnil)))) Cert.rnil)))))) (Cert.rcons 5 (Cert.play 0 (Cert.rcons 2 (Cert.play 8
    Cert.leaf) (Cert.rcons 3 (Cert.play 8 Cert.leaf) (Cert.rcons 6 (Cert.play 8 Cert.leaf)
    (Cert.rcons 7 (Cert.play 8 Cert.leaf) (Cert.rcons 8 (Cert.play 2 (Cert.rcons 3 (Cert.play 6
    Cert.leaf) (Cert.rcons 6 (Cert.play 7 (Cert.rcons 3 Cert.leaf Cert.rnil)) (Cert.rcons 7
    (Cert.play 6 Cert.leaf) Cert.rnil)))) Cert.rnil)))))) (Cert.rcons 6 (Cert.play 3 (Cert.rcons
    0 (Cert.play 5 Cert.leaf) (Cert.rcons 2 (Cert.play 5 Cert.leaf) (Cert.rcons 5 (Cert.play 8
    (Cert.rcons 0 (Cert.play 2 (Cert.rcons 7 Cert.leaf Cert.rnil)) (Cert.rcons 2 (Cert.play 0
    Cert.leaf) (Cert.rcons 7 (Cert.play 0 Cert.leaf) Cert.rnil)))) (Cert.rcons 7 (Cert.play 5
    Cert.leaf) (Cert.rcons 8 (Cert.play 5 Cert.leaf) Cert.rnil)))))) (Cert.rcons 7 (Cert.play 0
    (Cert.rcons 2 (Cert.play 8 Cert.leaf) (Cert.rcons 3 (Cert.play 8 Cert.leaf) (Cert.rcons 5
    (Cert.play 8 Cert.leaf) (Cert.rcons 6 (Cert.play 8 Cert.leaf) (Cert.rcons 8 (Cert.play 6
    (Cert.rcons 2 (Cert.play 3 Cert.leaf) (Cert.rcons 3 (Cert.play 2 Cert.leaf) (Cert.rcons 5
    (Cert.play 2 Cert.leaf) Cert.rnil)))) Cert.rnil)))))) (Cert.rcons 8 (Cert.play 3 (Cert.rcons
    0 (Cert.play 5 Cert.leaf) (Cert.rcons 2 (Cert.play 5 Cert.leaf) (Cert.rcons 5 (Cert.play 2
    (Cert.rcons 0 (Cert.play 6 Cert.leaf) (Cert.rcons 6 (Cert.play 7 (Cert.rcons 0 Cert.leaf
    Cert.rnil)) (Cert.rcons 7 (Cert.play 6 Cert.leaf) Cert.rnil)))) (Cert.rcons 6 (Cert.play 5
    Cert.leaf) (Cert.rcons 7 (Cert.play 5 Cert.leaf) Cert.rnil)))))) Cert.rnil))))))))
    (Cert.rcons 2 (Cert.play 4 (Cert.rcons 0 (Cert.play 1 (Cert.rcons 3 (Cert.play 7 Cert.leaf)
    (Cert.rcons 5 (Cert.play 7 Cert.leaf) (Cert.rcons 6 (Cert.play 7 Cert.leaf) (Cert.rcons 7
    (Cert.play 3 (Cert.rcons 5 (Cert.play 8 (Cert.rcons 6 Cert.leaf Cert.rnil)) (Cert.rcons 6
    (Cert.play 5 Cert.leaf) (Cert.rcons 8 (Cert.play 5 Cert.leaf) Cert.rnil)))) (Cert.rcons 8
    (Cert.play 7 Cert.leaf) Cert.rnil)))))) (Cert.rcons 1 (Cert.play 0 (Cert.rcons 3 (Cert.play
    8 Cert.leaf) (Cert.rcons 5 (Cert.play 8 Cert.leaf) (Cert.rcons 6 (Cert.play 8 Cert.leaf)
    (Cert.rcons 7 (Cert.play 8 Cert.leaf) (Cert.rcons 8 (Cert.play 5 (Cert.rcons 3 (Cert.play 6
    (Cert.rcons 7 Cert.leaf Cert.rnil)) (Cert.rcons 6 (Cert.play 3 Cert.leaf) (Cert.rcons 7
    (Cert.play 3 Cert.leaf) Cert.rnil)))) Cert.rnil)))))) (Cert.rcons 3 (Cert.play 1 (Cert.rcons
    0 (Cert.play 7 Cert.leaf) (Cert.rcons 5 (Cert.play 7 Cert.leaf) (Cert.rcons 6 (Cert.play 7
    Cert.leaf) (Cert.rcons 7 (Cert.play 8 (Cert.rcons 0 (Cert.play 6 (Cert.rcons 5 Cert.leaf
    Cert.rnil)) (Cert.rcons 5 (Cert.play 0 Cert.leaf) (Cert.rcons 6 (Cert.play 0 Cert.leaf)
    Cert.rnil)))) (Cert.rcons 8 (Cert.play 7 Cert.leaf) Cert.rnil)))))) (Cert.rcons 5 (Cert.play
    8 (Cert.rcons 0 (Cert.play 1 (Cert.rcons 3 (Cert.play 7 Cert.leaf) (Cert.rcons 6 (Cert.play
    7 Cert.leaf) (Cert.rcons 7 (Cert.play 3 (Cert.rcons 6 Cert.leaf Cert.rnil)) Cert.rnil))))
    (Cert.rcons 1 (Cert.play 0 Cert.leaf) (Cert.rcons 3 (Cert.play 0 Cert.leaf) (Cert.rcons 6
    (Cert.play 0 Cert.leaf) (Cert.rcons 7 (Cert.play 0 Cert.leaf) Cert.rnil)))))) (Cert.rcons 6
    (Cert.play 1 (Cert.rcons 0 (Cert.play 7 Cert.leaf) (Cert.rcons 3 (Cert.play 7 Cert.leaf)
    (Cert.rcons 5 (Cert.play 7 Cert.leaf) (Cert.rcons 7 (Cert.play 8 (Cert.rcons 0 (Cert.play 3
    (Cert.rcons 5 Cert.leaf Cert.rnil)) (Cert.rcons 3 (Cert.play 0 Cert.leaf) (Cert.rcons 5
    (Cert.play 0 Cert.leaf) Cert.rnil)))) (Cert.rcons 8 (Cert.play 7 Cert.leaf) Cert.rnil))))))
    (Cert.rcons 7 (Cert.play 3 (Cert.rcons 0 (Cert.play 5 Cert.leaf) (Cert.rcons 1 (Cert.play 5
    Cert.leaf) (Cert.rcons 5 (Cert.play 8 (Cert.rcons 0 (Cert.play 1 (Cert.rcons 6 Cert.leaf
    Cert.rnil)) (Cert.rcons 1 (Cert.play 0 Cert.leaf) (Cert.rcons 6 (Cert.play 0 Cert.leaf)
    Cert.rnil)))) (Cert.rcons 6 (Cert.play 5 Cert.leaf) (Cert.rcons 8 (Cert.play 5 Cert.leaf)
    Cert.rnil)))))) (Cert.rcons 8 (Cert.play 5 (Cert.rcons 0 (Cert.play 3 Cert.leaf) (Cert.rcons
    1 (Cert.play 3 Cert.leaf) (Cert.rcons 3 (Cert.play 1 (Cert.rcons 0 (Cert.play 7 Cert.leaf)
    (Cert.rcons 6 (Cert.play 7 Cert.leaf) (Cert.rcons 7 (Cert.play 6 (Cert.rcons 0 Cert.leaf
    Cert.rnil)) Cert.rnil)))) (Cert.rcons 6 (Cert.play 3 Cert.leaf) (Cert.rcons 7 (Cert.play 3
    Cert.leaf) Cert.rnil)))))) Cert.rnil)))))))) (Cert.rcons 3 (Cert.play 4 (Cert.rcons 0
    (Cert.play 6 (Cert.rcons 1 (Cert.play 2 Cert.leaf) (Cert.rcons 2 (Cert.play 1 (Cert.rcons 5
    (Cert.play 7 Cert.leaf) (Cert.rcons 7 (Cert.play 5 (Cert.rcons 8 Cert.leaf Cert.rnil))
    (Cert.rcons 8 (Cert.play 7 Cert.leaf) Cert.rnil)))) (Cert.rcons 5 (Cert.play 2 Cert.leaf)
    (Cert.rcons 7 (Cert.play 2 Cert.leaf) (Cert.rcons 8 (Cert.play 2 Cert.leaf) Cert.rnil))))))
    (Cert.rcons 1 (Cert.play 0 (Cert.rcons 2 (Cert.play 8 Cert.leaf) (Cert.rcons 5 (Cert.play 8
    Cert.leaf) (Cert.rcons 6 (Cert.play 8 Cert.leaf) (Cert.rcons 7 (Cert.play 8 Cert.leaf)
    (Cert.rcons 8 (Cert.play 2 (Cert.rcons 5 (Cert.play 6 Cert.leaf) (Cert.rcons 6 (Cert.play 7
    (Cert.rcons 5 Cert.leaf Cert.rnil)) (Cert.rcons 7 (Cert.play 6 Cert.leaf) Cert.rnil))))
    Cert.rnil)))))) (Cert.rcons 2 (Cert.play 1 (Cert.rcons 0 (Cert.play 7 Cert.leaf) (Cert.rcons
    5 (Cert.play 7 Cert.leaf) (Cert.rcons 6 (Cert.play 7 Cert.leaf) (Cert.rcons 7 (Cert.play 8
    (Cert.rcons 0 (Cert.play 6 (Cert.rcons 5 Cert.leaf Cert.rnil)) (Cert.rcons 5 (Cert.play 0
    Cert.leaf) (Cert.rcons 6 (Cert.play 0 Cert.leaf) Cert.rnil)))) (Cert.rcons 8 (Cert.play 7
    Cert.leaf) Cert.rnil)))))) (Cert.rcons 5 (Cert.play 0 (Cert.rcons 1 (Cert.play 8 Cert.leaf)
    (Cert.rcons 2 (Cert.play 8 Cert.leaf) (Cert.rcons 6 (Cert.play 8 Cert.leaf) (Cert.rcons 7
    (Cert.play 8 Cert.leaf) (Cert.rcons 8 (Cert.play 2 (Cert.rcons 1 (Cert.play 6 Cert.leaf)
    (Cert.rcons 6 (Cert.play 1 Cert.leaf) (Cert.rcons 7 (Cert.play 1 Cert.leaf) Cert.rnil))))
    Cert.rnil)))))) (Cert.rcons 6 (Cert.play 0 (Cert.rcons 1 (Cert.play 8 Cert.leaf) (Cert.rcons
    2 (Cert.play 8 Cert.leaf) (Cert.rcons 5 (Cert.play 8 Cert.leaf) (Cert.rcons 7 (Cert.play 8
    Cert.leaf) (Cert.rcons 8 (Cert.play 7 (Cert.rcons 1 (Cert.play 2 (Cert.rcons 5 Cert.leaf
    Cert.rnil)) (Cert.rcons 2 (Cert.play 1 Cert.leaf) (Cert.rcons 5 (Cert.play 1 Cert.leaf)
    Cert.rnil)))) Cert.rnil)))))) (Cert.rcons 7 (Cert.play 0 (Cert.rcons 1 (Cert.play 8
    Cert.leaf) (Cert.rcons 2 (Cert.play 8 Cert.leaf) (Cert.rcons 5 (Cert.play 8 Cert.leaf)
    (Cert.rcons 6 (Cert.play 8 Cert.leaf) (Cert.rcons 8 (Cert.play 6 (Cert.rcons 1 (Cert.play 2
    Cert.leaf) (Cert.rcons 2 (Cert.play 5 (Cert.rcons 1 Cert.leaf Cert.rnil)) (Cert.rcons 5
    (Cert.play 2 Cert.leaf) Cert.rnil)))) Cert.rnil)))))) (Cert.rcons 8 (Cert.play 1 (Cert.rcons
    0 (Cert.play 7 Cert.leaf) (Cert.rcons 2 (Cert.play 7 Cert.leaf) (Cert.rcons 5 (Cert.play 7
    Cert.leaf) (Cert.rcons 6 (Cert.play 7 Cert.leaf) (Cert.rcons 7 (Cert.play 6 (Cert.rcons 0
    (Cert.play 2 Cert.leaf) (Cert.rcons 2 (Cert.play 5 (Cert.rcons 0 Cert.leaf Cert.rnil))
    (Cert.rcons 5 (Cert.play 2 Cert.leaf) Cert.rnil)))) Cert.rnil)))))) Cert.rnil))))))))
    (Cert.rcons 4 (Cert.play 0 (Cert.rcons 1 (Cert.play 7 (Cert.rcons 2 (Cert.play 6 (Cert.rcons
    3 (Cert.play 8 Cert.leaf) (Cert.rcons 5 (Cert.play 3 Cert.leaf) (Cert.rcons 8 (Cert.play 3
    Cert.leaf) Cert.rnil)))) (Cert.rcons 3 (Cert.play 5 (Cert.rcons 2 (Cert.play 6 (Cert.rcons 8
    Cert.leaf Cert.rnil)) (Cert.rcons 6 (Cert.play 2 (Cert.rcons 8 Cert.leaf Cert.rnil))
    (Cert.rcons 8 (Cert.play 2 (Cert.rcons 6 Cert.leaf Cert.rnil)) Cert.rnil)))) (Cert.rcons 5
    (Cert.play 3 (Cert.rcons 2 (Cert.play 6 Cert.leaf) (Cert.rcons 6 (Cert.play 2 (Cert.rcons 8
    Cert.leaf Cert.rnil)) (Cert.rcons 8 (Cert.play 6 Cert.leaf) Cert.rnil)))) (Cert.rcons 6
    (Cert.play 2 (Cert.rcons 3 (Cert.play 5 (Cert.rcons 8 Cert.leaf Cert.rnil)) (Cert.rcons 5
    (Cert.play 3 (Cert.rcons 8 Cert.leaf Cert.rnil)) (Cert.rcons 8 (Cert.play 3 (Cert.rcons 5
    Cert.leaf Cert.rnil)) Cert.rnil)))) (Cert.rcons 8 (Cert.play 3 (Cert.rcons 2 (Cert.play 6
    Cert.leaf) (Cert.rcons 5 (Cert.play 6 Cert.leaf) (Cert.rcons 6 (Cert.play 2 (Cert.rcons 5
    Cert.leaf Cert.rnil)) Cert.rnil)))) Cert.rnil)))))) (Cert.rcons 2 (Cert.play 6 (Cert.rcons 1
    (Cert.play 3 Cert.leaf) (Cert.rcons 3 (Cert.play 5 (Cert.rcons 1 (Cert.play 7 (Cert.rcons 8
    Cert.leaf Cert.rnil)) (Cert.rcons 7 (Cert.play 1 (Cert.rcons 8 Cert.leaf Cert.rnil))
    (Cert.rcons 8 (Cert.play 1 (Cert.rcons 7 Cert.leaf Cert.rnil)) Cert.rnil)))) (Cert.rcons 5
    (Cert.play 3 Cert.leaf) (Cert.rcons 7 (Cert.play 3 Cert.leaf) (Cert.rcons 8 (Cert.play 3
    Cert.leaf) Cert.rnil)))))) (Cert.rcons 3 (Cert.play 5 (Cert.rcons 1 (Cert.play 7 (Cert.rcons
    2 (Cert.play 6 (Cert.rcons 8 Cert.leaf Cert.rnil)) (Cert.rcons 6 (Cert.play 2 (Cert.rcons 8
    Cert.leaf Cert.rnil)) (Cert.rcons 8 (Cert.play 2 (Cert.rcons 6 Cert.leaf Cert.rnil))
    Cert.rnil)))) (Cert.rcons 2 (Cert.play 6 (Cert.rcons 1 (Cert.play 7 (Cert.rcons 8 Cert.leaf
    Cert.rnil)) (Cert.rcons 7 (Cert.play 1 (Cert.rcons 8 Cert.leaf Cert.rnil)) (Cert.rcons 8
    (Cert.play 1 (Cert.rcons 7 Cert.leaf Cert.rnil)) Cert.rnil)))) (Cert.rcons 6 (Cert.play 2
    (Cert.rcons 1 (Cert.play 8 Cert.leaf) (Cert.rcons 7 (Cert.play 1 Cert.leaf) (Cert.rcons 8
    (Cert.play 1 Cert.leaf) Cert.rnil)))) (Cert.rcons 7 (Cert.play 1 (Cert.rcons 2 (Cert.play 6
    (Cert.rcons 8 Cert.leaf Cert.rnil)) (Cert.rcons 6 (Cert.play 2 Cert.leaf) (Cert.rcons 8
    (Cert.play 2 Cert.leaf) Cert.rnil)))) (Cert.rcons 8 (Cert.play 1 (Cert.rcons 2 (Cert.play 6
    (Cert.rcons 7 Cert.leaf Cert.rnil)) (Cert.rcons 6 (Cert.play 2 Cert.leaf) (Cert.rcons 7
    (Cert.play 2 Cert.leaf) Cert.rnil)))) Cert.rnil)))))) (Cert.rcons 5 (Cert.play 3 (Cert.rcons
    1 (Cert.play 6 Cert.leaf) (Cert.rcons 2 (Cert.play 6 Cert.leaf) (Cert.rcons 6 (Cert.play 2
    (Cert.rcons 1 (Cert.play 7 (Cert.rcons 8 Cert.leaf Cert.rnil)) (Cert.rcons 7 (Cert.play 1
    Cert.leaf) (Cert.rcons 8 (Cert.play 1 Cert.leaf) Cert.rnil)))) (Cert.rcons 7 (Cert.play 6
    Cert.leaf) (Cert.rcons 8 (Cert.play 6 Cert.leaf) Cert.rnil)))))) (Cert.rcons 6 (Cert.play 2
    (Cert.rcons 1 (Cert.play 7 (Cert.rcons 3 (Cert.play 5 (Cert.rcons 8 Cert.leaf Cert.rnil))
    (Cert.rcons 5 (Cert.play 3 (Cert.rcons 8 Cert.leaf Cert.rnil)) (Cert.rcons 8 (Cert.play 3
    (Cert.rcons 5 Cert.leaf Cert.rnil)) Cert.rnil)))) (Cert.rcons 3 (Cert.play 1 Cert.leaf)
    (Cert.rcons 5 (Cert.play 1 Cert.leaf) (Cert.rcons 7 (Cert.play 1 Cert.leaf) (Cert.rcons 8
    (Cert.play 1 Cert.leaf) Cert.rnil)))))) (Cert.rcons 7 (Cert.play 1 (Cert.rcons 2 (Cert.play
    6 (Cert.rcons 3 (Cert.play 5 (Cert.rcons 8 Cert.leaf Cert.rnil)) (Cert.rcons 5 (Cert.play 3
    Cert.leaf) (Cert.rcons 8 (Cert.play 3 Cert.leaf) Cert.rnil)))) (Cert.rcons 3 (Cert.play 2
    Cert.leaf) (Cert.rcons 5 (Cert.play 2 Cert.leaf) (Cert.rcons 6 (Cert.play 2 Cert.leaf)
    (Cert.rcons 8 (Cert.play 2 Cert.leaf) Cert.rnil)))))) (Cert.rcons 8 (Cert.play 2 (Cert.rcons
    1 (Cert.play 7 (Cert.rcons 3 (Cert.play 5 (Cert.rcons 6 Cert.leaf Cert.rnil)) (Cert.rcons 5
    (Cert.play 3 (Cert.rcons 6 Cert.leaf Cert.rnil)) (Cert.rcons 6 (Cert.play 3 (Cert.rcons 5
    Cert.leaf Cert.rnil)) Cert.rnil)))) (Cert.rcons 3 (Cert.play 1 Cert.leaf) (Cert.rcons 5
    (Cert.play 1 Cert.leaf) (Cert.rcons 6 (Cert.play 1 Cert.leaf) (Cert.rcons 7 (Cert.play 1
    Cert.leaf) Cert.rnil)))))) Cert.rnil)))))))) (Cert.rcons 5 (Cert.play 4 (Cert.rcons 0
    (Cert.play 1 (Cert.rcons 2 (Cert.play 7 Cert.leaf) (Cert.rcons 3 (Cert.play 7 Cert.leaf)
    (Cert.rcons 6 (Cert.play 7 Cert.leaf) (Cert.rcons 7 (Cert.play 6 (Cert.rcons 2 (Cert.play 8
    (Cert.rcons 3 Cert.leaf Cert.rnil)) (Cert.rcons 3 (Cert.play 2 Cert.leaf) (Cert.rcons 8
    (Cert.play 2 Cert.leaf) Cert.rnil)))) (Cert.rcons 8 (Cert.play 7 Cert.leaf) Cert.rnil))))))
    (Cert.rcons 1 (Cert.play 0 (Cert.rcons 2 (Cert.play 8 Cert.leaf) (Cert.rcons 3 (Cert.play 8
    Cert.leaf) (Cert.rcons 6 (Cert.play 8 Cert.leaf) (Cert.rcons 7 (Cert.play 8 Cert.leaf)
    (Cert.rcons 8 (Cert.play 2 (Cert.rcons 3 (Cert.play 6 Cert.leaf) (Cert.rcons 6 (Cert.play 7
    (Cert.rcons 3 Cert.leaf Cert.rnil)) (Cert.rcons 7 (Cert.play 6 Cert.leaf) Cert.rnil))))
    Cert.rnil)))))) (Cert.rcons 2 (Cert.play 8 (Cert.rcons 0 (Cert.play 1 (Cert.rcons 3
    (Cert.play 7 Cert.leaf) (Cert.rcons 6 (Cert.play 7 Cert.leaf) (Cert.rcons 7 (Cert.play 3
    (Cert.rcons 6 Cert.leaf Cert.rnil)) Cert.rnil)))) (Cert.rcons 1 (Cert.play 0 Cert.leaf)
    (Cert.rcons 3 (Cert.play 0 Cert.leaf) (Cert.rcons 6 (Cert.play 0 Cert.leaf) (Cert.rcons 7
    (Cert.play 0 Cert.leaf) Cert.rnil)))))) (Cert.rcons 3 (Cert.play 0 (Cert.rcons 1 (Cert.play
    8 Cert.leaf) (Cert.rcons 2 (Cert.play 8 Cert.leaf) (Cert.rcons 6 (Cert.play 8 Cert.leaf)
    (Cert.rcons 7 (Cert.play 8 Cert.leaf) (Cert.rcons 8 (Cert.play 2 (Cert.rcons 1 (Cert.play 6
    Cert.leaf) (Cert.rcons 6 (Cert.play 1 Cert.leaf) (Cert.rcons 7 (Cert.play 1 Cert.leaf)
    Cert.rnil)))) Cert.rnil)))))) (Cert.rcons 6 (Cert.play 1 (Cert.rcons 0 (Cert.play 7
    Cert.leaf) (Cert.rcons 2 (Cert.play 7 Cert.leaf) (Cert.rcons 3 (Cert.play 7 Cert.leaf)
    (Cert.rcons 7 (Cert.play 8 (Cert.rcons 0 (Cert.play 3 (Cert.rcons 2 Cert.leaf Cert.rnil))
    (Cert.rcons 2 (Cert.play 0 Cert.leaf) (Cert.rcons 3 (Cert.play 0 Cert.leaf) Cert.rnil))))
    (Cert.rcons 8 (Cert.play 7 Cert.leaf) Cert.rnil)))))) (Cert.rcons 7 (Cert.play 2 (Cert.rcons
    0 (Cert.play 6 Cert.leaf) (Cert.rcons 1 (Cert.play 6 Cert.leaf) (Cert.rcons 3 (Cert.play 6
    Cert.leaf) (Cert.rcons 6 (Cert.play 8 (Cert.rcons 0 (Cert.play 3 (Cert.rcons 1 Cert.leaf
    Cert.rnil)) (Cert.rcons 1 (Cert.play 0 Cert.leaf) (Cert.rcons 3 (Cert.play 0 Cert.leaf)
    Cert.rnil)))) (Cert.rcons 8 (Cert.play 6 Cert.leaf) Cert.rnil)))))) (Cert.rcons 8 (Cert.play
    2 (Cert.rcons 0 (Cert.play 6 Cert.leaf) (Cert.rcons 1 (Cert.play 6 Cert.leaf) (Cert.rcons 3
    (Cert.play 6 Cert.leaf) (Cert.rcons 6 (Cert.play 7 (Cert.rcons 0 (Cert.play 1 Cert.leaf)
    (Cert.rcons 1 (Cert.play 0 (Cert.rcons 3 Cert.leaf Cert.rnil)) (Cert.rcons 3 (Cert.play 1
    Cert.leaf) Cert.rnil)))) (Cert.rcons 7 (Cert.play 6 Cert.leaf) Cert.rnil))))))
    Cert.rnil)))))))) (Cert.rcons 6 (Cert.play 4 (Cert.rcons 0 (Cert.play 3 (Cert.rcons 1
    (Cert.play 5 Cert.leaf) (Cert.rcons 2 (Cert.play 5 Cert.leaf) (Cert.rcons 5 (Cert.play 1
    (Cert.rcons 2 (Cert.play 7 Cert.leaf) (Cert.rcons 7 (Cert.play 8 (Cert.rcons 2 Cert.leaf
    Cert.rnil)) (Cert.rcons 8 (Cert.play 7 Cert.leaf) Cert.rnil)))) (Cert.rcons 7 (Cert.play 5
    Cert.leaf) (Cert.rcons 8 (Cert.play 5 Cert.leaf) Cert.rnil)))))) (Cert.rcons 1 (Cert.play 3
    (Cert.rcons 0 (Cert.play 5 Cert.leaf) (Cert.rcons 2 (Cert.play 5 Cert.leaf) (Cert.rcons 5
    (Cert.play 8 (Cert.rcons 0 (Cert.play 2 (Cert.rcons 7 Cert.leaf Cert.rnil)) (Cert.rcons 2
    (Cert.play 0 Cert.leaf) (Cert.rcons 7 (Cert.play 0 Cert.leaf) Cert.rnil)))) (Cert.rcons 7
    (Cert.play 5 Cert.leaf) (Cert.rcons 8 (Cert.play 5 Cert.leaf) Cert.rnil)))))) (Cert.rcons 2
    (Cert.play 1 (Cert.rcons 0 (Cert.play 7 Cert.leaf) (Cert.rcons 3 (Cert.play 7 Cert.leaf)
    (Cert.rcons 5 (Cert.play 7 Cert.leaf) (Cert.rcons 7 (Cert.play 8 (Cert.rcons 0 (Cert.play 3
    (Cert.rcons 5 Cert.leaf Cert.rnil)) (Cert.rcons 3 (Cert.play 0 Cert.leaf) (Cert.rcons 5
    (Cert.play 0 Cert.leaf) Cert.rnil)))) (Cert.rcons 8 (Cert.play 7 Cert.leaf) Cert.rnil))))))
    (Cert.rcons 3 (Cert.play 0 (Cert.rcons 1 (Cert.play 8 Cert.leaf) (Cert.rcons 2 (Cert.play 8
    Cert.leaf) (Cert.rcons 5 (Cert.play 8 Cert.leaf) (Cert.rcons 7 (Cert.play 8 Cert.leaf)
    (Cert.rcons 8 (Cert.play 7 (Cert.rcons 1 (Cert.play 2 (Cert.rcons 5 Cert.leaf Cert.rnil))
    (Cert.rcons 2 (Cert.play 1 Cert.leaf) (Cert.rcons 5 (Cert.play 1 Cert.leaf) Cert.rnil))))
    Cert.rnil)))))) (Cert.rcons 5 (Cert.play 1 (Cert.rcons 0 (Cert.play 7 Cert.leaf) (Cert.rcons
    2 (Cert.play 7 Cert.leaf) (Cert.rcons 3 (Cert.play 7 Cert.leaf) (Cert.rcons 7 (Cert.play 8
    (Cert.rcons 0 (Cert.play 3 (Cert.rcons 2 Cert.leaf Cert.rnil)) (Cert.rcons 2 (Cert.play 0
    Cert.leaf) (Cert.rcons 3 (Cert.play 0 Cert.leaf) Cert.rnil)))) (Cert.rcons 8 (Cert.play 7
    Cert.leaf) Cert.rnil)))))) (Cert.rcons 7 (Cert.play 8 (Cert.rcons 0 (Cert.play 3 (Cert.rcons
    1 (Cert.play 5 Cert.leaf) (Cert.rcons 2 (Cert.play 5 Cert.leaf) (Cert.rcons 5 (Cert.play 1
    (Cert.rcons 2 Cert.leaf Cert.rnil)) Cert.rnil)))) (Cert.rcons 1 (Cert.play 0 Cert.leaf)
    (Cert.rcons 2 (Cert.play 0 Cert.leaf) (Cert.rcons 3 (Cert.play 0 Cert.leaf) (Cert.rcons 5
    (Cert.play 0 Cert.leaf) Cert.rnil)))))) (Cert.rcons 8 (Cert.play 7 (Cert.rcons 0 (Cert.play
    1 Cert.leaf) (Cert.rcons 1 (Cert.play 3 (Cert.rcons 0 (Cert.play 5 Cert.leaf) (Cert.rcons 2
    (Cert.play 5 Cert.leaf) (Cert.rcons 5 (Cert.play 2 (Cert.rcons 0 Cert.leaf Cert.rnil))
    Cert.rnil)))) (Cert.rcons 2 (Cert.play 1 Cert.leaf) (Cert.rcons 3 (Cert.play 1 Cert.leaf)
    (Cert.rcons 5 (Cert.play 1 Cert.leaf) Cert.rnil)))))) Cert.rnil)))))))) (Cert.rcons 7
    (Cert.play 4 (Cert.rcons 0 (Cert.play 3 (Cert.rcons 1 (Cert.play 5 Cert.leaf) (Cert.rcons 2
    (Cert.play 5 Cert.leaf) (Cert.rcons 5 (Cert.play 2 (Cert.rcons 1 (Cert.play 6 Cert.leaf)
    (Cert.rcons 6 (Cert.play 8 (Cert.rcons 1 Cert.leaf Cert.rnil)) (Cert.rcons 8 (Cert.play 6
    Cert.leaf) Cert.rnil)))) (Cert.rcons 6 (Cert.play 5 Cert.leaf) (Cert.rcons 8 (Cert.play 5
    Cert.leaf) Cert.rnil)))))) (Cert.rcons 1 (Cert.play 0 (Cert.rcons 2 (Cert.play 8 Cert.leaf)
    (Cert.rcons 3 (Cert.play 8 Cert.leaf) (Cert.rcons 5 (Cert.play 8 Cert.leaf) (Cert.rcons 6
    (Cert.play 8 Cert.leaf) (Cert.rcons 8 (Cert.play 6 (Cert.rcons 2 (Cert.play 3 Cert.leaf)
    (Cert.rcons 3 (Cert.play 2 Cert.leaf) (Cert.rcons 5 (Cert.play 2 Cert.leaf) Cert.rnil))))
    Cert.rnil)))))) (Cert.rcons 2 (Cert.play 3 (Cert.rcons 0 (Cert.play 5 Cert.leaf) (Cert.rcons
    1 (Cert.play 5 Cert.leaf) (Cert.rcons 5 (Cert.play 8 (Cert.rcons 0 (Cert.play 1 (Cert.rcons
    6 Cert.leaf Cert.rnil)) (Cert.rcons 1 (Cert.play 0 Cert.leaf) (Cert.rcons 6 (Cert.play 0
    Cert.leaf) Cert.rnil)))) (Cert.rcons 6 (Cert.play 5 Cert.leaf) (Cert.rcons 8 (Cert.play 5
    Cert.leaf) Cert.rnil)))))) (Cert.rcons 3 (Cert.play 0 (Cert.rcons 1 (Cert.play 8 Cert.leaf)
    (Cert.rcons 2 (Cert.play 8 Cert.leaf) (Cert.rcons 5 (Cert.play 8 Cert.leaf) (Cert.rcons 6
    (Cert.play 8 Cert.leaf) (Cert.rcons 8 (Cert.play 6 (Cert.rcons 1 (Cert.play 2 Cert.leaf)
    (Cert.rcons 2 (Cert.play 5 (Cert.rcons 1 Cert.leaf Cert.rnil)) (Cert.rcons 5 (Cert.play 2
    Cert.leaf) Cert.rnil)))) Cert.rnil)))))) (Cert.rcons 5 (Cert.play 2 (Cert.rcons 0 (Cert.play
    6 Cert.leaf) (Cert.rcons 1 (Cert.play 6 Cert.leaf) (Cert.rcons 3 (Cert.play 6 Cert.leaf)
    (Cert.rcons 6 (Cert.play 8 (Cert.rcons 0 (Cert.play 3 (Cert.rcons 1 Cert.leaf Cert.rnil))
    (Cert.rcons 1 (Cert.play 0 Cert.leaf) (Cert.rcons 3 (Cert.play 0 Cert.leaf) Cert.rnil))))
    (Cert.rcons 8 (Cert.play 6 Cert.leaf) Cert.rnil)))))) (Cert.rcons 6 (Cert.play 8 (Cert.rcons
    0 (Cert.play 3 (Cert.rcons 1 (Cert.play 5 Cert.leaf) (Cert.rcons 2 (Cert.play 5 Cert.leaf)
    (Cert.rcons 5 (Cert.play 1 (Cert.rcons 2 Cert.leaf Cert.rnil)) Cert.rnil)))) (Cert.rcons 1
    (Cert.play 0 Cert.leaf) (Cert.rcons 2 (Cert.play 0 Cert.leaf) (Cert.rcons 3 (Cert.play 0
    Cert.leaf) (Cert.rcons 5 (Cert.play 0 Cert.leaf) Cert.rnil)))))) (Cert.rcons 8 (Cert.play 6
    (Cert.rcons 0 (Cert.play 2 Cert.leaf) (Cert.rcons 1 (Cert.play 2 Cert.leaf) (Cert.rcons 2
    (Cert.play 5 (Cert.rcons 0 (Cert.play 3 Cert.leaf) (Cert.rcons 1 (Cert.play 3 Cert.leaf)
    (Cert.rcons 3 (Cert.play 0 (Cert.rcons 1 Cert.leaf Cert.rnil)) Cert.rnil)))) (Cert.rcons 3
    (Cert.play 2 Cert.leaf) (Cert.rcons 5 (Cert.play 2 Cert.leaf) Cert.rnil))))))
    Cert.rnil)))))))) (Cert.rcons 8 (Cert.play 4 (Cert.rcons 0 (Cert.play 1 (Cert.rcons 2
    (Cert.play 7 Cert.leaf) (Cert.rcons 3 (Cert.play 7 Cert.leaf) (Cert.rcons 5 (Cert.play 7
    Cert.leaf) (Cert.rcons 6 (Cert.play 7 Cert.leaf) (Cert.rcons 7 (Cert.play 6 (Cert.rcons 2
    (Cert.play 5 (Cert.rcons 3 Cert.leaf Cert.rnil)) (Cert.rcons 3 (Cert.play 2 Cert.leaf)
    (Cert.rcons 5 (Cert.play 2 Cert.leaf) Cert.rnil)))) Cert.rnil)))))) (Cert.rcons 1 (Cert.play
    3 (Cert.rcons 0 (Cert.play 5 Cert.leaf) (Cert.rcons 2 (Cert.play 5 Cert.leaf) (Cert.rcons 5
    (Cert.play 2 (Cert.rcons 0 (Cert.play 6 Cert.leaf) (Cert.rcons 6 (Cert.play 7 (Cert.rcons 0
    Cert.leaf Cert.rnil)) (Cert.rcons 7 (Cert.play 6 Cert.leaf) Cert.rnil)))) (Cert.rcons 6
    (Cert.play 5 Cert.leaf) (Cert.rcons 7 (Cert.play 5 Cert.leaf) Cert.rnil)))))) (Cert.rcons 2
    (Cert.play 5 (Cert.rcons 0 (Cert.play 3 Cert.leaf) (Cert.rcons 1 (Cert.play 3 Cert.leaf)
    (Cert.rcons 3 (Cert.play 1 (Cert.rcons 0 (Cert.play 7 Cert.leaf) (Cert.rcons 6 (Cert.play 7
    Cert.leaf) (Cert.rcons 7 (Cert.play 6 (Cert.rcons 0 Cert.leaf Cert.rnil)) Cert.rnil))))
    (Cert.rcons 6 (Cert.play 3 Cert.leaf) (Cert.rcons 7 (Cert.play 3 Cert.leaf) Cert.rnil))))))
    (Cert.rcons 3 (Cert.play 1 (Cert.rcons 0 (Cert.play 7 Cert.leaf) (Cert.rcons 2 (Cert.play 7
    Cert.leaf) (Cert.rcons 5 (Cert.play 7 Cert.leaf) (Cert.rcons 6 (Cert.play 7 Cert.leaf)
    (Cert.rcons 7 (Cert.play 6 (Cert.rcons 0 (Cert.play 2 Cert.leaf) (Cert.rcons 2 (Cert.play 5
    (Cert.rcons 0 Cert.leaf Cert.rnil)) (Cert.rcons 5 (Cert.play 2 Cert.leaf) Cert.rnil))))
    Cert.rnil)))))) (Cert.rcons 5 (Cert.play 2 (Cert.rcons 0 (Cert.play 6 Cert.leaf) (Cert.rcons
    1 (Cert.play 6 Cert.leaf) (Cert.rcons 3 (Cert.play 6 Cert.leaf) (Cert.rcons 6 (Cert.play 7
    (Cert.rcons 0 (Cert.play 1 Cert.leaf) (Cert.rcons 1 (Cert.play 0 (Cert.rcons 3 Cert.leaf
    Cert.rnil)) (Cert.rcons 3 (Cert.play 1 Cert.leaf) Cert.rnil)))) (Cert.rcons 7 (Cert.play 6
    Cert.leaf) Cert.rnil)))))) (Cert.rcons 6 (Cert.play 7 (Cert.rcons 0 (Cert.play 1 Cert.leaf)
    (Cert.rcons 1 (Cert.play 3 (Cert.rcons 0 (Cert.play 5 Cert.leaf) (Cert.rcons 2 (Cert.play 5
    Cert.leaf) (Cert.rcons 5 (Cert.play 2 (Cert.rcons 0 Cert.leaf Cert.rnil)) Cert.rnil))))
    (Cert.rcons 2 (Cert.play 1 Cert.leaf) (Cert.rcons 3 (Cert.play 1 Cert.leaf) (Cert.rcons 5
    (Cert.play 1 Cert.leaf) Cert.rnil)))))) (Cert.rcons 7 (Cert.play 6 (Cert.rcons 0 (Cert.play
    2 Cert.leaf) (Cert.rcons 1 (Cert.play 2 Cert.leaf) (Cert.rcons 2 (Cert.play 5 (Cert.rcons 0
    (Cert.play 3 Cert.leaf) (Cert.rcons 1 (Cert.play 3 Cert.leaf) (Cert.rcons 3 (Cert.play 0
    (Cert.rcons 1 Cert.leaf Cert.rnil)) Cert.rnil)))) (Cert.rcons 3 (Cert.play 2 Cert.leaf)
    (Cert.rcons 5 (Cert.play 2 Cert.leaf) Cert.rnil)))))) Cert.rnil)))))))) Cert.rnil)))))))))

set_option maxRecDepth 4000 in
theorem certA_ok : cwalkF 11 true certA 0 = true := by decide

set_option maxRecDepth 20000 in
theorem certB_ok : cwalkF 11 false certB 0 = true := by decide

/-! ## The impossible tier never loses -/

theorem get_move_impossible (mark opp : String) (b : Board) (coin : Bool) (k : Nat) :
    AI.get_move "impossible" mark opp b coin k = AI._move_impossible mark opp b := by
  simp [AI.get_move]

/-- A move accepted by `is_valid_move` lands on an unoccupied cell. -/
theorem valid_move_open (b : Board) (r c : Fin 3)
    (h : b.is_valid_move (r.val : Int) (c.val : Int) = true) :
    ¬(b.cells r c = "X" ∨ b.cells r c = "O") := by
  unfold Board.is_valid_move at h
  have h1 : (0 : Int) ≤ (r.val : Int) ∧ (r.val : Int) ≤ 2 ∧
      (0 : Int) ≤ (c.val : Int) ∧ (c.val : Int) ≤ 2 := by
    have := r.isLt
    have := c.isLt
    omega
  rw [dif_pos h1] at h
  have hr : (⟨((r.val : Int)).toNat, by omega⟩ : Fin 3) = r := by
    apply Fin.ext
    simp
  have hc : (⟨((c.val : Int)).toNat, by omega⟩ : Fin 3) = c := by
    apply Fin.ext
    simp
  rw [hr, hc] at h
  simpa using h

/-- The first element of `specBestMove` analysis: the prescribed move is an
open spot whose score is maximal among all open spots. -/
theorem specBestMove_max (mark opp : String) (b : Board) (mv : Fin 3 × Fin 3)
    (h : specBestMove mark opp b = some mv) :
    mv ∈ b.get_open_spots ∧
      ∀ x ∈ b.get_open_spots, specScore mark opp b x ≤ specScore mark opp b mv := by
  unfold specBestMove at h
  match hsp : b.get_open_spots with
  | [] =>
    rw [hsp] at h
    exact Option.noConfusion h
  | rc :: rest =>
    rw [hsp] at h
    have h' : (rc :: rest).find? (fun x =>
        specScore mark opp b x ==
          (rest.map (specScore mark opp b)).foldl Max.max (specScore mark opp b rc)) =
        some mv := h
    have hmem := List.mem_of_find?_eq_some h'
    have hP := List.find?_some h'
    simp only [beq_iff_eq] at hP
    refine ⟨hmem, ?_⟩
    intro x hx
    rw [hP]
    exact foldl_max_map_le_mem (specScore mark opp b) rc rest x hx

/-- Positions reachable in a game in which the AI plays the `impossible`
tier: from the fresh board (the AI moving first or second), each AI turn
plays the cell chosen by `get_move` on the board object the AI returned,
each opponent turn plays any cell accepted by `is_valid_move`, and play
continues only while `is_game_over` is false.  The `Bool` is true when it is
the AI's turn. -/
inductive ImpGame (mark opp : String) : Board → Bool → Prop where
  | start (t : Bool) : ImpGame mark opp initialBoard t
  | aiStep (b b' : Board) (coin : Bool) (k : Nat) (mv : Fin 3 × Fin 3) (expl : String) :
      ImpGame mark opp b true → b.is_game_over = false →
      AI.get_move "impossible" mark opp b coin k = some (mv, expl, b') →
      ImpGame mark opp (b'.setCell mv.1 mv.2 mark) false
  | oppStep (b : Board) (r c : Fin 3) :
      ImpGame mark opp b false → b.is_game_over = false →
      b.is_valid_move (r.val : Int) (c.val : Int) = true →
      ImpGame mark opp (b.setCell r c opp) true

/-- The no-loss invariant: the board stays canonical, the opponent is never
the declared winner, and while the game is live the minimax value on the
mover's turn is nonnegative for the AI. -/
def NoLoss (mark opp : String) (b : Board) (t : Bool) : Prop :=
  Canonical b ∧ b.check_winner ≠ some opp ∧
    (b.is_game_over = false → 0 ≤ specMinimax mark opp 10 b t 0)

theorem imp_game_invariant (mark opp : String)
    (hpair : mark = "X" ∧ opp = "O" ∨ mark = "O" ∧ opp = "X") :
    ∀ (b : Board) (t : Bool), ImpGame mark opp b t → NoLoss mark opp b t := by
  have hm : mark = "X" ∨ mark = "O" := by
    rcases hpair with ⟨rfl, _⟩ | ⟨rfl, _⟩
    · exact Or.inl rfl
    · exact Or.inr rfl
  have ho : opp = "X" ∨ opp = "O" := by
    rcases hpair with ⟨_, rfl⟩ | ⟨_, rfl⟩
    · exact Or.inr rfl
    · exact Or.inl rfl
  have hmo : mark ≠ opp := by rcases hpair with ⟨rfl, rfl⟩ | ⟨rfl, rfl⟩ <;> decide
  intro b t hg
  induction hg with
  | start t =>
    refine ⟨canonical_initial, by rw [initial_no_winner]; simp, fun _ => ?_⟩
    cases t
    · exact cert_sound 11 false certB 0 certB_ok mark opp initialBoard 10 0 hpair
        (rep_initial mark opp) (by decide) (by decide)
    · exact cert_sound 11 true certA 0 certA_ok mark opp initialBoard 10 0 hpair
        (rep_initial mark opp) (by decide) (by decide)
  | aiStep b b' coin k mv expl hgame hgo hmv ih =>
    obtain ⟨hcan, hnw, hval⟩ := ih
    have hterm : b.check_winner = none ∧ b.is_full = false := by
      simpa [Board.is_game_over] using hgo
    have hs : b.get_open_spots ≠ [] := open_spots_ne_nil b hterm.2
    obtain ⟨mv', expl', haux, hspec⟩ := move_impossible_spec_aux mark opp b hm ho hcan hs
    rw [get_move_impossible, haux] at hmv
    have hinj := Option.some.inj hmv
    have hmveq : mv = mv' := (congrArg Prod.fst hinj).symm
    subst hmveq
    have hbeq : b = b' := congrArg (fun z => z.2.2) hinj
    subst hbeq
    match hsp : b.get_open_spots with
    | [] => exact absurd hsp hs
    | rc :: rest =>
      have hv10 : 0 ≤ specMinimax mark opp 10 b true 0 := hval hgo
      rw [specMinimax_succ_max mark opp 9 b 0 rc rest (by simp [hterm.1]) (by simp [hterm.1])
        (by simp [hterm.2]) hsp] at hv10
      obtain ⟨x, hx, hx0⟩ := (foldl_max_map_nonneg_iff
          (fun y => specMinimax mark opp 9 (b.setCell y.1 y.2 mark) false 1) rc rest).mp hv10
      have hxopen : ¬(b.cells x.1 x.2 = "X" ∨ b.cells x.1 x.2 = "O") :=
        (mem_open_spots b x).mp (by rw [hsp]; exact hx)
      have hlenx := open_spots_setCell_length b x.1 x.2 mark hm hxopen
      have hlen9 := open_spots_length_le b
      have hx0' : 0 ≤ specScore mark opp b x :=
        (specMinimax_sign_shift mark opp hm ho
          ((b.setCell x.1 x.2 mark).get_open_spots).length (b.setCell x.1 x.2 mark) false
          9 9 1 0 rfl (by omega) (by omega) (by omega) (by omega)).mp hx0
      obtain ⟨hmvmem, hmvmax⟩ := specBestMove_max mark opp b mv hspec
      have hscore : 0 ≤ specScore mark opp b mv :=
        le_trans hx0' (hmvmax x (by rw [hsp]; exact hx))
      have hmvopen : ¬(b.cells mv.1 mv.2 = "X" ∨ b.cells mv.1 mv.2 = "O") :=
        (mem_open_spots b mv).mp hmvmem
      have hlenmv := open_spots_setCell_length b mv.1 mv.2 mark hm hmvopen
      have hnw' : (b.setCell mv.1 mv.2 mark).check_winner ≠ some opp := by
        intro hw
        have hnm : ¬(b.setCell mv.1 mv.2 mark).check_winner = some mark := by
          intro hmk
          rw [hmk] at hw
          exact hmo (Option.some.inj hw)
        have heval : specScore mark opp b mv = ((0 : Nat) : Int) - 10 :=
          specMinimax_winner_opp mark opp 8 (b.setCell mv.1 mv.2 mark) false 0 hnm hw
        rw [heval] at hscore
        omega
      refine ⟨canonical_setCell_mark b hcan mv.1 mv.2 mark hm, hnw', fun _ => ?_⟩
      exact (specMinimax_sign_shift mark opp hm ho
        ((b.setCell mv.1 mv.2 mark).get_open_spots).length (b.setCell mv.1 mv.2 mark) false
        9 10 0 0 rfl (by omega) (by omega) (by omega) (by omega)).mp hscore
  | oppStep b r c hgame hgo hvalid ih =>
    obtain ⟨hcan, hnw, hval⟩ := ih
    have hterm : b.check_winner = none ∧ b.is_full = false := by
      simpa [Board.is_game_over] using hgo
    have hs : b.get_open_spots ≠ [] := open_spots_ne_nil b hterm.2
    have hopen : ¬(b.cells r c = "X" ∨ b.cells r c = "O") := valid_move_open b r c hvalid
    have hmem : (r, c) ∈ b.get_open_spots := (mem_open_spots b (r, c)).mpr hopen
    match hsp : b.get_open_spots with
    | [] => exact absurd hsp hs
    | rc :: rest =>
      have hv10 : 0 ≤ specMinimax mark opp 10 b false 0 := hval hgo
      rw [specMinimax_succ_min mark opp 9 b 0 rc rest (by simp [hterm.1]) (by simp [hterm.1])
        (by simp [hterm.2]) hsp] at hv10
      have hall := (foldl_min_map_nonneg_iff
          (fun y => specMinimax mark opp 9 (b.setCell y.1 y.2 opp) true 1) rc rest).mp hv10
      have hx0 : 0 ≤ specMinimax mark opp 9 (b.setCell r c opp) true 1 :=
        hall (r, c) (by rw [← hsp]; exact hmem)
      have hlenx := open_spots_setCell_length b r c opp ho hopen
      have hlen9 := open_spots_length_le b
      have hnw' : (b.setCell r c opp).check_winner ≠ some opp := by
        intro hw
        have hnm : ¬(b.setCell r c opp).check_winner = some mark := by
          intro hmk
          rw [hmk] at hw
          exact hmo (Option.some.inj hw)
        have heval := specMinimax_winner_opp mark opp 8 (b.setCell r c opp) true 1 hnm hw
        rw [heval] at hx0
        omega
      refine ⟨canonical_setCell_mark b hcan r c opp ho, hnw', fun _ => ?_⟩
      exact (specMinimax_sign_shift mark opp hm ho
        ((b.setCell r c opp).get_open_spots).length (b.setCell r c opp) true
        9 10 1 0 rfl (by omega) (by omega) (by omega) (by omega)).mp hx0


/-! ## Claim C3: winner lines on legally reached boards -/

theorem findSome?_exists (f : α → Option β) :
    ∀ (l : List α) (v : β), l.findSome? f = some v → ∃ x ∈ l, f x = some v := by
  intro l
  induction l with
  | nil => intro v h; exact Option.noConfusion h
  | cons a rest ih =>
    intro v h
    rw [List.findSome?_cons] at h
    cases hfa : f a with
    | some w =>
      rw [hfa] at h
      have hw : some w = some v := h
      exact ⟨a, List.mem_cons_self _ _, by rw [hfa]; exact hw⟩
    | none =>
      rw [hfa] at h
      have h' : rest.findSome? f = some v := h
      obtain ⟨x, hx, hfx⟩ := ih v h'
      exact ⟨x, List.mem_cons_of_mem _ hx, hfx⟩

/-- The number of lines whose three cells all hold the string `s`. -/
def linesFull (b : Board) (s : String) : Nat :=
  (linesList.filter (fun l =>
    b.cells l.1.1 l.1.2 == s && (b.cells l.2.1.1 l.2.1.2 == s &&
      b.cells l.2.2.1 l.2.2.2 == s))).length

/-- A declared winner names some fully-equal line. -/
theorem check_winner_some_line (b : Board) (s : String) (h : b.check_winner = some s) :
    ∃ l ∈ linesList, b.cells l.1.1 l.1.2 = s ∧ b.cells l.2.1.1 l.2.1.2 = s ∧
      b.cells l.2.2.1 l.2.2.2 = s := by
  unfold Board.check_winner at h
  obtain ⟨l, hl, hw⟩ := findSome?_exists b.lineWinner linesList s h
  refine ⟨l, hl, ?_⟩
  unfold Board.lineWinner at hw
  by_cases hc : b.cells l.1.1 l.1.2 = b.cells l.2.1.1 l.2.1.2 ∧
      b.cells l.2.1.1 l.2.1.2 = b.cells l.2.2.1 l.2.2.2
  · rw [if_pos hc] at hw
    have hs := Option.some.inj hw
    exact ⟨hs, by rw [← hc.1]; exact hs, by rw [← hc.2, ← hc.1]; exact hs⟩
  · rw [if_neg hc] at hw
    exact Option.noConfusion hw

/-- Boards reachable by an alternating sequence of legal placements: from the
fresh board either mark opens, each move goes through `place_move` and must
succeed (`True`), and play continues only while `is_game_over` is false.  The
string is the mark to move next. -/
inductive LegalReach : Board → String → Prop where
  | startX : LegalReach initialBoard "X"
  | startO : LegalReach initialBoard "O"
  | step (b : Board) (s : String) (row col : Int) (b' : Board) :
      LegalReach b s → b.is_game_over = false →
      b.place_move row col s = some (true, b') →
      LegalReach b' (if s = "X" then "O" else "X")

/-- Inversion of a successful `place_move`. -/
theorem place_move_true_inv (b : Board) (row col : Int) (s : String) (b' : Board)
    (h : b.place_move row col s = some (true, b')) :
    ∃ r c : Fin 3, ¬(b.cells r c = "X" ∨ b.cells r c = "O") ∧ b' = b.setCell r c s := by
  unfold Board.place_move at h
  match hr : pyIdx3 row with
  | none =>
    rw [hr] at h
    exact Option.noConfusion h
  | some r =>
    rw [hr] at h
    match hc : pyIdx3 col with
    | none =>
      rw [hc] at h
      exact Option.noConfusion h
    | some c =>
      rw [hc] at h
      have h' : (if b.cells r c = "X" ∨ b.cells r c = "O" then some (false, b)
          else some (true, b.setCell r c s)) = some (true, b') := h
      by_cases hocc : b.cells r c = "X" ∨ b.cells r c = "O"
      · rw [if_pos hocc] at h'
        have hfb : ((false, b) : Bool × Board) = (true, b') := Option.some.inj h'
        exact Bool.noConfusion (congrArg Prod.fst hfb)
      · rw [if_neg hocc] at h'
        have htb : ((true, b.setCell r c s) : Bool × Board) = (true, b') :=
          Option.some.inj h'
        exact ⟨r, c, hocc, (congrArg Prod.snd htb).symm⟩

/-- Legal play keeps the board canonical and the turn mark a real mark. -/
theorem legal_reach_canonical (b : Board) (s : String) (h : LegalReach b s) :
    Canonical b ∧ (s = "X" ∨ s = "O") := by
  induction h with
  | startX => exact ⟨canonical_initial, Or.inl rfl⟩
  | startO => exact ⟨canonical_initial, Or.inr rfl⟩
  | step b s row col b' hreach hgo hmv ih =>
    obtain ⟨r, c, hocc, rfl⟩ := place_move_true_inv b row col s b' hmv
    refine ⟨canonical_setCell_mark b ih.1 r c s ih.2, ?_⟩
    rcases ih.2 with rfl | rfl
    · exact Or.inr (by simp)
    · exact Or.inl (by simp)

/-- Claim C3 (amended): on boards reached by legal play, `check_winner`
returns only a real mark and only when AT LEAST one of the 8 lines is fully
that mark (one move can complete two lines at once, so "exactly one" fails);
and `is_game_over` is true whenever a winner is declared or the board is
full. -/
theorem winner_line_and_game_over :
    (∀ (b : Board) (cur s : String), LegalReach b cur → b.check_winner = some s →
        (s = "X" ∨ s = "O") ∧ 1 ≤ linesFull b s) ∧
      (∀ b : Board, (b.check_winner ≠ none ∨ b.is_full = true) → b.is_game_over = true) := by
  constructor
  · intro b cur s hreach hw
    have hcan := (legal_reach_canonical b cur hreach).1
    obtain ⟨l, hl, h1, h2, h3⟩ := check_winner_some_line b s hw
    obtain ⟨hd1, hd2, hd3⟩ := linesList_distinct l hl
    have hsm : s = "X" ∨ s = "O" := by
      rcases hcan l.1.1 l.1.2 with hx | ho | hlab
      · exact Or.inl (by rw [← h1]; exact hx)
      · exact Or.inr (by rw [← h1]; exact ho)
      · exfalso
        rcases hcan l.2.1.1 l.2.1.2 with hx2 | ho2 | hlab2
        · exact (posLabel_ne_mark l.1.1 l.1.2).1 (by rw [← hlab, h1, ← h2]; exact hx2)
        · exact (posLabel_ne_mark l.1.1 l.1.2).2 (by rw [← hlab, h1, ← h2]; exact ho2)
        · have : posLabel l.2.1.1 l.2.1.2 = posLabel l.1.1 l.1.2 := by
            rw [← hlab2, h2, ← h1, hlab]
          have heq := (posLabel_inj l.2.1.1 l.2.1.2 l.1.1 l.1.2).mp this
          exact hd1 (Prod.ext heq.1.symm heq.2.symm)
    refine ⟨hsm, ?_⟩
    have hmem : l ∈ linesList.filter (fun l =>
        b.cells l.1.1 l.1.2 == s && (b.cells l.2.1.1 l.2.1.2 == s &&
          b.cells l.2.2.1 l.2.2.2 == s)) :=
      List.mem_filter.mpr ⟨hl, by simp [h1, h2, h3]⟩
    exact List.length_pos_of_mem hmem
  · intro b h
    unfold Board.is_game_over
    rcases h with h | h
    · have hne : (b.check_winner == none) = false := by
        cases hcw : b.check_winner
        · exact absurd hcw h
        · rfl
      rw [hne]
      rfl
    · rw [h]
      simp

/-- The final board of a fully legal alternating game in which X's last
placement at (0,0) completes both row 0 and column 0 simultaneously. -/
def c3Board : Board :=
  ((((((((initialBoard.setCell 0 1 "X").setCell 1 1 "O").setCell 0 2 "X").setCell 1 2
    "O").setCell 1 0 "X").setCell 2 1 "O").setCell 2 0 "X").setCell 2 2 "O").setCell 0 0 "X"

theorem c3_reach : LegalReach c3Board "O" := by
  have h0 : LegalReach initialBoard "X" := LegalReach.startX
  have h1 : LegalReach (initialBoard.setCell 0 1 "X") "O" :=
    LegalReach.step initialBoard "X" 0 1 _ h0 (by decide) (by decide)
  have h2 : LegalReach ((initialBoard.setCell 0 1 "X").setCell 1 1 "O") "X" :=
    LegalReach.step _ "O" 1 1 _ h1 (by decide) (by decide)
  have h3 : LegalReach (((initialBoard.setCell 0 1 "X").setCell 1 1 "O").setCell 0 2 "X")
      "O" :=
    LegalReach.step _ "X" 0 2 _ h2 (by decide) (by decide)
  have h4 : LegalReach ((((initialBoard.setCell 0 1 "X").setCell 1 1 "O").setCell 0 2
      "X").setCell 1 2 "O") "X" :=
    LegalReach.step _ "O" 1 2 _ h3 (by decide) (by decide)
  have h5 : LegalReach (((((initialBoard.setCell 0 1 "X").setCell 1 1 "O").setCell 0 2
      "X").setCell 1 2 "O").setCell 1 0 "X") "O" :=
    LegalReach.step _ "X" 1 0 _ h4 (by decide) (by decide)
  have h6 : LegalReach ((((((initialBoard.setCell 0 1 "X").setCell 1 1 "O").setCell 0 2
      "X").setCell 1 2 "O").setCell 1 0 "X").setCell 2 1 "O") "X" :=
    LegalReach.step _ "O" 2 1 _ h5 (by decide) (by decide)
  have h7 : LegalReach (((((((initialBoard.setCell 0 1 "X").setCell 1 1 "O").setCell 0 2
      "X").setCell 1 2 "O").setCell 1 0 "X").setCell 2 1 "O").setCell 2 0 "X") "O" :=
    LegalReach.step _ "X" 2 0 _ h6 (by decide) (by decide)
  have h8 : LegalReach ((((((((initialBoard.setCell 0 1 "X").setCell 1 1 "O").setCell 0 2
      "X").setCell 1 2 "O").setCell 1 0 "X").setCell 2 1 "O").setCell 2 0 "X").setCell 2 2
      "O") "X" :=
    LegalReach.step _ "O" 2 2 _ h7 (by decide) (by decide)
  exact LegalReach.step _ "X" 0 0 _ h8 (by decide) (by decide)

/-- Claim C3, counterexample: a board reached by a fully legal alternating
game on which the declared winner "X" holds TWO complete lines (row 0 and
column 0), refuting "exactly one of the 8 lines". -/
theorem winner_two_lines_reachable :
    LegalReach c3Board "O" ∧ c3Board.check_winner = some "X" ∧
      linesFull c3Board "X" = 2 :=
  ⟨c3_reach, by decide, by decide⟩

/-- Claim C3 witness: the amended theorem applied to the double-line board
and to a winner-bearing board. -/
theorem winner_line_and_game_over_witness :
    (("X" = "X" ∨ "X" = "O") ∧ 1 ≤ linesFull c3Board "X") ∧
      c3Board.is_game_over = true :=
  ⟨winner_line_and_game_over.1 c3Board "O" "X" c3_reach (by decide),
   winner_line_and_game_over.2 c3Board (Or.inl (by decide))⟩

/-! ## Claim C2, completed: the opponent never completes a line -/

theorem findSome?_none (f : α → Option β) :
    ∀ (l : List α), l.findSome? f = none → ∀ x ∈ l, f x = none := by
  intro l
  induction l with
  | nil => intro _ x hx; cases hx
  | cons a rest ih =>
    intro h x hx
    rw [List.findSome?_cons] at h
    cases hfa : f a with
    | some w =>
      rw [hfa] at h
      exact Option.noConfusion h
    | none =>
      rw [hfa] at h
      rcases List.mem_cons.mp hx with rfl | hr
      · exact hfa
      · exact ih h x hr

theorem findSome?_all_some (f : α → Option β) (v : β) :
    ∀ (l : List α), (∀ x ∈ l, f x = none ∨ f x = some v) →
      (∃ x ∈ l, f x = some v) → l.findSome? f = some v := by
  intro l
  induction l with
  | nil =>
    rintro _ ⟨x, hx, _⟩
    cases hx
  | cons a rest ih =>
    rintro hall ⟨x, hx, hfx⟩
    rw [List.findSome?_cons]
    rcases hall a (List.mem_cons_self _ _) with ha | ha
    · rw [ha]
      rcases List.mem_cons.mp hx with rfl | hr
      · rw [ha] at hfx
        exact Option.noConfusion hfx
      · exact ih (fun y hy => hall y (List.mem_cons_of_mem _ hy)) ⟨x, hr, hfx⟩
    · rw [ha]

theorem linesFull_pos_exists (b : Board) (s : String) (h : linesFull b s ≠ 0) :
    ∃ l ∈ linesList, b.cells l.1.1 l.1.2 = s ∧ b.cells l.2.1.1 l.2.1.2 = s ∧
      b.cells l.2.2.1 l.2.2.2 = s := by
  have hne : linesList.filter (fun l =>
      b.cells l.1.1 l.1.2 == s && (b.cells l.2.1.1 l.2.1.2 == s &&
        b.cells l.2.2.1 l.2.2.2 == s)) ≠ [] := by
    intro he
    apply h
    unfold linesFull
    rw [he]
    rfl
  obtain ⟨l, hl⟩ := List.exists_mem_of_ne_nil _ hne
  obtain ⟨hmem, hpred⟩ := List.mem_filter.mp hl
  simp only [Bool.and_eq_true, beq_iff_eq] at hpred
  exact ⟨l, hmem, hpred.1, hpred.2.1, hpred.2.2⟩

/-- Writing a different string cannot create a full-`s` line. -/
theorem linesFull_setCell_other (b : Board) (r c : Fin 3) (v s : String) (hv : v ≠ s)
    (h : linesFull b s = 0) : linesFull (b.setCell r c v) s = 0 := by
  by_contra hne
  obtain ⟨l, hl, h1, h2, h3⟩ := linesFull_pos_exists _ s hne
  have hc1 : b.cells l.1.1 l.1.2 = s := by
    rw [setCell_cells] at h1
    by_cases he : l.1.1 = r ∧ l.1.2 = c
    · rw [if_pos he] at h1
      exact absurd h1 hv
    · rwa [if_neg he] at h1
  have hc2 : b.cells l.2.1.1 l.2.1.2 = s := by
    rw [setCell_cells] at h2
    by_cases he : l.2.1.1 = r ∧ l.2.1.2 = c
    · rw [if_pos he] at h2
      exact absurd h2 hv
    · rwa [if_neg he] at h2
  have hc3 : b.cells l.2.2.1 l.2.2.2 = s := by
    rw [setCell_cells] at h3
    by_cases he : l.2.2.1 = r ∧ l.2.2.2 = c
    · rw [if_pos he] at h3
      exact absurd h3 hv
    · rwa [if_neg he] at h3
  have hmem : l ∈ linesList.filter (fun l =>
      b.cells l.1.1 l.1.2 == s && (b.cells l.2.1.1 l.2.1.2 == s &&
        b.cells l.2.2.1 l.2.2.2 == s)) :=
    List.mem_filter.mpr ⟨hl, by simp [hc1, hc2, hc3]⟩
  have hpos := List.length_pos_of_mem hmem
  unfold linesFull at h
  omega

/-- On a canonical board with no full line of the AI's mark, a full line of
the opponent's mark makes `check_winner` return the opponent. -/
theorem opp_line_winner (mark opp : String) (b : Board)
    (hpair : mark = "X" ∧ opp = "O" ∨ mark = "O" ∧ opp = "X")
    (hb : Canonical b) (hnm : linesFull b mark = 0) (hol : linesFull b opp ≠ 0) :
    b.check_winner = some opp := by
  obtain ⟨l0, hl0, g1, g2, g3⟩ := linesFull_pos_exists b opp hol
  unfold Board.check_winner
  apply findSome?_all_some
  · intro l hl
    unfold Board.lineWinner
    by_cases hc : b.cells l.1.1 l.1.2 = b.cells l.2.1.1 l.2.1.2 ∧
        b.cells l.2.1.1 l.2.1.2 = b.cells l.2.2.1 l.2.2.2
    · right
      rw [if_pos hc]
      obtain ⟨hd1, hd2, hd3⟩ := linesList_distinct l hl
      have hcm : b.cells l.1.1 l.1.2 = mark ∨ b.cells l.1.1 l.1.2 = opp := by
        rcases hb l.1.1 l.1.2 with hx | ho' | hlab
        · rcases hpair with ⟨rfl, rfl⟩ | ⟨rfl, rfl⟩
          · exact Or.inl hx
          · exact Or.inr hx
        · rcases hpair with ⟨rfl, rfl⟩ | ⟨rfl, rfl⟩
          · exact Or.inr ho'
          · exact Or.inl ho'
        · exfalso
          rcases hb l.2.1.1 l.2.1.2 with hx2 | ho2 | hlab2
          · exact (posLabel_ne_mark l.1.1 l.1.2).1 (by rw [← hlab, hc.1]; exact hx2)
          · exact (posLabel_ne_mark l.1.1 l.1.2).2 (by rw [← hlab, hc.1]; exact ho2)
          · have hll : posLabel l.2.1.1 l.2.1.2 = posLabel l.1.1 l.1.2 := by
              rw [← hlab2, ← hc.1, hlab]
            have heq := (posLabel_inj l.2.1.1 l.2.1.2 l.1.1 l.1.2).mp hll
            exact hd1 (Prod.ext heq.1.symm heq.2.symm)
      rcases hcm with hm' | ho'
      · exfalso
        have hmem : l ∈ linesList.filter (fun l =>
            b.cells l.1.1 l.1.2 == mark && (b.cells l.2.1.1 l.2.1.2 == mark &&
              b.cells l.2.2.1 l.2.2.2 == mark)) :=
          List.mem_filter.mpr ⟨hl,
            by simp [hm', hc.1.symm.trans hm', (hc.2.symm.trans (hc.1.symm.trans hm'))]⟩
        have hpos := List.length_pos_of_mem hmem
        unfold linesFull at hnm
        omega
      · rw [ho']
    · left
      rw [if_neg hc]
  · refine ⟨l0, hl0, ?_⟩
    unfold Board.lineWinner
    rw [if_pos ⟨by rw [g1, g2], by rw [g2, g3]⟩, g1]

/-- At every reachable position of an impossible-tier game, no line is fully
the opponent's mark. -/
theorem imp_game_no_opp_line (mark opp : String)
    (hpair : mark = "X" ∧ opp = "O" ∨ mark = "O" ∧ opp = "X") :
    ∀ (b : Board) (t : Bool), ImpGame mark opp b t → linesFull b opp = 0 := by
  have hm : mark = "X" ∨ mark = "O" := by
    rcases hpair with ⟨rfl, _⟩ | ⟨rfl, _⟩
    · exact Or.inl rfl
    · exact Or.inr rfl
  have ho : opp = "X" ∨ opp = "O" := by
    rcases hpair with ⟨_, rfl⟩ | ⟨_, rfl⟩
    · exact Or.inr rfl
    · exact Or.inl rfl
  have hmo : mark ≠ opp := by rcases hpair with ⟨rfl, rfl⟩ | ⟨rfl, rfl⟩ <;> decide
  intro b t hg
  induction hg with
  | start t =>
    rcases ho with rfl | rfl <;> decide
  | aiStep b b' coin k mv expl hgame hgo hmv ih =>
    have hinv := imp_game_invariant mark opp hpair b true hgame
    have hterm : b.check_winner = none ∧ b.is_full = false := by
      simpa [Board.is_game_over] using hgo
    have hsne := open_spots_ne_nil b hterm.2
    obtain ⟨mv2, expl2, haux, hspec⟩ := move_impossible_spec_aux mark opp b hm ho hinv.1 hsne
    rw [get_move_impossible, haux] at hmv
    have hinj := Option.some.inj hmv
    have hbeq : b = b' := congrArg (fun z => z.2.2) hinj
    subst hbeq
    exact linesFull_setCell_other b mv.1 mv.2 mark opp hmo ih
  | oppStep b r c hgame hgo hvalid ih =>
    by_contra hne
    have hinv' := imp_game_invariant mark opp hpair (b.setCell r c opp) true
      (ImpGame.oppStep b r c hgame hgo hvalid)
    have hterm : b.check_winner = none ∧ b.is_full = false := by
      simpa [Board.is_game_over] using hgo
    have hnm : linesFull b mark = 0 := by
      by_contra hbm
      obtain ⟨l, hl, k1, k2, k3⟩ := linesFull_pos_exists b mark hbm
      have hnone := findSome?_none b.lineWinner linesList hterm.1 l hl
      unfold Board.lineWinner at hnone
      rw [if_pos ⟨by rw [k1, k2], by rw [k2, k3]⟩] at hnone
      exact Option.noConfusion hnone
    have hnm' : linesFull (b.setCell r c opp) mark = 0 :=
      linesFull_setCell_other b r c opp mark (Ne.symm hmo) hnm
    have hw := opp_line_winner mark opp (b.setCell r c opp) hpair hinv'.1 hnm' hne
    exact hinv'.2.1 hw

/-- Claim C2: in any game in which the AI plays the `impossible` tier (moving
first or second, with either mark assignment), the opposing mark never
completes three in a row: at every reachable position no line is fully the
opponent's mark, and `check_winner` never returns the opponent's mark — the
exhaustive-search tier never loses, whatever legal moves the opponent plays. -/
theorem impossible_never_loses (mark opp : String) (b : Board) (t : Bool)
    (hpair : mark = "X" ∧ opp = "O" ∨ mark = "O" ∧ opp = "X")
    (hg : ImpGame mark opp b t) :
    linesFull b opp = 0 ∧ b.check_winner ≠ some opp :=
  ⟨imp_game_no_opp_line mark opp hpair b t hg,
   (imp_game_invariant mark opp hpair b t hg).2.1⟩

/-- Claim C2 witness: after the opponent opens in the corner against a
second-moving AI, the opponent has no full line and is not the declared
winner. -/
theorem impossible_never_loses_witness :
    linesFull (initialBoard.setCell 0 0 "O") "O" = 0 ∧
      (initialBoard.setCell 0 0 "O").check_winner ≠ some "O" :=
  impossible_never_loses "X" "O" (initialBoard.setCell 0 0 "O") true
    (Or.inl ⟨rfl, rfl⟩)
    (ImpGame.oppStep initialBoard 0 0 (ImpGame.start false) (by decide) (by decide))
